import Mathlib

/-!
# Anonymous Realtime Gallery: persistence layer and session gate

A shallow embedding of `src/database.js` (class `DatabaseManager`) and of
`src/middleware/auth.js`.

The SQLite database is a record of four tables, each a list of rows in
insertion order.  Every prepared statement of `database.js` is a function on
that record; the JavaScript methods are state-passing functions that return
the store left behind together with the value returned or the error thrown.
`CURRENT_TIMESTAMP` is an explicit argument `now`.  SQLite `INTEGER` columns
are mathematical integers.
-/

set_option autoImplicit false

namespace Gallery

/-! ## Tables (`createTables`) -/

/-- Row of `photos`. -/
structure Photo where
  id : String
  filename : String
  original_name : String
  size : Int
  likes : Int
  report_count : Int
  status : String
  created_at : Nat
  uploaded_at : Nat
  approved_at : Option Nat
deriving DecidableEq, Repr

/-- Row of `reports`. -/
structure Report where
  id : Nat
  photo_id : String
  reason : String
  reported_at : Nat
deriving DecidableEq, Repr

/-- Row of `user_likes`. -/
structure UserLike where
  id : Nat
  photo_id : String
  user_identifier : String
  ip_address : Option String
  user_agent : Option String
  liked_at : Nat
deriving DecidableEq, Repr

/-- Row of `user_reports`. -/
structure UserReport where
  id : Nat
  photo_id : String
  user_identifier : String
  ip_address : Option String
  user_agent : Option String
  reason : String
  reported_at : Nat
deriving DecidableEq, Repr

/-- The database: the four tables the workflow touches and the `AUTOINCREMENT`
counters of the three tables with an integer key. -/
structure Store where
  photos : List Photo
  reports : List Report
  user_likes : List UserLike
  user_reports : List UserReport
  seq_reports : Nat
  seq_user_likes : Nat
  seq_user_reports : Nat
deriving DecidableEq, Repr

/-- The database right after `createTables` on a fresh file. -/
def Store.empty : Store :=
  { photos := [], reports := [], user_likes := [], user_reports := [],
    seq_reports := 0, seq_user_likes := 0, seq_user_reports := 0 }

/-- What a method throws: an `SqliteError` carrying `code`, or the `TypeError`
of reading a property of `undefined`. -/
inductive JsError where
  | sqlite (code : String)
  | typeError
deriving DecidableEq, Repr

/-- How a call ends: it returns a value or it throws. -/
inductive Outcome (α : Type) where
  | returned (value : α)
  | threw (error : JsError)
deriving DecidableEq, Repr

/-- Constraint `PRIMARY KEY` of `photos`: no two rows share an id. -/
def Store.photoKeyUnique (s : Store) : Prop :=
  (s.photos.map (fun p => p.id)).Nodup

/-- Constraint `UNIQUE(photo_id, user_identifier)` of `user_likes`. -/
def Store.likeKeyUnique (s : Store) : Prop :=
  (s.user_likes.map (fun r => (r.photo_id, r.user_identifier))).Nodup

/-- Constraint `UNIQUE(photo_id, user_identifier)` of `user_reports`. -/
def Store.reportKeyUnique (s : Store) : Prop :=
  (s.user_reports.map (fun r => (r.photo_id, r.user_identifier))).Nodup

/-- Does a photo row with this id exist (the parent side of the foreign keys). -/
def Store.hasPhoto (s : Store) (photoId : String) : Bool :=
  s.photos.any (fun p => decide (p.id = photoId))

/-- Constraint `FOREIGN KEY (photo_id) REFERENCES photos (id)` on the three child tables
(`foreign_keys = ON`): every child row points at an existing photo. -/
def Store.foreignKeysHold (s : Store) : Prop :=
  (∀ r ∈ s.reports, s.hasPhoto r.photo_id = true) ∧
  (∀ r ∈ s.user_likes, s.hasPhoto r.photo_id = true) ∧
  (∀ r ∈ s.user_reports, s.hasPhoto r.photo_id = true)

instance (s : Store) : Decidable s.photoKeyUnique := by
  unfold Store.photoKeyUnique; infer_instance

instance (s : Store) : Decidable s.likeKeyUnique := by
  unfold Store.likeKeyUnique; infer_instance

instance (s : Store) : Decidable s.reportKeyUnique := by
  unfold Store.reportKeyUnique; infer_instance

instance (s : Store) : Decidable s.foreignKeysHold := by
  unfold Store.foreignKeysHold; infer_instance

/-! ## Statements on `photos` -/

/-- Statement `SELECT * FROM photos WHERE id = ?` read with `.get`: the first matching row. -/
def getPhotoById (s : Store) (id : String) : Option Photo :=
  s.photos.find? (fun p => decide (p.id = id))

/-- Statement `UPDATE photos SET ... WHERE cond`: every matching row is rewritten; the
second component is `changes`. -/
def updatePhotos (s : Store) (cond : Photo → Bool) (set : Photo → Photo) : Store × Nat :=
  ({ s with photos := s.photos.map (fun p => if cond p then set p else p) },
   (s.photos.filter cond).length)

/-- Statement `DELETE FROM photos WHERE cond` with `ON DELETE CASCADE` on the three child
tables: the child rows of every deleted photo go with it. -/
def deletePhotos (s : Store) (cond : Photo → Bool) : Store × Nat :=
  let deleted := s.photos.filter cond
  let gone : String → Bool := fun pid => deleted.any (fun p => decide (p.id = pid))
  ({ s with
      photos := s.photos.filter (fun p => !cond p),
      reports := s.reports.filter (fun r => !gone r.photo_id),
      user_likes := s.user_likes.filter (fun r => !gone r.photo_id),
      user_reports := s.user_reports.filter (fun r => !gone r.photo_id) },
   deleted.length)

/-- Argument `photoData` as `addPhoto` receives it; `likes`, `reportCount` and `status`
may be left out. -/
structure PhotoData where
  id : String
  filename : String
  originalName : String
  size : Int
  likes : Option Int
  reportCount : Option Int
  status : Option String
  createdAt : Nat
  uploadedAt : Nat
deriving DecidableEq, Repr

/-- Method `addPhoto`: `INSERT INTO photos`; `x || d` replaces a missing, zero or
empty value by the default. -/
def addPhoto (s : Store) (photoData : PhotoData) : Store × Outcome Unit :=
  if s.hasPhoto photoData.id then
    (s, .threw (.sqlite "SQLITE_CONSTRAINT_PRIMARYKEY"))
  else
    ({ s with photos := s.photos ++ [{
        id := photoData.id
        filename := photoData.filename
        original_name := photoData.originalName
        size := photoData.size
        likes := photoData.likes.getD 0
        report_count := photoData.reportCount.getD 0
        status := match photoData.status with
          | none => "pending"
          | some st => if st = "" then "pending" else st
        created_at := photoData.createdAt
        uploaded_at := photoData.uploadedAt
        approved_at := none }] },
     .returned ())

/-- Method `deletePhoto`: `DELETE FROM photos WHERE id = ?`. -/
def deletePhoto (s : Store) (id : String) : Store × Nat :=
  deletePhotos s (fun p => decide (p.id = id))

/-- Method `approvePhoto`: `UPDATE photos SET status = 'approved', approved_at =
CURRENT_TIMESTAMP WHERE id = ? AND status = 'pending'`. -/
def approvePhoto (s : Store) (now : Nat) (id : String) : Store × Nat :=
  updatePhotos s (fun p => decide (p.id = id) && decide (p.status = "pending"))
    (fun p => { p with status := "approved", approved_at := some now })

/-- Method `rejectPhoto`: `DELETE FROM photos WHERE id = ? AND status = 'pending'`. -/
def rejectPhoto (s : Store) (id : String) : Store × Nat :=
  deletePhotos s (fun p => decide (p.id = id) && decide (p.status = "pending"))

/-! ## Likes -/

/-- Method `hasUserLikedPhoto`: is there a `user_likes` row for the pair. -/
def hasUserLikedPhoto (s : Store) (photoId userIdentifier : String) : Bool :=
  s.user_likes.any (fun r => decide (r.photo_id = photoId) && decide (r.user_identifier = userIdentifier))

/-- Statement `INSERT INTO user_likes (photo_id, user_identifier, ip_address, user_agent)`:
the unique key is checked as the row goes in, the foreign key when the
statement ends; a failed statement leaves the database as it was. -/
def insertUserLike (s : Store) (now : Nat) (photoId userIdentifier : String)
    (ipAddress userAgent : Option String) : Except JsError Store :=
  if hasUserLikedPhoto s photoId userIdentifier then
    .error (.sqlite "SQLITE_CONSTRAINT_UNIQUE")
  else if !s.hasPhoto photoId then
    .error (.sqlite "SQLITE_CONSTRAINT_FOREIGNKEY")
  else
    .ok { s with
      user_likes := s.user_likes ++ [{
        id := s.seq_user_likes + 1
        photo_id := photoId
        user_identifier := userIdentifier
        ip_address := ipAddress
        user_agent := userAgent
        liked_at := now }]
      seq_user_likes := s.seq_user_likes + 1 }

/-- The object a like method returns: `{ alreadyLiked: true }`,
`{ notLiked: true }`, `{ success: true, likes, action }` or
`{ success: false, error }`. -/
inductive LikeResult where
  | alreadyLiked
  | notLiked
  | success (likes : Int) (action : String)
  | failure (error : String)
deriving DecidableEq, Repr

/-- Method `recordUserLike`. -/
def recordUserLike (s : Store) (now : Nat) (photoId userIdentifier : String)
    (ipAddress userAgent : Option String) : Store × Outcome LikeResult :=
  if hasUserLikedPhoto s photoId userIdentifier then
    (s, .returned .alreadyLiked)
  else
    match insertUserLike s now photoId userIdentifier ipAddress userAgent with
    | .error e =>
      -- catch: only the unique-key violation is translated
      if e = .sqlite "SQLITE_CONSTRAINT_UNIQUE" then (s, .returned .alreadyLiked) else (s, .threw e)
    | .ok s1 =>
      let r := updatePhotos s1
        (fun p => decide (p.id = photoId) && decide (p.status = "approved"))
        (fun p => { p with likes := p.likes + 1 })
      if r.2 > 0 then
        match getPhotoById r.1 photoId with
        | some p => (r.1, .returned (.success p.likes "liked"))
        | none => (r.1, .threw .typeError)
      else
        (r.1, .returned (.failure "Photo not found or not approved"))

/-- Method `removeUserLike`. -/
def removeUserLike (s : Store) (photoId userIdentifier : String) :
    Store × Outcome LikeResult :=
  if !hasUserLikedPhoto s photoId userIdentifier then
    (s, .returned .notLiked)
  else
    let isPair : UserLike → Bool :=
      fun r => decide (r.photo_id = photoId) && decide (r.user_identifier = userIdentifier)
    let changes := (s.user_likes.filter isPair).length
    let s1 := { s with user_likes := s.user_likes.filter (fun r => !isPair r) }
    if changes > 0 then
      let r := updatePhotos s1
        (fun p => decide (p.id = photoId) && decide (p.status = "approved") && decide (p.likes > 0))
        (fun p => { p with likes := p.likes - 1 })
      match getPhotoById r.1 photoId with
      | some p => (r.1, .returned (.success p.likes "unliked"))
      | none => (r.1, .threw .typeError)
    else
      (s1, .returned (.failure "Failed to remove like"))

/-- Method `toggleUserLike`. -/
def toggleUserLike (s : Store) (now : Nat) (photoId userIdentifier : String)
    (ipAddress userAgent : Option String) : Store × Outcome LikeResult :=
  if hasUserLikedPhoto s photoId userIdentifier then
    removeUserLike s photoId userIdentifier
  else
    recordUserLike s now photoId userIdentifier ipAddress userAgent

/-! ## Reports -/

/-- Method `hasUserReportedPhoto`: is there a `user_reports` row for the pair. -/
def hasUserReportedPhoto (s : Store) (photoId userIdentifier : String) : Bool :=
  s.user_reports.any
    (fun r => decide (r.photo_id = photoId) && decide (r.user_identifier = userIdentifier))

/-- Statement `INSERT INTO user_reports (photo_id, user_identifier, ip_address, user_agent,
reason)`. -/
def insertUserReport (s : Store) (now : Nat) (photoId userIdentifier reason : String)
    (ipAddress userAgent : Option String) : Except JsError Store :=
  if hasUserReportedPhoto s photoId userIdentifier then
    .error (.sqlite "SQLITE_CONSTRAINT_UNIQUE")
  else if !s.hasPhoto photoId then
    .error (.sqlite "SQLITE_CONSTRAINT_FOREIGNKEY")
  else
    .ok { s with
      user_reports := s.user_reports ++ [{
        id := s.seq_user_reports + 1
        photo_id := photoId
        user_identifier := userIdentifier
        ip_address := ipAddress
        user_agent := userAgent
        reason := reason
        reported_at := now }]
      seq_user_reports := s.seq_user_reports + 1 }

/-- Statement `INSERT OR IGNORE INTO reports (photo_id, reason, reported_at)`: `OR IGNORE`
does not cover a foreign-key violation, and `reports` has no other constraint
a fresh key could break. -/
def insertReport (s : Store) (now : Nat) (photoId reason : String) : Except JsError Store :=
  if !s.hasPhoto photoId then
    .error (.sqlite "SQLITE_CONSTRAINT_FOREIGNKEY")
  else
    .ok { s with
      reports := s.reports ++ [{
        id := s.seq_reports + 1
        photo_id := photoId
        reason := reason
        reported_at := now }]
      seq_reports := s.seq_reports + 1 }

/-- The object `recordUserReport` returns: `{ alreadyReported: true }`,
`{ success: true, reportCount }` or `{ success: false, error }`. -/
inductive ReportResult where
  | alreadyReported
  | success (reportCount : Int)
  | failure (error : String)
deriving DecidableEq, Repr

/-- The `catch` of `recordUserReport`: a unique-key violation becomes
`{ alreadyReported: true }`, every other error is thrown again. -/
def catchReport (s : Store) (e : JsError) : Store × Outcome ReportResult :=
  if e = .sqlite "SQLITE_CONSTRAINT_UNIQUE" then (s, .returned .alreadyReported) else (s, .threw e)

/-- Method `recordUserReport`. -/
def recordUserReport (s : Store) (now : Nat) (photoId userIdentifier reason : String)
    (ipAddress userAgent : Option String) : Store × Outcome ReportResult :=
  if hasUserReportedPhoto s photoId userIdentifier then
    (s, .returned .alreadyReported)
  else
    match insertUserReport s now photoId userIdentifier reason ipAddress userAgent with
    | .error e => catchReport s e
    | .ok s1 =>
      match insertReport s1 now photoId reason with
      | .error e => catchReport s1 e
      | .ok s2 =>
        let r := updatePhotos s2 (fun p => decide (p.id = photoId))
          (fun p => { p with report_count := p.report_count + 1 })
        if r.2 > 0 then
          match getPhotoById r.1 photoId with
          | some p => (r.1, .returned (.success p.report_count))
          | none => (r.1, .threw .typeError)
        else
          (r.1, .returned (.failure "Photo not found"))

/-! ## Session tokens (`middleware/auth.js`)

`jsonwebtoken` is an external library: `jwt.sign` and `jwt.verify` are taken as
a parameter.  Time is in seconds, so `'15m'` is `900` and `'7d'` is `604800`.
A claim that is absent (`undefined`) is `none`. -/

/-- The object a token is signed over (`payload` in `generateTokens`). -/
structure Payload where
  username : Option String
  id : Option Int
  role : Option String
  type : Option String
deriving DecidableEq, Repr

/-- What `jwt.verify` yields for a token it accepts: the signed claims with the
`iat` and `exp` that `jwt.sign` added. -/
structure Decoded extends Payload where
  iat : Option Nat
  exp : Option Nat
deriving DecidableEq, Repr

/-- Result of `jwt.verify`: the decoded claims, or an error with its `name`. -/
inductive VerifyResult where
  | ok (decoded : Decoded)
  | err (name : String)
deriving DecidableEq, Repr

/-- The two library calls the module makes: `sign payload secret expiresIn clock`
and `verify token secret clock`. -/
structure JwtLib where
  sign : Payload → String → Nat → Nat → String
  verify : String → String → Nat → VerifyResult

/-- The contract of the library the module relies on: a token signed at `t0` for
`expiresIn` seconds verifies under the same secret to the signed claims, with
`iat = t0` and `exp = t0 + expiresIn`, as long as the clock has not reached
`exp`, and fails with `TokenExpiredError` from then on. -/
def JwtLib.Faithful (jwt : JwtLib) : Prop :=
  ∀ (payload : Payload) (secret : String) (expiresIn t0 t1 : Nat),
    jwt.verify (jwt.sign payload secret expiresIn t0) secret t1 =
      if t1 < t0 + expiresIn then
        .ok { toPayload := payload, iat := some t0, exp := some (t0 + expiresIn) }
      else .err "TokenExpiredError"

/-- Builtin `String.prototype.split(' ')` on the characters of a string. -/
def splitSpace : List Char → List (List Char)
  | [] => [[]]
  | c :: cs =>
    if c = ' ' then [] :: splitSpace cs
    else
      match splitSpace cs with
      | [] => [[c]]
      | seg :: rest => (c :: seg) :: rest

/-- Expression `authHeader && authHeader.split(' ')[1]`: `none` is `undefined`; an empty
header is falsy, so it is the value of `&&`. -/
def headerToken (authHeader : Option String) : Option String :=
  match authHeader with
  | none => none
  | some h =>
    if h = "" then some ""
    else (splitSpace h.data)[1]?.map String.mk

/-- What the gate does with a request: it calls `next()` with `req.user` set,
or it answers `res.status(status).json({ success: false, error, code })`. -/
inductive GateResult where
  | next (user : Decoded)
  | json (status : Nat) (error : String) (code : String)
deriving DecidableEq, Repr

/-- Method `authenticateToken`, given the `authorization` header of the request and
the current `tokenBlacklist`. -/
def authenticateToken (jwt : JwtLib) (JWT_SECRET : String) (now : Nat)
    (tokenBlacklist : Finset String) (authHeader : Option String) : GateResult :=
  match headerToken authHeader with
  | none => .json 401 "Access token required" "NO_TOKEN"
  | some token =>
    if token = "" then .json 401 "Access token required" "NO_TOKEN"
    else if token ∈ tokenBlacklist then .json 403 "Token has been revoked" "TOKEN_REVOKED"
    else
      match jwt.verify token JWT_SECRET now with
      | .err name =>
        if name = "TokenExpiredError" then .json 403 "Token has expired" "TOKEN_EXPIRED"
        else if name = "JsonWebTokenError" then .json 403 "Malformed token" "MALFORMED_TOKEN"
        else .json 403 "Invalid token" "INVALID_TOKEN"
      | .ok user =>
        if user.role ≠ some "admin" then
          .json 403 "Insufficient privileges" "INSUFFICIENT_PRIVILEGES"
        else .next user

/-- The `user` argument of `generateTokens`. -/
structure TokenUser where
  username : String
  id : Int
deriving DecidableEq, Repr

/-- The pair `generateTokens` returns. -/
structure TokenPair where
  accessToken : String
  refreshToken : String
deriving DecidableEq, Repr

/-- Method `generateTokens`. -/
def generateTokens (jwt : JwtLib) (JWT_SECRET : String) (now : Nat) (user : TokenUser) :
    TokenPair :=
  let payload : Payload :=
    { username := some user.username, id := some user.id, role := some "admin", type := none }
  { accessToken := jwt.sign payload JWT_SECRET 900 now
    refreshToken := jwt.sign { payload with type := some "refresh" } JWT_SECRET 604800 now }

/-- How `refreshAccessToken` ends: `{ accessToken }` or `throw new Error(message)`. -/
inductive RefreshResult where
  | accessToken (token : String)
  | thrown (message : String)
deriving DecidableEq, Repr

/-- Method `refreshAccessToken`. -/
def refreshAccessToken (jwt : JwtLib) (JWT_SECRET : String) (now : Nat)
    (refreshToken : String) : RefreshResult :=
  match jwt.verify refreshToken JWT_SECRET now with
  | .err _ => .thrown "Invalid refresh token"
  | .ok decoded =>
    if decoded.type ≠ some "refresh" then .thrown "Invalid refresh token"
    else
      .accessToken (jwt.sign
        { username := decoded.username, id := decoded.id, role := decoded.role, type := none }
        JWT_SECRET 900 now)

/-- Method `blacklistToken`: add the token, then clear the whole set once it holds
more than 1000 tokens. -/
def blacklistToken (tokenBlacklist : Finset String) (token : String) : Finset String :=
  let added := insert token tokenBlacklist
  if added.card > 1000 then ∅ else added

/-! ## A reference model of the token library

It shows that the contract `JwtLib.Faithful` can be met and it supplies
concrete tokens.  The text of a token is the letter `J` followed by the unary
numeral of a code of what was signed; the key the token was signed with stands
for its signature. -/

/-- What the text of a token of the reference library carries. -/
structure Jws where
  payload : Payload
  key : String
  iat : Nat
  exp : Nat
  nbf : Option Nat
deriving DecidableEq, Repr

/-- The character codes of a string. -/
def strCode (s : String) : List Nat := s.data.map Char.toNat

/-- The string with the given character codes. -/
def strOfCode (l : List Nat) : String := String.mk (l.map Char.ofNat)

/-- The shape the content of a token is numbered through. -/
abbrev JwsCode : Type :=
  ((Option (List Nat) × Option Int) × (Option (List Nat) × Option (List Nat))) ×
    (List Nat × (Nat × (Nat × Option Nat)))

/-- Content of a token, as a tuple. -/
def Jws.toCode (j : Jws) : JwsCode :=
  (((j.payload.username.map strCode, j.payload.id),
    (j.payload.role.map strCode, j.payload.type.map strCode)),
   (strCode j.key, (j.iat, (j.exp, j.nbf))))

/-- Inverse of `Jws.toCode`. -/
def Jws.ofCode (c : JwsCode) : Jws :=
  { payload := { username := c.1.1.1.map strOfCode, id := c.1.1.2,
                 role := c.1.2.1.map strOfCode, type := c.1.2.2.map strOfCode }
    key := strOfCode c.2.1, iat := c.2.2.1, exp := c.2.2.2.1, nbf := c.2.2.2.2 }

/-- The text of the token with the given content. -/
def tokenText (j : Jws) : String :=
  String.mk ('J' :: List.replicate (Encodable.encode j.toCode) '1')

/-- Decoding of a token text; `none` when the text is not the text of a token. -/
def readToken (token : String) : Option Jws :=
  match token.data with
  | 'J' :: rest =>
    if rest.all (fun c => decide (c = '1')) then
      (Encodable.decode (α := JwsCode) rest.length).map Jws.ofCode
    else none
  | _ => none

/-- The reference library.  `verify` checks, in the order of `jsonwebtoken`, that
the text decodes, that the signature is by the given secret, that the token is
already active (`nbf`) and that it has not expired (`exp`). -/
def referenceJwt : JwtLib where
  sign := fun payload secret expiresIn clock =>
    tokenText
      { payload := payload, key := secret, iat := clock, exp := clock + expiresIn, nbf := none }
  verify := fun token secret clock =>
    match readToken token with
    | none => .err "JsonWebTokenError"
    | some j =>
      if j.key ≠ secret then .err "JsonWebTokenError"
      else if (match j.nbf with | some n => decide (clock < n) | none => false) then
        .err "NotBeforeError"
      else if j.exp ≤ clock then .err "TokenExpiredError"
      else .ok { toPayload := j.payload, iat := some j.iat, exp := some j.exp }

/-! ## The workflow as a sequence of operations -/

/-- One operation of the workflow, as the route handlers of `server.js` run it
on the database. -/
inductive Op where
  | upload (id filename originalName : String) (size : Int)
  | approve (id : String)
  | reject (id : String)
  | delete (id : String)
  | toggleLike (photoId userIdentifier : String) (ipAddress userAgent : Option String)
  | report (photoId userIdentifier reason : String) (ipAddress userAgent : Option String)
deriving DecidableEq, Repr

/-- The database after one operation run at time `now`.  An upload stores a
pending photo with no likes and no reports. -/
def step (s : Store) (now : Nat) : Op → Store
  | .upload id filename originalName size =>
    (addPhoto s { id := id, filename := filename, originalName := originalName, size := size,
                  likes := some 0, reportCount := some 0, status := some "pending",
                  createdAt := now, uploadedAt := now }).1
  | .approve id => (approvePhoto s now id).1
  | .reject id => (rejectPhoto s id).1
  | .delete id => (deletePhoto s id).1
  | .toggleLike photoId userIdentifier ipAddress userAgent =>
    (toggleUserLike s now photoId userIdentifier ipAddress userAgent).1
  | .report photoId userIdentifier reason ipAddress userAgent =>
    (recordUserReport s now photoId userIdentifier reason ipAddress userAgent).1

/-- The database after a sequence of timed operations. -/
def runOps (s : Store) (ops : List (Nat × Op)) : Store :=
  ops.foldl (fun acc e => step acc e.1 e.2) s

/-- A database state the workflow can reach from the empty database. -/
def Reachable (s : Store) : Prop :=
  ∃ ops : List (Nat × Op), runOps Store.empty ops = s

/-! ## Sample data -/

/-- An approved photo with three likes and one report. -/
def samplePhoto : Photo :=
  { id := "photo_1", filename := "processed_cat_1.webp", original_name := "cat.png", size := 2048,
    likes := 3, report_count := 1, status := "approved", created_at := 10, uploaded_at := 10,
    approved_at := some 20 }

/-- A pending photo. -/
def samplePending : Photo :=
  { id := "photo_2", filename := "processed_dog_2.webp", original_name := "dog.png",
    size := 4096, likes := 0, report_count := 0, status := "pending", created_at := 30,
    uploaded_at := 30, approved_at := none }

/-- A database holding `samplePhoto`, `samplePending`, and one like and one
report on `samplePhoto` by the visitor `fp_a`. -/
def sampleStore : Store :=
  { photos := [samplePhoto, samplePending]
    reports := [{ id := 1, photo_id := "photo_1", reason := "spam", reported_at := 40 }]
    user_likes := [{ id := 1, photo_id := "photo_1", user_identifier := "fp_a",
                     ip_address := some "10.0.0.1", user_agent := some "ua", liked_at := 35 }]
    user_reports := [{ id := 1, photo_id := "photo_1", user_identifier := "fp_a",
                       ip_address := some "10.0.0.1", user_agent := some "ua", reason := "spam",
                       reported_at := 40 }]
    seq_reports := 1, seq_user_likes := 1, seq_user_reports := 1 }

/-- The database after one upload: photo `A` is pending. -/
def pendingStore : Store :=
  runOps Store.empty [(1, .upload "A" "processed_a_1.webp" "a.png" 1024)]

/-- The administrator of the sample sessions. -/
def sampleUser : TokenUser := { username := "admin", id := 1 }

/-- The signing secret of the sample sessions. -/
def sampleSecret : String := "s3cret"

/-- The access token of the session opened at time `n` with the reference
library. -/
def sessionToken (n : Nat) : String :=
  (generateTokens referenceJwt sampleSecret n sampleUser).accessToken

/-- The revocation set after the sessions opened at times 0 to 999 have all
logged out: it holds 1000 tokens. -/
def fullBlacklist : Finset String := (Finset.range 1000).image sessionToken

/-- Content of a token signed with the secret for the administrator that only
becomes active at time 500. -/
def notYetValidJws : Jws :=
  { payload := { username := some "admin", id := some 1, role := some "admin", type := none }
    key := sampleSecret, iat := 0, exp := 900, nbf := some 500 }

/-- The token with the content `notYetValidJws`. -/
def notYetValidToken : String := tokenText notYetValidJws

/-! ## Listing (`getPhotos`) -/

/-- The `ORDER BY` of `getPhotos`: `likes DESC, created_at DESC` when `sortBy` is
`liked`, and `created_at DESC` for `recent` and for every other value. -/
def orderedBefore (sortBy : String) (a b : Photo) : Prop :=
  if sortBy = "liked" then
    b.likes < a.likes ∨ (a.likes = b.likes ∧ b.created_at ≤ a.created_at)
  else
    b.created_at ≤ a.created_at

instance (sortBy : String) : DecidableRel (orderedBefore sortBy) := by
  intro a b; unfold orderedBefore; infer_instance

/-- The object `getPhotos` returns. -/
structure PhotoPage where
  photos : List Photo
  hasMore : Bool
  total : Nat
deriving DecidableEq, Repr

/-- Method `getPhotos`: the approved photos in order, `LIMIT limit OFFSET
page * limit`, with the count of all approved photos.  Rows that the order
does not separate stay in insertion order. -/
def getPhotos (s : Store) (page limit : Nat) (sortBy : String) : PhotoPage :=
  let offset := page * limit
  let approved := s.photos.filter (fun p => decide (p.status = "approved"))
  let photos := ((approved.insertionSort (orderedBefore sortBy)).drop offset).take limit
  let total := approved.length
  { photos := photos, hasMore := decide (offset + limit < total), total := total }

/-! ## Route handlers of `server.js`

The File Store is the set of names under `public/images`.  Whether an `unlink`
of an existing file fails for a reason of the file system is an input
(`ioFails`). -/

/-- The database together with the image directory. -/
structure World where
  db : Store
  files : List String
deriving DecidableEq, Repr

/-- Call `fs.unlink` on an image: it rejects when the file is absent or the file
system fails, and removes the file otherwise.  The second component tells
whether it resolved. -/
def unlink (files : List String) (ioFails : Bool) (filename : String) : List String × Bool :=
  if ioFails || !files.contains filename then (files, false)
  else (files.filter (fun f => decide (f ≠ filename)), true)

/-- The answer of an admin handler: `res.status(status).json({ success, ... })`
with its `message` or `error` text. -/
structure AdminResponse where
  status : Nat
  success : Bool
  text : String
deriving DecidableEq, Repr

/-- Handler of `POST /api/admin/photos/:id/reject` (after the gate and the
parameter check): the image of the photo, if there is a photo, is unlinked and
the error of the unlink is swallowed; then `rejectPhoto` runs. -/
def rejectHandler (w : World) (ioFails : Bool) (photoId : String) : World × AdminResponse :=
  let files :=
    match getPhotoById w.db photoId with
    | some photo => (unlink w.files ioFails photo.filename).1
    | none => w.files
  ({ db := (rejectPhoto w.db photoId).1, files := files },
   { status := 200, success := true, text := "Photo rejected and deleted" })

/-- Handler of `DELETE /api/admin/photos/:id`. -/
def deleteHandler (w : World) (ioFails : Bool) (photoId : String) : World × AdminResponse :=
  match getPhotoById w.db photoId with
  | none => (w, { status := 404, success := false, text := "Photo not found" })
  | some photo =>
    ({ db := (deletePhoto w.db photoId).1, files := (unlink w.files ioFails photo.filename).1 },
     { status := 200, success := true, text := "Photo deleted successfully" })

/-- Handler of `DELETE /api/admin/photos/:id/delete-reported`. -/
def deleteReportedHandler (w : World) (ioFails : Bool) (photoId : String) :
    World × AdminResponse :=
  match getPhotoById w.db photoId with
  | none => (w, { status := 404, success := false, text := "Photo not found" })
  | some photo =>
    ({ db := (deletePhoto w.db photoId).1, files := (unlink w.files ioFails photo.filename).1 },
     { status := 200, success := true,
       text := "Photo and all associated reports deleted successfully" })

/-- The answer of the like handler: `{ success: true, likes, action }`, or
`res.status(status).json({ success: false, error, ... })`. -/
inductive LikeResponse where
  | ok (likes : Int) (action : String)
  | refused (status : Nat) (error : String)
deriving DecidableEq, Repr

/-- Handler of `POST /api/photos/:id/like` from the call of `toggleUserLike` on,
for the visitor identifier computed from the request. -/
def likeHandler (s : Store) (now : Nat) (photoId userIdentifier : String)
    (clientIP userAgent : String) : Store × LikeResponse :=
  let r := toggleUserLike s now photoId userIdentifier (some clientIP) (some userAgent)
  match r.2 with
  | .threw _ => (r.1, .refused 500 "Failed to like photo")
  | .returned .alreadyLiked => (r.1, .refused 409 "You have already liked this photo")
  | .returned .notLiked => (r.1, .refused 409 "You have not liked this photo")
  | .returned (.success likes action) => (r.1, .ok likes action)
  | .returned (.failure error) =>
    (r.1, .refused 404 (if error = "" then "Photo not found or not approved" else error))

/-- The database after two uploads, the approval of `A`, a like of `A` and a like
attempt on the pending `B` by the visitor `fp_a`, and a report of `B` by `fp_b`. -/
def workflowStore : Store :=
  runOps Store.empty
    [(1, .upload "A" "processed_a_1.webp" "a.png" 1024),
     (2, .upload "B" "processed_b_2.webp" "b.png" 2048),
     (3, .approve "A"),
     (4, .toggleLike "A" "fp_a" none none),
     (5, .toggleLike "B" "fp_a" none none),
     (6, .report "B" "fp_b" "spam" none none)]

/-- A database with the images of its two photos on disk. -/
def sampleWorld : World :=
  { db := sampleStore, files := ["processed_cat_1.webp", "processed_dog_2.webp"] }

/-! ## The CAPTCHA step of the upload and login handlers -/

/-- The environment variables the CAPTCHA step reads. -/
structure Env where
  NODE_ENV : Option String
  HCAPTCHA_SECRET_KEY : Option String
deriving DecidableEq, Repr

/-- The hCaptcha test secret. -/
def testSecretKey : String := "0x0000000000000000000000000000000000000000"

/-- Expression `process.env.HCAPTCHA_SECRET_KEY || '0x00...0'`. -/
def secretKeyOf (env : Env) : String :=
  match env.HCAPTCHA_SECRET_KEY with
  | none => testSecretKey
  | some k => if k = "" then testSecretKey else k

/-- Builtin `String.prototype.includes`. -/
def includes (s sub : String) : Bool := decide (sub.data <:+: s.data)

/-- The `length` of a JavaScript string: its number of UTF-16 code units. -/
def jsLength (s : String) : Nat :=
  (s.data.map (fun c => if c.val ≥ 0x10000 then 2 else 1)).sum

/-- Function `verifyCaptcha`: a missing or short token (`token.length < 10`) is
refused without a request; otherwise the answer is the `success` field that the
hCaptcha service returns for the secret and the token (`hcaptcha`; false on any
failure). -/
def verifyCaptcha (hcaptcha : String → String → Bool) (env : Env) (token : Option String) :
    Bool :=
  match token with
  | none => false
  | some t => if t = "" || decide (jsLength t < 10) then false else hcaptcha (secretKeyOf env) t

/-- How the CAPTCHA step of a handler ends: the handler goes on, or it answers
400 with an error. -/
inductive CaptchaStep where
  | proceed
  | respond (status : Nat) (error : String)
deriving DecidableEq, Repr

/-- The CAPTCHA step of `POST /api/photos/upload`. -/
def uploadCaptchaStep (hcaptcha : String → String → Bool) (env : Env)
    (captchaToken : Option String) : CaptchaStep :=
  let isDevelopment := decide (env.NODE_ENV = some "development")
  let isTestKey := includes (secretKeyOf env) testSecretKey
  let isBypassToken := decide (captchaToken = some "dev-bypass-token")
  if !isDevelopment && !isTestKey && !isBypassToken then
    if captchaToken = none ∨ captchaToken = some "" then
      .respond 400 "Captcha verification required"
    else if !isBypassToken then
      if !verifyCaptcha hcaptcha env captchaToken then .respond 400 "Invalid captcha"
      else .proceed
    else .proceed
  else .proceed

/-- The CAPTCHA step of `POST /api/admin/login`, from the check that a token is
present on. -/
def loginCaptchaStep (hcaptcha : String → String → Bool) (env : Env)
    (captchaToken : Option String) : CaptchaStep :=
  if captchaToken = none ∨ captchaToken = some "" then
    .respond 400 "Captcha verification required"
  else
    let isDevelopment := decide (env.NODE_ENV = some "development")
    let isTestKey := includes (secretKeyOf env) testSecretKey
    let isBypassToken := decide (captchaToken = some "dev-bypass-token")
    if !isDevelopment && !isTestKey && !isBypassToken then
      if !verifyCaptcha hcaptcha env captchaToken then
        .respond 400 "Invalid captcha verification"
      else .proceed
    else .proceed

/-- A deployed configuration: production mode with a real hCaptcha secret. -/
def productionEnv : Env :=
  { NODE_ENV := some "production", HCAPTCHA_SECRET_KEY := some "ES_9c1f2a7b4d" }

/-- The row of the pending photo `B` in `workflowStore`. -/
def workflowPending : Photo :=
  { id := "B", filename := "processed_b_2.webp", original_name := "b.png", size := 2048,
    likes := 0, report_count := 1, status := "pending", created_at := 2, uploaded_at := 2,
    approved_at := none }

/-- The `ORDER BY` text that `getPhotos` puts into its statement. -/
def orderBy (sortBy : String) : String :=
  if sortBy = "liked" then "likes DESC, created_at DESC"
  else if sortBy = "recent" then "created_at DESC"
  else "created_at DESC"

/-! ## Statistics (`getStats`) -/

/-- The object `getStats` returns. -/
structure Stats where
  totalPhotos : Int
  pendingPhotos : Int
  totalLikes : Int
  totalReports : Int
  recentUploads : Int
deriving DecidableEq, Repr

/-- Aggregate `SUM(likes)`: `NULL` (`none`) over no rows. -/
def sumLikes (rows : List Photo) : Option Int :=
  match rows with
  | [] => none
  | _ => some (rows.map (fun p => p.likes)).sum

/-- Method `getStats`.  It only runs `SELECT`s, so the database it leaves is the
one it was given.  The argument `withinWeek` is the truth of
`created_at >= datetime('now', '-7 days')` at the time of the call. -/
def getStats (s : Store) (withinWeek : Nat → Bool) : Store × Stats :=
  let approved := s.photos.filter (fun p => decide (p.status = "approved"))
  let total := sumLikes approved
  (s,
   { totalPhotos := approved.length
     pendingPhotos := (s.photos.filter (fun p => decide (p.status = "pending"))).length
     totalLikes := match total with
       | none => 0
       | some n => if n = 0 then 0 else n
     totalReports := s.reports.length
     recentUploads := (approved.filter (fun p => withinWeek p.created_at)).length })

/-! ## Counters against the ledgers -/

/-- The number of `user_likes` rows of a photo. -/
def Store.likeRows (s : Store) (photoId : String) : Nat :=
  (s.user_likes.filter (fun r => decide (r.photo_id = photoId))).length

/-- The number of `user_reports` rows of a photo. -/
def Store.userReportRows (s : Store) (photoId : String) : Nat :=
  (s.user_reports.filter (fun r => decide (r.photo_id = photoId))).length

/-- The number of `reports` rows of a photo. -/
def Store.reportRows (s : Store) (photoId : String) : Nat :=
  (s.reports.filter (fun r => decide (r.photo_id = photoId))).length

/-- Every photo's `likes` is the number of its `user_likes` rows. -/
def Store.likesMatchLedger (s : Store) : Prop :=
  ∀ p ∈ s.photos, p.likes = (s.likeRows p.id : Int)

/-- Every photo's `report_count` is the number of its `user_reports` rows and the
number of its `reports` rows. -/
def Store.reportsMatchLedger (s : Store) : Prop :=
  ∀ p ∈ s.photos,
    p.report_count = (s.userReportRows p.id : Int) ∧ p.report_count = (s.reportRows p.id : Int)

instance (s : Store) : Decidable s.likesMatchLedger := by
  unfold Store.likesMatchLedger; infer_instance

instance (s : Store) : Decidable s.reportsMatchLedger := by
  unfold Store.reportsMatchLedger; infer_instance

/-! ## Concurrent like requests

The driver is synchronous and the server runs one event loop, so another
request can only run where a method awaits: `toggleUserLike` awaits its own
`hasUserLikedPhoto`, then `recordUserLike` or `removeUserLike`, each of which
awaits `hasUserLikedPhoto` and then runs to its end.  A like request is thus
three atomic steps. -/

/-- The rest of `recordUserLike` after its check of `existing`: the insert, with
the `catch`, the update and the read of the new count. -/
def recordUserLikeInsert (s : Store) (now : Nat) (photoId userIdentifier : String)
    (ipAddress userAgent : Option String) : Store × Outcome LikeResult :=
  match insertUserLike s now photoId userIdentifier ipAddress userAgent with
  | .error e =>
    if e = .sqlite "SQLITE_CONSTRAINT_UNIQUE" then (s, .returned .alreadyLiked) else (s, .threw e)
  | .ok s1 =>
    let r := updatePhotos s1
      (fun p => decide (p.id = photoId) && decide (p.status = "approved"))
      (fun p => { p with likes := p.likes + 1 })
    if r.2 > 0 then
      match getPhotoById r.1 photoId with
      | some p => (r.1, .returned (.success p.likes "liked"))
      | none => (r.1, .threw .typeError)
    else
      (r.1, .returned (.failure "Photo not found or not approved"))

/-- The rest of `removeUserLike` after its check of `existing`: the delete, the
update and the read of the new count. -/
def removeUserLikeDelete (s : Store) (photoId userIdentifier : String) :
    Store × Outcome LikeResult :=
  let isPair : UserLike → Bool :=
    fun r => decide (r.photo_id = photoId) && decide (r.user_identifier = userIdentifier)
  let changes := (s.user_likes.filter isPair).length
  let s1 := { s with user_likes := s.user_likes.filter (fun r => !isPair r) }
  if changes > 0 then
    let r := updatePhotos s1
      (fun p => decide (p.id = photoId) && decide (p.status = "approved") && decide (p.likes > 0))
      (fun p => { p with likes := p.likes - 1 })
    match getPhotoById r.1 photoId with
    | some p => (r.1, .returned (.success p.likes "unliked"))
    | none => (r.1, .threw .typeError)
  else
    (s1, .returned (.failure "Failed to remove like"))

/-- Where a like request stands: before the check of `toggleUserLike`, before
the check of `recordUserLike` or of `removeUserLike`, before the writes of
either, or finished with its result. -/
inductive LikePc where
  | toggleCheck
  | recordCheck
  | recordInsert
  | removeCheck
  | removeDelete
  | finished (result : Outcome LikeResult)
deriving DecidableEq, Repr

/-- One atomic step of a like request. -/
def likeRequestStep (s : Store) (now : Nat) (photoId userIdentifier : String)
    (ipAddress userAgent : Option String) : LikePc → Store × LikePc
  | .toggleCheck =>
    if hasUserLikedPhoto s photoId userIdentifier then (s, .removeCheck) else (s, .recordCheck)
  | .recordCheck =>
    if hasUserLikedPhoto s photoId userIdentifier then (s, .finished (.returned .alreadyLiked))
    else (s, .recordInsert)
  | .recordInsert =>
    let r := recordUserLikeInsert s now photoId userIdentifier ipAddress userAgent
    (r.1, .finished r.2)
  | .removeCheck =>
    if !hasUserLikedPhoto s photoId userIdentifier then (s, .finished (.returned .notLiked))
    else (s, .removeDelete)
  | .removeDelete =>
    let r := removeUserLikeDelete s photoId userIdentifier
    (r.1, .finished r.2)
  | .finished result => (s, .finished result)

/-- Two like requests of one visitor for one photo, with the database they
share. -/
structure Race where
  db : Store
  first : LikePc
  second : LikePc
deriving DecidableEq, Repr

/-- One step of the race: the first request moves when `pick` is true, the
second one otherwise.  The requests arrive at the times `now1` and `now2`. -/
def raceStep (now1 now2 : Nat) (photoId userIdentifier : String)
    (ipAddress userAgent : Option String) (r : Race) (pick : Bool) : Race :=
  if pick then
    let n := likeRequestStep r.db now1 photoId userIdentifier ipAddress userAgent r.first
    { r with db := n.1, first := n.2 }
  else
    let n := likeRequestStep r.db now2 photoId userIdentifier ipAddress userAgent r.second
    { r with db := n.1, second := n.2 }

/-- The race under a schedule, from two fresh requests. -/
def runRace (now1 now2 : Nat) (photoId userIdentifier : String)
    (ipAddress userAgent : Option String) (s : Store) (schedule : List Bool) : Race :=
  schedule.foldl (raceStep now1 now2 photoId userIdentifier ipAddress userAgent)
    { db := s, first := .toggleCheck, second := .toggleCheck }

/-- A schedule that runs both requests to their end (three steps each) and in
which neither request finishes before the other one starts. -/
def Overlapping (schedule : List Bool) : Prop :=
  schedule.length = 6 ∧ schedule.count true = 3 ∧
  schedule ≠ [true, true, true, false, false, false] ∧
  schedule ≠ [false, false, false, true, true, true]

instance (schedule : List Bool) : Decidable (Overlapping schedule) := by
  unfold Overlapping; infer_instance

/-- Content of the refresh token of the session opened at time `n` with the
reference library. -/
def refreshTokenAt (n : Nat) : String :=
  (generateTokens referenceJwt sampleSecret n sampleUser).refreshToken

/-! ## Storage names (`processImage`) -/

/-- The class `[a-zA-Z0-9]`. -/
def isAsciiAlnum (c : Char) : Bool :=
  (decide ('a' ≤ c) && decide (c ≤ 'z')) || (decide ('A' ≤ c) && decide (c ≤ 'Z')) ||
    (decide ('0' ≤ c) && decide (c ≤ '9'))

/-- Expression `.replace(/[^a-zA-Z0-9]/g, '_')`. -/
def replaceNonAlnum (cs : List Char) : List Char :=
  cs.map (fun c => if isAsciiAlnum c then c else '_')

/-- Expression `.replace(/_+/g, '_')`: every run of underscores becomes one. -/
def collapseUnderscores : List Char → List Char
  | [] => []
  | [c] => [c]
  | c :: d :: rest =>
    if c = '_' ∧ d = '_' then collapseUnderscores (d :: rest)
    else c :: collapseUnderscores (d :: rest)

/-- One leading underscore removed (the match of `^_`). -/
def dropLeadingUnderscore : List Char → List Char
  | [] => []
  | c :: rest => if c = '_' then rest else c :: rest

/-- One trailing underscore removed (the match of `_$`). -/
def dropTrailingUnderscore (cs : List Char) : List Char :=
  (dropLeadingUnderscore cs.reverse).reverse

/-- Expression `.replace(/^_|_$/g, '')`: the leading underscore goes first, then
the trailing one of what is left. -/
def trimUnderscores (cs : List Char) : List Char :=
  dropTrailingUnderscore (dropLeadingUnderscore cs)

/-- The `safeName` of `processImage`, from `path.parse(filename).name`. -/
def safeName (name : String) : String :=
  String.mk (trimUnderscores (collapseUnderscores (replaceNonAlnum name.data)))

/-- The `processedFilename` of `processImage`.  The argument `pathName` is
`path.parse(·).name` and `now` is `Date.now()`. -/
def processedFilename (pathName : String → String) (filename : String) (now : Nat) : String :=
  "processed_" ++ safeName (pathName filename) ++ "_" ++ Nat.repr now ++ ".webp"

/-! ## Request validation (`middleware/validation.js`) and the report route -/

/-- A value of a request body as far as the schemas look at it: a string, or a
value that is not a string (a number, a boolean, `null`, an array, an object). -/
inductive JsValue where
  | str (s : String)
  | other
deriving DecidableEq, Repr

/-- The body of a report request: its three known keys, each possibly absent,
and the names of any other keys. -/
structure ReportBody where
  reason : Option JsValue
  details : Option JsValue
  captchaToken : Option JsValue
  unknownKeys : List String
deriving DecidableEq, Repr

/-- The values of `reason` that `schemas.photoReport` lists. -/
def reportReasons : List String :=
  ["inappropriate_content", "spam", "copyright_violation", "harassment", "nudity", "violence",
   "other"]

/-- Schema `schemas.photoReport`, as Joi checks it: `reason` is required and one
of the listed strings; `details` may be absent, else it is a string, not empty
(Joi strings refuse the empty string unless it is allowed), of length at most
500; `captchaToken` may be absent, else it is a string of length at least 10;
no other key is allowed. -/
def photoReportValid (b : ReportBody) : Bool :=
  (match b.reason with
    | some (.str r) => decide (r ∈ reportReasons)
    | _ => false) &&
  (match b.details with
    | none => true
    | some (.str d) => decide (d ≠ "") && decide (jsLength d ≤ 500)
    | some .other => false) &&
  (match b.captchaToken with
    | none => true
    | some (.str t) => decide (t ≠ "") && decide (10 ≤ jsLength t)
    | some .other => false) &&
  b.unknownKeys.isEmpty

/-- The answer of the report handler: `{ success: true, reportCount }`, or
`res.status(status).json({ error, ... })`. -/
inductive ReportResponse where
  | ok (reportCount : Int)
  | refused (status : Nat) (error : String)
deriving DecidableEq, Repr

/-- The CAPTCHA step of the like and report handlers: verification is skipped
only in development mode with the test key. -/
def actionCaptchaStep (hcaptcha : String → String → Bool) (env : Env)
    (captchaToken : Option String) : CaptchaStep :=
  let isDevelopment := decide (env.NODE_ENV = some "development")
  if !isDevelopment || !includes (secretKeyOf env) testSecretKey then
    if captchaToken = none ∨ captchaToken = some "" then
      .respond 400 "Captcha verification required"
    else if !verifyCaptcha hcaptcha env captchaToken then .respond 400 "Invalid captcha"
    else .proceed
  else .proceed

/-- Route `POST /api/photos/:id/report` from `validateRequest(schemas.photoReport)`
on: the schema check, then the handler, which takes `reason` from the body
(`user_reported` when absent), runs the CAPTCHA step and calls
`recordUserReport` for the visitor identifier `fingerprint clientIP userAgent`. -/
def reportRoute (hcaptcha : String → String → Bool) (env : Env)
    (fingerprint : String → String → String) (s : Store) (now : Nat) (photoId : String)
    (clientIP userAgent : String) (body : ReportBody) : Store × ReportResponse :=
  if !photoReportValid body then (s, .refused 400 "Validation failed")
  else
    let reason := match body.reason with
      | some (.str r) => r
      | _ => "user_reported"
    let captchaToken := match body.captchaToken with
      | some (.str t) => some t
      | _ => none
    match actionCaptchaStep hcaptcha env captchaToken with
    | .respond status error => (s, .refused status error)
    | .proceed =>
      let r := recordUserReport s now photoId (fingerprint clientIP userAgent) reason
        (some clientIP) (some userAgent)
      match r.2 with
      | .threw _ => (r.1, .refused 500 "Failed to report photo")
      | .returned .alreadyReported => (r.1, .refused 409 "You have already reported this photo")
      | .returned (.success reportCount) => (r.1, .ok reportCount)
      | .returned (.failure error) =>
        (r.1, .refused 404 (if error = "" then "Photo not found or not approved" else error))

/-! ## Rate limiting (`middleware/rateLimit.js`) and the admin login -/

/-- The options of `rateLimit({...})` that the configurations of `rateLimit.js`
set to decide a request: the window, the limit, the `skip` function (the one in
the source reads only `res.statusCode`, the status the response has when the
limiter runs) and `skipSuccessfulRequests`. -/
structure RateLimitOptions where
  windowMs : Nat
  max : Nat
  skip : Nat → Bool
  skipSuccessfulRequests : Bool

/-- What the limiter keeps for a client: the hits of its window and when the
window ends. -/
structure ClientWindow where
  totalHits : Nat
  resetTime : Nat
deriving DecidableEq, Repr

/-- The memory store of one limiter: a window per client key. -/
abbrev LimiterState := List (String × ClientWindow)

/-- The window the store holds for a key. -/
def LimiterState.get (st : LimiterState) (key : String) : Option ClientWindow :=
  (st.find? (fun e => e.1 = key)).map (fun e => e.2)

/-- Store method `increment`: a client without a window, or whose window has
ended, starts a window that lasts `windowMs`; then the hit is counted. -/
def increment (windowMs : Nat) (st : LimiterState) (now : Nat) (key : String) :
    LimiterState × ClientWindow :=
  let w : ClientWindow :=
    match st.get key with
    | some w =>
      if w.resetTime ≤ now then { totalHits := 1, resetTime := now + windowMs }
      else { w with totalHits := w.totalHits + 1 }
    | none => { totalHits := 1, resetTime := now + windowMs }
  ((key, w) :: st.filter (fun e => e.1 ≠ key), w)

/-- Store method `decrement`: one hit less in the window of the client. -/
def decrement (st : LimiterState) (key : String) : LimiterState :=
  st.map (fun e => if e.1 = key then (e.1, { e.2 with totalHits := e.2.totalHits - 1 }) else e)

/-- The middleware `rateLimit(opts)` on one request: a skipped request goes on
uncounted; otherwise the hit is counted and the request is stopped (`true`) when
the hits of the window exceed `max`. -/
def rateLimit (opts : RateLimitOptions) (st : LimiterState) (now : Nat) (key : String)
    (statusCode : Nat) : LimiterState × Bool :=
  if opts.skip statusCode then (st, false)
  else
    let r := increment opts.windowMs st now key
    (r.1, decide (opts.max < r.2.totalHits))

/-- The middleware `rateLimit(opts)` when the response of a counted request is
finished: with `skipSuccessfulRequests`, a response below 400 gives its hit
back. -/
def rateLimitFinish (opts : RateLimitOptions) (st : LimiterState) (key : String)
    (finalStatus : Nat) : LimiterState :=
  if opts.skipSuccessfulRequests && decide (finalStatus < 400) then decrement st key else st

/-- Function `skipSuccessfulRequests` of `rateLimit.js`. -/
def skipSuccessfulRequests (statusCode : Nat) : Bool := decide (statusCode < 400)

/-- Configuration `generalRateLimit`. -/
def generalRateLimit : RateLimitOptions :=
  { windowMs := 15 * 60 * 1000, max := 100, skip := skipSuccessfulRequests,
    skipSuccessfulRequests := false }

/-- Configuration `adminLoginRateLimit`. -/
def adminLoginRateLimit : RateLimitOptions :=
  { windowMs := 15 * 60 * 1000, max := 3, skip := fun _ => false,
    skipSuccessfulRequests := false }

/-- The status code of a response that no middleware has set yet. -/
def initialStatusCode : Nat := 200

/-- An answer of the API as far as the properties look at it: success with
the tokens of a login, or a status with an error text. -/
inductive LoginResponse where
  | ok (accessToken refreshToken username : String)
  | refused (status : Nat) (error : String)
deriving DecidableEq, Repr

/-- The status of an answer. -/
def LoginResponse.status : LoginResponse → Nat
  | .ok _ _ _ => 200
  | .refused status _ => status

/-- Function `rateLimitHandler`: the answer to a stopped request. -/
def rateLimitHandler : LoginResponse :=
  .refused 429 "Too many requests. Please wait a moment and try again."

/-- The general limiter as it is mounted on `/api`, over a run of requests
(time and client address): for each request, whether it was stopped. -/
def generalRun (st : LimiterState) : List (Nat × String) → LimiterState × List Bool
  | [] => (st, [])
  | (now, ip) :: rest =>
    let r := rateLimit generalRateLimit st now ip initialStatusCode
    let st1 := if r.2 then r.1 else rateLimitFinish generalRateLimit r.1 ip initialStatusCode
    let out := generalRun st1 rest
    (out.1, r.2 :: out.2)

/-- A row of table `admin_users`. -/
structure AdminUser where
  id : Int
  username : String
  password_hash : String
  created_at : Nat
  last_login : Option Nat
deriving DecidableEq, Repr

/-- Method `getAdminUser`. -/
def getAdminUser (admins : List AdminUser) (username : String) : Option AdminUser :=
  admins.find? (fun a => a.username = username)

/-- Method `updateAdminLastLogin`. -/
def updateAdminLastLogin (admins : List AdminUser) (now : Nat) (username : String) :
    List AdminUser :=
  admins.map (fun a => if a.username = username then { a with last_login := some now } else a)

/-- The body of a login request: its three known keys, each possibly absent,
and the names of any other keys. -/
structure LoginBody where
  username : Option JsValue
  password : Option JsValue
  captchaToken : Option JsValue
  unknownKeys : List String
deriving DecidableEq, Repr

/-- Schema `schemas.adminLogin`, as Joi checks it: `username` is a string of
3 to 30 characters out of `[a-zA-Z0-9_]`, `password` a string of length at least
6, `captchaToken` a string of length at least 10, all three required; no other
key is allowed. -/
def adminLoginValid (b : LoginBody) : Bool :=
  (match b.username with
    | some (.str u) =>
      u.data.all (fun c => isAsciiAlnum c || c == '_') && decide (3 ≤ jsLength u) &&
        decide (jsLength u ≤ 30)
    | _ => false) &&
  (match b.password with
    | some (.str p) => decide (6 ≤ jsLength p)
    | _ => false) &&
  (match b.captchaToken with
    | some (.str t) => decide (10 ≤ jsLength t)
    | _ => false) &&
  b.unknownKeys.isEmpty

/-- The handler of `POST /api/admin/login`; `bcryptCompare password hash` is the
answer of `bcrypt.compare`. -/
def loginHandler (jwt : JwtLib) (JWT_SECRET : String) (bcryptCompare : String → String → Bool)
    (hcaptcha : String → String → Bool) (env : Env) (admins : List AdminUser) (now : Nat)
    (username password captchaToken : Option String) : List AdminUser × LoginResponse :=
  match username, password with
  | some u, some p =>
    if u = "" ∨ p = "" then (admins, .refused 400 "Username and password required")
    else
      match loginCaptchaStep hcaptcha env captchaToken with
      | .respond status error => (admins, .refused status error)
      | .proceed =>
        match getAdminUser admins u with
        | none => (admins, .refused 401 "Invalid credentials")
        | some admin =>
          if !bcryptCompare p admin.password_hash then
            (admins, .refused 401 "Invalid credentials")
          else
            let tokens := generateTokens jwt JWT_SECRET now
              { username := admin.username, id := admin.id }
            (updateAdminLastLogin admins now u,
              .ok tokens.accessToken tokens.refreshToken admin.username)
  | _, _ => (admins, .refused 400 "Username and password required")

/-- The string a body holds under a key, if it holds one. -/
def JsValue.string? : Option JsValue → Option String
  | some (.str s) => some s
  | _ => none

/-- The login route behind its limiter: `validateRequest(schemas.adminLogin)`
and then the handler. -/
def validatedLogin (jwt : JwtLib) (JWT_SECRET : String)
    (bcryptCompare : String → String → Bool) (hcaptcha : String → String → Bool) (env : Env)
    (admins : List AdminUser) (now : Nat) (body : LoginBody) :
    List AdminUser × LoginResponse :=
  if !adminLoginValid body then (admins, .refused 400 "Validation failed")
  else
    loginHandler jwt JWT_SECRET bcryptCompare hcaptcha env admins now
      (JsValue.string? body.username) (JsValue.string? body.password)
      (JsValue.string? body.captchaToken)

/-- What the login route works on: the stores of the two limiters in front of
it and table `admin_users`. -/
structure LoginState where
  general : LimiterState
  login : LimiterState
  admins : List AdminUser
deriving DecidableEq, Repr

/-- Route `POST /api/admin/login` for a request of client `ip` at time `now`:
`generalRateLimit` (mounted on `/api`), `adminLoginRateLimit`, validation, then
the handler. -/
def loginRoute (jwt : JwtLib) (JWT_SECRET : String) (bcryptCompare : String → String → Bool)
    (hcaptcha : String → String → Bool) (env : Env) (st : LoginState) (now : Nat)
    (ip : String) (body : LoginBody) : LoginState × LoginResponse :=
  let g := rateLimit generalRateLimit st.general now ip initialStatusCode
  if g.2 then ({ st with general := g.1 }, rateLimitHandler)
  else
    let l := rateLimit adminLoginRateLimit st.login now ip initialStatusCode
    if l.2 then ({ st with general := g.1, login := l.1 }, rateLimitHandler)
    else
      let r := validatedLogin jwt JWT_SECRET bcryptCompare hcaptcha env st.admins now body
      ({ general := rateLimitFinish generalRateLimit g.1 ip r.2.status
         login := rateLimitFinish adminLoginRateLimit l.1 ip r.2.status
         admins := r.1 }, r.2)

/-- A login request: its time, the client address and the body. -/
structure LoginRequest where
  now : Nat
  ip : String
  body : LoginBody
deriving DecidableEq, Repr

/-- The login route over a run of requests: the state after the run and the
answers in order. -/
def loginRun (jwt : JwtLib) (JWT_SECRET : String) (bcryptCompare : String → String → Bool)
    (hcaptcha : String → String → Bool) (env : Env) (st : LoginState) :
    List LoginRequest → LoginState × List LoginResponse
  | [] => (st, [])
  | q :: rest =>
    let r := loginRoute jwt JWT_SECRET bcryptCompare hcaptcha env st q.now q.ip q.body
    let out := loginRun jwt JWT_SECRET bcryptCompare hcaptcha env r.1 rest
    (out.1, r.2 :: out.2)

/-- The admin table of the examples: one administrator who has not logged in. -/
def sampleAdmins : List AdminUser :=
  [{ id := 1, username := "admin", password_hash := "hash(correct-horse)", created_at := 0,
     last_login := none }]

/-- A `bcrypt.compare` for the examples. -/
def sampleCompare (password hash : String) : Bool := decide (hash = "hash(" ++ password ++ ")")

/-- A login body with the given password for `admin`. -/
def loginBody (password : String) : LoginBody :=
  { username := some (.str "admin"), password := some (.str password),
    captchaToken := some (.str "P1_eyJ0eXAiOiJKV1Qi"), unknownKeys := [] }

/-- A login state with nothing counted yet. -/
def freshLogin : LoginState := { general := [], login := [], admins := sampleAdmins }

/-- The entry of the login limiter for the client after `k` counted requests
of the window that starts at or after `t0`. -/
def LoginWindow (ip : String) (t0 : Nat) (k : Nat) (st : LoginState) : Prop :=
  if k = 0 then ∀ w, st.login.get ip = some w → w.resetTime ≤ t0
  else ∃ R, t0 + 15 * 60 * 1000 ≤ R ∧ st.login.get ip = some { totalHits := k, resetTime := R }

/-! # Properties

## Lemmas on the statements -/

theorem find?_map_keep (l : List Photo) (g : Photo → Photo) (id : String)
    (hg : ∀ p, (g p).id = p.id) :
    (l.map g).find? (fun p => decide (p.id = id))
      = (l.find? (fun p => decide (p.id = id))).map g := by
  induction l with
  | nil => rfl
  | cons a l ih =>
    by_cases h : a.id = id
    · simp [List.find?, hg, h]
    · simp [List.find?, hg, h, ih]

theorem getPhotoById_updatePhotos (s : Store) (cond : Photo → Bool) (set : Photo → Photo)
    (id : String) (hset : ∀ p, (set p).id = p.id) :
    getPhotoById (updatePhotos s cond set).1 id
      = (getPhotoById s id).map (fun p => if cond p then set p else p) := by
  unfold getPhotoById updatePhotos
  apply find?_map_keep
  intro p
  split <;> simp [hset]

theorem updatePhotos_changes_pos (s : Store) (cond : Photo → Bool) (set : Photo → Photo)
    (id : String) (p : Photo) (hp : getPhotoById s id = some p) (hc : cond p = true) :
    0 < (updatePhotos s cond set).2 := by
  unfold updatePhotos
  apply List.length_pos_of_mem (a := p)
  exact List.mem_filter.mpr ⟨List.mem_of_find?_eq_some hp, hc⟩

theorem getPhotoById_id (s : Store) (id : String) (p : Photo) (hp : getPhotoById s id = some p) :
    p.id = id := by
  have := List.find?_some hp
  simpa using this

theorem hasPhoto_of_getPhotoById (s : Store) (id : String) (p : Photo)
    (hp : getPhotoById s id = some p) : s.hasPhoto id = true := by
  unfold Store.hasPhoto
  rw [List.any_eq_true]
  exact ⟨p, List.mem_of_find?_eq_some hp, by simpa using getPhotoById_id s id p hp⟩


theorem recordUserLike_approved (s : Store) (now : Nat) (photoId uid : String)
    (ip ua : Option String) (p : Photo)
    (hp : getPhotoById s photoId = some p) (happ : p.status = "approved")
    (hF : hasUserLikedPhoto s photoId uid = false) :
    recordUserLike s now photoId uid ip ua =
      ({ s with
          photos := s.photos.map (fun q =>
            if (decide (q.id = photoId) && decide (q.status = "approved")) then
              { q with likes := q.likes + 1 } else q)
          user_likes := s.user_likes ++ [{
            id := s.seq_user_likes + 1, photo_id := photoId, user_identifier := uid,
            ip_address := ip, user_agent := ua, liked_at := now }]
          seq_user_likes := s.seq_user_likes + 1 },
       .returned (.success (p.likes + 1) "liked")) := by
  have hid := getPhotoById_id s photoId p hp
  have hhas := hasPhoto_of_getPhotoById s photoId p hp
  unfold recordUserLike insertUserLike
  simp only [hF, hhas, Bool.false_eq_true, if_false, Bool.not_true]
  set s1 : Store := { s with
      user_likes := s.user_likes ++ [{
        id := s.seq_user_likes + 1, photo_id := photoId, user_identifier := uid,
        ip_address := ip, user_agent := ua, liked_at := now }]
      seq_user_likes := s.seq_user_likes + 1 } with hs1
  have hp1 : getPhotoById s1 photoId = some p := hp
  have hpos := updatePhotos_changes_pos s1
    (fun p => decide (p.id = photoId) && decide (p.status = "approved"))
    (fun p => { p with likes := p.likes + 1 }) photoId p hp1 (by simp [hid, happ])
  have hget := getPhotoById_updatePhotos s1
    (fun p => decide (p.id = photoId) && decide (p.status = "approved"))
    (fun p => { p with likes := p.likes + 1 }) photoId (fun _ => rfl)
  rw [hp1] at hget
  simp only [hpos, if_true, hget, Option.map_some', hid, happ, decide_True, Bool.and_self]
  rfl


theorem removeUserLike_existing (s : Store) (photoId uid : String) (p : Photo)
    (hp : getPhotoById s photoId = some p)
    (hF : hasUserLikedPhoto s photoId uid = true) :
    removeUserLike s photoId uid =
      ({ s with
          photos := s.photos.map (fun q =>
            if (decide (q.id = photoId) && decide (q.status = "approved") && decide (q.likes > 0)) then
              { q with likes := q.likes - 1 } else q)
          user_likes := s.user_likes.filter (fun r =>
            !(decide (r.photo_id = photoId) && decide (r.user_identifier = uid))) },
       .returned (.success
          (if p.status = "approved" ∧ p.likes > 0 then p.likes - 1 else p.likes) "unliked")) := by
  have hid := getPhotoById_id s photoId p hp
  have hpos : 0 < (s.user_likes.filter (fun r =>
      decide (r.photo_id = photoId) && decide (r.user_identifier = uid))).length := by
    unfold hasUserLikedPhoto at hF
    rw [List.any_eq_true] at hF
    obtain ⟨r, hr, hc⟩ := hF
    exact List.length_pos_of_mem (List.mem_filter.mpr ⟨hr, hc⟩)
  unfold removeUserLike
  simp only [hF, Bool.not_true, Bool.false_eq_true, if_false, hpos, if_true]
  set s1 : Store := { s with user_likes := s.user_likes.filter (fun r =>
      !(decide (r.photo_id = photoId) && decide (r.user_identifier = uid))) } with hs1
  have hp1 : getPhotoById s1 photoId = some p := hp
  have hget := getPhotoById_updatePhotos s1
    (fun p => decide (p.id = photoId) && decide (p.status = "approved") && decide (p.likes > 0))
    (fun p => { p with likes := p.likes - 1 }) photoId (fun _ => rfl)
  rw [hp1] at hget
  simp only [hget, Option.map_some', hid, decide_True, Bool.true_and]
  by_cases h1 : p.status = "approved" <;> by_cases h2 : p.likes > 0 <;>
    simp [h1, h2, updatePhotos, hs1]


theorem filter_not_pair_append (l : List UserLike) (row : UserLike) (photoId uid : String)
    (hrow : row.photo_id = photoId ∧ row.user_identifier = uid)
    (hF : l.any (fun r => decide (r.photo_id = photoId) && decide (r.user_identifier = uid)) = false) :
    (l ++ [row]).filter (fun r =>
        !(decide (r.photo_id = photoId) && decide (r.user_identifier = uid))) = l := by
  rw [List.filter_append]
  have h1 : l.filter (fun r =>
      !(decide (r.photo_id = photoId) && decide (r.user_identifier = uid))) = l := by
    rw [List.filter_eq_self]
    intro r hr
    have := (List.any_eq_false.mp hF) r hr
    simp only [Bool.not_eq_true] at this
    simp [this]
  rw [h1]
  simp [hrow.1, hrow.2]

/-- Claim C1: on an approved photo with a non-negative like count `n` and no
`user_likes` row for the visitor, `toggleUserLike` returns
`{ success: true, likes: n + 1, action: 'liked' }`, a second `toggleUserLike`
returns `{ success: true, likes: n, action: 'unliked' }`, and afterwards the
photo row is as it was (so `likes = n`), no row for the pair exists and the
whole `user_likes` table is as before. -/
theorem toggleUserLike_round_trip (s : Store) (t1 t2 : Nat) (photoId uid : String)
    (ip ua ip2 ua2 : Option String) (p : Photo)
    (hp : getPhotoById s photoId = some p) (happ : p.status = "approved")
    (hn : 0 ≤ p.likes) (hF : hasUserLikedPhoto s photoId uid = false) :
    (toggleUserLike s t1 photoId uid ip ua).2 = .returned (.success (p.likes + 1) "liked") ∧
    (toggleUserLike (toggleUserLike s t1 photoId uid ip ua).1 t2 photoId uid ip2 ua2).2
      = .returned (.success p.likes "unliked") ∧
    getPhotoById (toggleUserLike (toggleUserLike s t1 photoId uid ip ua).1 t2 photoId uid ip2 ua2).1
      photoId = some p ∧
    hasUserLikedPhoto
      (toggleUserLike (toggleUserLike s t1 photoId uid ip ua).1 t2 photoId uid ip2 ua2).1
      photoId uid = false ∧
    (toggleUserLike (toggleUserLike s t1 photoId uid ip ua).1 t2 photoId uid ip2 ua2).1.user_likes
      = s.user_likes := by
  have hid := getPhotoById_id s photoId p hp
  have h1 : toggleUserLike s t1 photoId uid ip ua = recordUserLike s t1 photoId uid ip ua := by
    simp [toggleUserLike, hF]
  rw [h1, recordUserLike_approved s t1 photoId uid ip ua p hp happ hF]
  refine ⟨rfl, ?_⟩
  set s1 : Store := { s with
      photos := s.photos.map (fun q =>
        if (decide (q.id = photoId) && decide (q.status = "approved")) then
          { q with likes := q.likes + 1 } else q)
      user_likes := s.user_likes ++ [{
        id := s.seq_user_likes + 1, photo_id := photoId, user_identifier := uid,
        ip_address := ip, user_agent := ua, liked_at := t1 }]
      seq_user_likes := s.seq_user_likes + 1 } with hs1
  have hp1 : getPhotoById s1 photoId = some { p with likes := p.likes + 1 } := by
    have := getPhotoById_updatePhotos s
      (fun p => decide (p.id = photoId) && decide (p.status = "approved"))
      (fun p => { p with likes := p.likes + 1 }) photoId (fun _ => rfl)
    rw [hp] at this
    simpa [hid, happ, updatePhotos, getPhotoById, hs1] using this
  have hF1 : hasUserLikedPhoto s1 photoId uid = true := by
    simp [hasUserLikedPhoto, hs1]
  have h2 : toggleUserLike s1 t2 photoId uid ip2 ua2 = removeUserLike s1 photoId uid := by
    simp [toggleUserLike, hF1]
  rw [h2, removeUserLike_existing s1 photoId uid _ hp1 hF1]
  have hpos : p.likes + 1 > 0 := by omega
  refine ⟨by simp [happ, hpos], ?_, ?_, ?_⟩
  · show List.find? _ (List.map _ s1.photos) = some p
    rw [find?_map_keep _ _ _ (by intro q; split <;> rfl)]
    have : List.find? (fun p => decide (p.id = photoId)) s1.photos
        = some { p with likes := p.likes + 1 } := hp1
    rw [this]
    simp only [hid, happ, hpos, decide_True, Bool.and_self, if_true, Option.map_some',
      add_sub_cancel_right]
    rw [← hid, ← happ]
  · show List.any (List.filter _ s1.user_likes) _ = false
    rw [List.any_eq_false]
    intro r hr
    have := (List.mem_filter.mp hr).2
    simp only [Bool.not_eq_true'] at this
    simp [this]
  · show List.filter _ s1.user_likes = s.user_likes
    exact filter_not_pair_append s.user_likes _ photoId uid ⟨rfl, rfl⟩ hF


/-- Witness of C1 on `sampleStore`: the visitor `fp_b` likes and unlikes
`photo_1`, which has three likes. -/
theorem toggleUserLike_round_trip_witness :
    (toggleUserLike sampleStore 50 "photo_1" "fp_b" none none).2
      = .returned (.success 4 "liked") ∧
    (toggleUserLike (toggleUserLike sampleStore 50 "photo_1" "fp_b" none none).1 60
        "photo_1" "fp_b" none none).2 = .returned (.success 3 "unliked") ∧
    getPhotoById (toggleUserLike (toggleUserLike sampleStore 50 "photo_1" "fp_b" none none).1 60
        "photo_1" "fp_b" none none).1 "photo_1" = some samplePhoto ∧
    hasUserLikedPhoto (toggleUserLike (toggleUserLike sampleStore 50 "photo_1" "fp_b" none none).1
        60 "photo_1" "fp_b" none none).1 "photo_1" "fp_b" = false ∧
    (toggleUserLike (toggleUserLike sampleStore 50 "photo_1" "fp_b" none none).1 60
        "photo_1" "fp_b" none none).1.user_likes = sampleStore.user_likes :=
  toggleUserLike_round_trip sampleStore 50 60 "photo_1" "fp_b" none none none none samplePhoto
    (by decide) (by decide) (by decide) (by decide)

theorem updatePhotos_none (s : Store) (cond : Photo → Bool) (set : Photo → Photo)
    (h : ∀ q ∈ s.photos, cond q = false) : updatePhotos s cond set = (s, 0) := by
  unfold updatePhotos
  have h1 : s.photos.map (fun p => if cond p then set p else p) = s.photos := by
    conv_rhs => rw [← List.map_id s.photos]
    apply List.map_congr_left
    intro q hq
    simp [h q hq]
  have h2 : s.photos.filter cond = [] := by
    rw [List.filter_eq_nil_iff]
    intro q hq
    simp [h q hq]
  rw [h1, h2]
  rfl

theorem recordUserLike_not_approved (s : Store) (now : Nat) (photoId uid : String)
    (ip ua : Option String) (hex : s.hasPhoto photoId = true)
    (hst : ∀ q ∈ s.photos, q.id = photoId → q.status ≠ "approved")
    (hF : hasUserLikedPhoto s photoId uid = false) :
    recordUserLike s now photoId uid ip ua =
      ({ s with
          user_likes := s.user_likes ++ [{
            id := s.seq_user_likes + 1, photo_id := photoId, user_identifier := uid,
            ip_address := ip, user_agent := ua, liked_at := now }]
          seq_user_likes := s.seq_user_likes + 1 },
       .returned (.failure "Photo not found or not approved")) := by
  unfold recordUserLike insertUserLike
  simp only [hF, hex, Bool.false_eq_true, if_false, Bool.not_true]
  rw [updatePhotos_none]
  · simp
  · intro q hq
    by_cases h : q.id = photoId
    · simp [h, hst q hq h]
    · simp [h]

/-- Claim C2, evaluated: on the database with the single pending photo `A`,
`recordUserLike` for the visitor `F` answers "Photo not found or not approved"
and still leaves a `user_likes` row for the pair behind, so the database is not
as it was. -/
theorem recordUserLike_pending_keeps_row :
    (recordUserLike pendingStore 2 "A" "F" none none).2
      = .returned (.failure "Photo not found or not approved") ∧
    hasUserLikedPhoto pendingStore "A" "F" = false ∧
    hasUserLikedPhoto (recordUserLike pendingStore 2 "A" "F" none none).1 "A" "F" = true ∧
    (recordUserLike pendingStore 2 "A" "F" none none).1 ≠ pendingStore := by
  decide

/-- Claim C3, evaluated: after the upload of `A`, which is pending, the first
`toggleUserLike` of visitor `F` is refused and the second one, by the same
visitor on the still pending photo, returns
`{ success: true, likes: 0, action: 'unliked' }`. -/
theorem toggleUserLike_pending_repeat_unliked :
    Reachable pendingStore ∧
    (getPhotoById pendingStore "A").map (fun p => p.status) = some "pending" ∧
    (toggleUserLike pendingStore 2 "A" "F" none none).2
      = .returned (.failure "Photo not found or not approved") ∧
    (getPhotoById (toggleUserLike pendingStore 2 "A" "F" none none).1 "A").map (fun p => p.status)
      = some "pending" ∧
    (toggleUserLike (toggleUserLike pendingStore 2 "A" "F" none none).1 3 "A" "F" none none).2
      = .returned (.success 0 "unliked") :=
  ⟨⟨_, rfl⟩, by decide, by decide, by decide, by decide⟩

/-- Claim C4: when a `user_reports` row exists for the pair, `recordUserReport`
returns `{ alreadyReported: true }` whatever the reason, and the database (the
photo rows with their `report_count`, the `user_reports` rows, the `reports`
rows and everything else) is exactly as before. -/
theorem recordUserReport_duplicate (s : Store) (now : Nat) (photoId uid reason : String)
    (ip ua : Option String) (h : hasUserReportedPhoto s photoId uid = true) :
    recordUserReport s now photoId uid reason ip ua = (s, .returned .alreadyReported) := by
  unfold recordUserReport
  simp [h]

/-- Witness of C4 on `sampleStore`: `fp_a` has reported `photo_1` as spam and
reports it again with the reason `other`. -/
theorem recordUserReport_duplicate_witness :
    recordUserReport sampleStore 70 "photo_1" "fp_a" "other" none none
      = (sampleStore, .returned .alreadyReported) :=
  recordUserReport_duplicate sampleStore 70 "photo_1" "fp_a" "other" none none (by decide)

theorem recordUserReport_first_store (s : Store) (now : Nat) (photoId uid reason : String)
    (ip ua : Option String) (p : Photo)
    (hp : getPhotoById s photoId = some p)
    (hF : hasUserReportedPhoto s photoId uid = false) :
    recordUserReport s now photoId uid reason ip ua =
      ({ s with
          photos := s.photos.map (fun q =>
            if decide (q.id = photoId) then { q with report_count := q.report_count + 1 } else q)
          reports := s.reports ++ [{
            id := s.seq_reports + 1, photo_id := photoId, reason := reason, reported_at := now }]
          user_reports := s.user_reports ++ [{
            id := s.seq_user_reports + 1, photo_id := photoId, user_identifier := uid,
            ip_address := ip, user_agent := ua, reason := reason, reported_at := now }]
          seq_reports := s.seq_reports + 1
          seq_user_reports := s.seq_user_reports + 1 },
       .returned (.success (p.report_count + 1))) := by
  have hid := getPhotoById_id s photoId p hp
  have hhas := hasPhoto_of_getPhotoById s photoId p hp
  unfold recordUserReport insertUserReport
  simp only [hF, hhas, Bool.false_eq_true, if_false, Bool.not_true]
  unfold insertReport
  have hhas1 : Store.hasPhoto { s with
      user_reports := s.user_reports ++ [{
        id := s.seq_user_reports + 1, photo_id := photoId, user_identifier := uid,
        ip_address := ip, user_agent := ua, reason := reason, reported_at := now }]
      seq_user_reports := s.seq_user_reports + 1 } photoId = true := hhas
  simp only [hhas1, Bool.false_eq_true, if_false, Bool.not_true]
  set s2 : Store := { s with
      reports := s.reports ++ [{
        id := s.seq_reports + 1, photo_id := photoId, reason := reason, reported_at := now }]
      user_reports := s.user_reports ++ [{
        id := s.seq_user_reports + 1, photo_id := photoId, user_identifier := uid,
        ip_address := ip, user_agent := ua, reason := reason, reported_at := now }]
      seq_reports := s.seq_reports + 1
      seq_user_reports := s.seq_user_reports + 1 } with hs2
  have hp2 : getPhotoById s2 photoId = some p := hp
  have hpos := updatePhotos_changes_pos s2 (fun p => decide (p.id = photoId))
    (fun p => { p with report_count := p.report_count + 1 }) photoId p hp2 (by simp [hid])
  have hget := getPhotoById_updatePhotos s2 (fun p => decide (p.id = photoId))
    (fun p => { p with report_count := p.report_count + 1 }) photoId (fun _ => rfl)
  rw [hp2] at hget
  simp only [hpos, if_true, hget, Option.map_some', hid, decide_True]
  rfl

/-- Claim C5: for an existing photo of any status with report count `r` and a
visitor with no `user_reports` row for it, `recordUserReport` returns
`{ success: true, reportCount: r + 1 }`, appends exactly one `user_reports` row
for the pair and exactly one `reports` row for the photo, both with the given
reason, leaves the photo row as it was except for `report_count = r + 1` (so
`likes` and `status` are kept), leaves every photo with another id as it was,
and does not touch `user_likes`. -/
theorem recordUserReport_first (s : Store) (now : Nat) (photoId uid reason : String)
    (ip ua : Option String) (p : Photo)
    (hp : getPhotoById s photoId = some p)
    (hF : hasUserReportedPhoto s photoId uid = false) :
    (recordUserReport s now photoId uid reason ip ua).2
      = .returned (.success (p.report_count + 1)) ∧
    (recordUserReport s now photoId uid reason ip ua).1.user_reports
      = s.user_reports ++ [{
          id := s.seq_user_reports + 1, photo_id := photoId, user_identifier := uid,
          ip_address := ip, user_agent := ua, reason := reason, reported_at := now }] ∧
    (recordUserReport s now photoId uid reason ip ua).1.reports
      = s.reports ++ [{
          id := s.seq_reports + 1, photo_id := photoId, reason := reason, reported_at := now }] ∧
    getPhotoById (recordUserReport s now photoId uid reason ip ua).1 photoId
      = some { p with report_count := p.report_count + 1 } ∧
    (recordUserReport s now photoId uid reason ip ua).1.photos
      = s.photos.map (fun q =>
          if q.id = photoId then { q with report_count := q.report_count + 1 } else q) ∧
    (∀ other : String, other ≠ photoId →
      getPhotoById (recordUserReport s now photoId uid reason ip ua).1 other
        = getPhotoById s other) ∧
    (recordUserReport s now photoId uid reason ip ua).1.user_likes = s.user_likes := by
  have hid := getPhotoById_id s photoId p hp
  rw [recordUserReport_first_store s now photoId uid reason ip ua p hp hF]
  refine ⟨rfl, rfl, rfl, ?_, ?_, ?_, rfl⟩
  · show List.find? _ (List.map _ s.photos) = _
    rw [find?_map_keep _ _ _ (by intro q; split <;> rfl)]
    have : List.find? (fun p => decide (p.id = photoId)) s.photos = some p := hp
    rw [this]
    simp [hid]
  · show List.map _ s.photos = List.map _ s.photos
    apply List.map_congr_left
    intro q _
    by_cases h : q.id = photoId <;> simp [h]
  · intro other hne
    show List.find? _ (List.map _ s.photos) = List.find? _ s.photos
    rw [find?_map_keep _ _ _ (by intro q; split <;> rfl)]
    cases hq : List.find? (fun p => decide (p.id = other)) s.photos with
    | none => rfl
    | some q =>
      have hqid : q.id = other := by simpa using List.find?_some hq
      have : ¬ q.id = photoId := by rw [hqid]; exact hne
      simp [this]

/-- Witness of C5 on `sampleStore`: the visitor `fp_b` reports the pending
photo `photo_2`. -/
theorem recordUserReport_first_witness :
    (recordUserReport sampleStore 70 "photo_2" "fp_b" "nudity" none none).2
      = .returned (.success 1) :=
  (recordUserReport_first sampleStore 70 "photo_2" "fp_b" "nudity" none none
    samplePending (by decide) (by decide)).1

/-- Claim C6: `approvePhoto` rewrites exactly the rows with the given id and
status `pending`, setting status `approved` and `approved_at` to the current
time, and touches nothing else; a pending photo is approved by it; when no row
with the id is pending (the photo is already approved, or absent) it affects
zero rows and leaves the database unchanged; hence a second `approvePhoto`, at
any later time, affects zero rows and leaves the database, status and
`approved_at` included, exactly as the first call left it. -/
theorem approvePhoto_guarded_idempotent (s : Store) (now later : Nat) (id : String) :
    (approvePhoto s now id).1 =
      { s with photos := s.photos.map (fun p =>
          if p.id = id ∧ p.status = "pending" then
            { p with status := "approved", approved_at := some now } else p) } ∧
    (∀ p : Photo, getPhotoById s id = some p → p.status = "pending" →
      getPhotoById (approvePhoto s now id).1 id
        = some { p with status := "approved", approved_at := some now } ∧
      0 < (approvePhoto s now id).2) ∧
    ((∀ p ∈ s.photos, p.id = id → p.status ≠ "pending") → approvePhoto s now id = (s, 0)) ∧
    approvePhoto (approvePhoto s now id).1 later id = ((approvePhoto s now id).1, 0) ∧
    getPhotoById (approvePhoto (approvePhoto s now id).1 later id).1 id
      = getPhotoById (approvePhoto s now id).1 id := by
  have hnone : ∀ s' : Store, (∀ p ∈ s'.photos, p.id = id → p.status ≠ "pending") →
      approvePhoto s' later id = (s', 0) ∧ approvePhoto s' now id = (s', 0) := by
    intro s' h
    constructor <;>
    · unfold approvePhoto
      apply updatePhotos_none
      intro q hq
      by_cases hq1 : q.id = id
      · simp [hq1, h q hq hq1]
      · simp [hq1]
  have hafter : ∀ p ∈ (approvePhoto s now id).1.photos, p.id = id → p.status ≠ "pending" := by
    intro q hq hqid
    unfold approvePhoto updatePhotos at hq
    simp only [List.mem_map] at hq
    obtain ⟨q0, _, rfl⟩ := hq
    by_cases h1 : q0.id = id <;> by_cases h2 : q0.status = "pending" <;>
      simp_all
  have htwice := (hnone _ hafter).1
  refine ⟨?_, ?_, fun h => (hnone s h).2, htwice, by rw [htwice]⟩
  · unfold approvePhoto updatePhotos
    simp only [Bool.and_eq_true, decide_eq_true_eq]
  · intro p hp hst
    have hid := getPhotoById_id s id p hp
    constructor
    · have h := getPhotoById_updatePhotos s
        (fun p => decide (p.id = id) && decide (p.status = "pending"))
        (fun p => { p with status := "approved", approved_at := some now }) id (fun _ => rfl)
      rw [hp] at h
      unfold approvePhoto
      rw [h]
      simp [hid, hst]
    · unfold approvePhoto
      exact updatePhotos_changes_pos s _ _ id p hp (by simp [hid, hst])

/-- Witness of C6 on `sampleStore`: `photo_1` is approved already, so approving
it changes nothing; `photo_2` is pending and gets approved at time 80. -/
theorem approvePhoto_guarded_idempotent_witness :
    approvePhoto sampleStore 80 "photo_1" = (sampleStore, 0) ∧
    (getPhotoById (approvePhoto sampleStore 80 "photo_2").1 "photo_2").map
        (fun p => (p.status, p.approved_at)) = some ("approved", some 80) :=
  ⟨(approvePhoto_guarded_idempotent sampleStore 80 90 "photo_1").2.2.1 (by decide),
   by rw [((approvePhoto_guarded_idempotent sampleStore 80 90 "photo_2").2.1 samplePending
      (by decide) (by decide)).1]; rfl⟩

theorem deletePhoto_gone_iff (s : Store) (id pid : String) (hpid : s.hasPhoto pid = true) :
    (s.photos.filter (fun p => decide (p.id = id))).any (fun p => decide (p.id = pid)) = true
      ↔ pid = id := by
  rw [List.any_eq_true]
  constructor
  · rintro ⟨p, hp, hpp⟩
    have h1 := (List.mem_filter.mp hp).2
    simp only [decide_eq_true_eq] at h1 hpp
    rw [← hpp, h1]
  · rintro rfl
    unfold Store.hasPhoto at hpid
    rw [List.any_eq_true] at hpid
    obtain ⟨p, hp, hpp⟩ := hpid
    exact ⟨p, List.mem_filter.mpr ⟨hp, hpp⟩, hpp⟩

theorem filter_cascade {α : Type} (l : List α) (key : α → String) (s : Store) (id : String)
    (hfk : ∀ r ∈ l, s.hasPhoto (key r) = true) :
    l.filter (fun r =>
        !(s.photos.filter (fun p => decide (p.id = id))).any (fun p => decide (p.id = key r)))
      = l.filter (fun r => decide (key r ≠ id)) := by
  apply List.filter_congr
  intro r hr
  have h := deletePhoto_gone_iff s id (key r) (hfk r hr)
  by_cases hk : key r = id
  · rw [h.mpr hk]; simp [hk]
  · have : (s.photos.filter (fun p => decide (p.id = id))).any
        (fun p => decide (p.id = key r)) = false := by
      rw [Bool.eq_false_iff]
      exact fun hc => hk (h.mp hc)
    rw [this]; simp [hk]

/-- Claim C7: on a database whose child rows all point at existing photos (the
foreign keys of `createTables`), after `deletePhoto(id)` there is no photo row
with that id and no `reports`, `user_likes` or `user_reports` row whose
`photo_id` is that id, while the four tables keep, in order, exactly their rows
of every other photo. -/
theorem deletePhoto_cascades (s : Store) (id : String) (hfk : s.foreignKeysHold) :
    getPhotoById (deletePhoto s id).1 id = none ∧
    (∀ p ∈ (deletePhoto s id).1.photos, p.id ≠ id) ∧
    (∀ r ∈ (deletePhoto s id).1.reports, r.photo_id ≠ id) ∧
    (∀ r ∈ (deletePhoto s id).1.user_likes, r.photo_id ≠ id) ∧
    (∀ r ∈ (deletePhoto s id).1.user_reports, r.photo_id ≠ id) ∧
    (deletePhoto s id).1.photos = s.photos.filter (fun p => decide (p.id ≠ id)) ∧
    (deletePhoto s id).1.reports = s.reports.filter (fun r => decide (r.photo_id ≠ id)) ∧
    (deletePhoto s id).1.user_likes = s.user_likes.filter (fun r => decide (r.photo_id ≠ id)) ∧
    (deletePhoto s id).1.user_reports
      = s.user_reports.filter (fun r => decide (r.photo_id ≠ id)) := by
  obtain ⟨h1, h2, h3⟩ := hfk
  have hp : (deletePhoto s id).1.photos = s.photos.filter (fun p => decide (p.id ≠ id)) := by
    show List.filter _ s.photos = _
    apply List.filter_congr
    intro p _
    simp
  have hr : (deletePhoto s id).1.reports
      = s.reports.filter (fun r => decide (r.photo_id ≠ id)) :=
    filter_cascade s.reports (fun r => r.photo_id) s id h1
  have hl : (deletePhoto s id).1.user_likes
      = s.user_likes.filter (fun r => decide (r.photo_id ≠ id)) :=
    filter_cascade s.user_likes (fun r => r.photo_id) s id h2
  have hu : (deletePhoto s id).1.user_reports
      = s.user_reports.filter (fun r => decide (r.photo_id ≠ id)) :=
    filter_cascade s.user_reports (fun r => r.photo_id) s id h3
  have hp2 : ∀ p ∈ (deletePhoto s id).1.photos, p.id ≠ id := by
    rw [hp]; intro p hp; simpa using (List.mem_filter.mp hp).2
  refine ⟨?_, hp2, ?_, ?_, ?_, hp, hr, hl, hu⟩
  · unfold getPhotoById
    rw [List.find?_eq_none]
    intro p hp
    simpa using hp2 p hp
  · rw [hr]; intro r hr; simpa using (List.mem_filter.mp hr).2
  · rw [hl]; intro r hr; simpa using (List.mem_filter.mp hr).2
  · rw [hu]; intro r hr; simpa using (List.mem_filter.mp hr).2

/-- Witness of C7 on `sampleStore`: deleting `photo_1` leaves only the pending
photo and empties the three child tables, whose rows all belonged to it. -/
theorem deletePhoto_cascades_witness :
    sampleStore.foreignKeysHold ∧
    (deletePhoto sampleStore "photo_1").1.photos
      = sampleStore.photos.filter (fun p => decide (p.id ≠ "photo_1")) ∧
    getPhotoById (deletePhoto sampleStore "photo_1").1 "photo_1" = none :=
  ⟨by decide, (deletePhoto_cascades sampleStore "photo_1" (by decide)).2.2.2.2.2.1,
   (deletePhoto_cascades sampleStore "photo_1" (by decide)).1⟩

theorem strOfCode_strCode (s : String) : strOfCode (strCode s) = s := by
  unfold strOfCode strCode
  simp [List.map_map, Function.comp_def, Char.ofNat_toNat]

theorem Jws.ofCode_toCode (j : Jws) : Jws.ofCode j.toCode = j := by
  obtain ⟨⟨u, i, r, t⟩, k, a, e, n⟩ := j
  cases u <;> cases r <;> cases t <;> simp [Jws.ofCode, Jws.toCode, strOfCode_strCode]

theorem readToken_tokenText (j : Jws) : readToken (tokenText j) = some j := by
  unfold readToken tokenText
  simp only [List.all_replicate, List.length_replicate, Encodable.encodek, Option.map_some',
    Jws.ofCode_toCode]
  simp

theorem tokenText_injective : Function.Injective tokenText := by
  intro a b h
  have := congrArg readToken h
  simpa [readToken_tokenText] using this

theorem referenceJwt_faithful : referenceJwt.Faithful := by
  intro payload secret expiresIn t0 t1
  simp only [referenceJwt, readToken_tokenText]
  by_cases h : t1 < t0 + expiresIn
  · simp [h]
  · simp [h]

theorem splitSpace_no_space (cs : List Char) (h : ' ' ∉ cs) : splitSpace cs = [cs] := by
  induction cs with
  | nil => rfl
  | cons c cs ih =>
    have hc : c ≠ ' ' := fun e => h (by simp [e])
    have hcs : ' ' ∉ cs := fun e => h (by simp [e])
    simp [splitSpace, hc, ih hcs]

theorem headerToken_bearer (t : String) (h : ' ' ∉ t.data) :
    headerToken (some ("Bearer " ++ t)) = some t := by
  unfold headerToken
  have hne : "Bearer " ++ t ≠ "" := by
    intro e
    have := congrArg String.length e
    simp only [String.length_append] at this
    have h7 : "Bearer ".length = 7 := by decide
    have h0 : "".length = 0 := by decide
    omega
  have hd : ("Bearer " ++ t).data = 'B' :: 'e' :: 'a' :: 'r' :: 'e' :: 'r' :: ' ' :: t.data := by
    simp [String.data_append]
  simp only [hne, if_false, hd]
  simp [splitSpace, splitSpace_no_space t.data h]

theorem tokenText_no_space (j : Jws) : ' ' ∉ (tokenText j).data := by
  unfold tokenText
  simp [List.mem_replicate]

theorem tokenText_ne_empty (j : Jws) : tokenText j ≠ "" := by
  unfold tokenText
  intro e
  have := congrArg String.length e
  simp at this

theorem sessionToken_injective : Function.Injective sessionToken := by
  intro a b h
  unfold sessionToken generateTokens referenceJwt at h
  have := tokenText_injective h
  simpa using this

theorem fullBlacklist_card : fullBlacklist.card = 1000 := by
  unfold fullBlacklist
  rw [Finset.card_image_of_injective _ sessionToken_injective, Finset.card_range]

theorem blacklistToken_full : blacklistToken fullBlacklist (sessionToken 1000) = ∅ := by
  unfold blacklistToken
  have hnot : sessionToken 1000 ∉ fullBlacklist := by
    unfold fullBlacklist
    rw [Finset.mem_image]
    rintro ⟨n, hn, he⟩
    have := sessionToken_injective he
    rw [Finset.mem_range] at hn
    omega
  have : (insert (sessionToken 1000) fullBlacklist).card = 1001 := by
    rw [Finset.card_insert_of_not_mem hnot, fullBlacklist_card]
  simp [this]

theorem sessionToken_eq (n : Nat) :
    sessionToken n = referenceJwt.sign
      { username := some "admin", id := some 1, role := some "admin", type := none }
      sampleSecret 900 n := rfl

theorem sessionToken_eq_text (n : Nat) :
    sessionToken n = tokenText
      { payload := { username := some "admin", id := some 1, role := some "admin", type := none }
        key := sampleSecret, iat := n, exp := n + 900, nbf := none } := rfl

theorem gate_accepts_session (n now : Nat) (h : now < n + 900) (tokenBlacklist : Finset String)
    (hnot : sessionToken n ∉ tokenBlacklist) :
    authenticateToken referenceJwt sampleSecret now tokenBlacklist
        (some ("Bearer " ++ sessionToken n))
      = .next { username := some "admin", id := some 1, role := some "admin", type := none,
                iat := some n, exp := some (n + 900) } := by
  have hv : referenceJwt.verify (sessionToken n) sampleSecret now
      = .ok { username := some "admin", id := some 1, role := some "admin", type := none,
              iat := some n, exp := some (n + 900) } := by
    rw [sessionToken_eq, referenceJwt_faithful, if_pos h]
  have hsp : ' ' ∉ (sessionToken n).data := by
    rw [sessionToken_eq_text]; exact tokenText_no_space _
  have hne : sessionToken n ≠ "" := by
    rw [sessionToken_eq_text]; exact tokenText_ne_empty _
  unfold authenticateToken
  rw [headerToken_bearer _ hsp]
  simp only [hne, if_false, hnot, hv]
  simp

/-- Claim C8 fails when the set is full: after the sessions opened at times 0
to 999 have logged out, the logout of the session opened at time 1000 empties
the revocation set, and the gate then lets that very token through. -/
theorem blacklistToken_full_lets_token_through :
    fullBlacklist.card = 1000 ∧
    blacklistToken fullBlacklist (sessionToken 1000) = ∅ ∧
    authenticateToken referenceJwt sampleSecret 1001
        (blacklistToken fullBlacklist (sessionToken 1000))
        (some ("Bearer " ++ sessionToken 1000))
      = .next { username := some "admin", id := some 1, role := some "admin", type := none,
                iat := some 1000, exp := some (1000 + 900) } := by
  refine ⟨fullBlacklist_card, blacklistToken_full, ?_⟩
  rw [blacklistToken_full]
  exact gate_accepts_session 1000 1001 (by omega) ∅ (Finset.not_mem_empty _)

/-- Claim C8, amended: whenever the revocation set holds at most 1000 tokens
once `t` is added, a request presenting `t` right after `blacklistToken(t)` is
answered 403 with code `TOKEN_REVOKED`, whatever the library says of `t`. -/
theorem blacklistToken_revokes (jwt : JwtLib) (secret : String) (now : Nat)
    (tokenBlacklist : Finset String) (authHeader : Option String) (t : String)
    (ht : headerToken authHeader = some t) (hne : t ≠ "")
    (hcap : (insert t tokenBlacklist).card ≤ 1000) :
    authenticateToken jwt secret now (blacklistToken tokenBlacklist t) authHeader
      = .json 403 "Token has been revoked" "TOKEN_REVOKED" := by
  have hb : blacklistToken tokenBlacklist t = insert t tokenBlacklist := by
    unfold blacklistToken
    simp only [gt_iff_lt]
    rw [if_neg (by omega)]
  unfold authenticateToken
  rw [ht, hb]
  simp [hne]

/-- Witness of C8, amended: the first logout of all, of the session opened at
time 5. -/
theorem blacklistToken_revokes_witness :
    authenticateToken referenceJwt sampleSecret 6 (blacklistToken ∅ (sessionToken 5))
        (some ("Bearer " ++ sessionToken 5))
      = .json 403 "Token has been revoked" "TOKEN_REVOKED" :=
  blacklistToken_revokes referenceJwt sampleSecret 6 ∅ (some ("Bearer " ++ sessionToken 5))
    (sessionToken 5) (headerToken_bearer _ (tokenText_no_space _)) (tokenText_ne_empty _)
    (by simp)

theorem referenceJwt_verify_text (j : Jws) (secret : String) (clock : Nat) :
    referenceJwt.verify (tokenText j) secret clock =
      if j.key ≠ secret then .err "JsonWebTokenError"
      else if (match j.nbf with | some n => decide (clock < n) | none => false) then
        .err "NotBeforeError"
      else if j.exp ≤ clock then .err "TokenExpiredError"
      else .ok { toPayload := j.payload, iat := some j.iat, exp := some j.exp } := by
  simp only [referenceJwt, readToken_tokenText]

theorem gate_on_text (j : Jws) (secret : String) (now : Nat) (tokenBlacklist : Finset String)
    (hnot : tokenText j ∉ tokenBlacklist) (name : String)
    (hv : referenceJwt.verify (tokenText j) secret now = .err name)
    (h1 : name ≠ "TokenExpiredError") (h2 : name ≠ "JsonWebTokenError") :
    authenticateToken referenceJwt secret now tokenBlacklist (some ("Bearer " ++ tokenText j))
      = .json 403 "Invalid token" "INVALID_TOKEN" := by
  unfold authenticateToken
  rw [headerToken_bearer _ (tokenText_no_space j)]
  simp only [tokenText_ne_empty j, if_false, hnot, hv, h1, h2]


/-- Claim C9 fails on a token that is not active yet: the token is present, not
revoked, signed with the secret, unexpired and carries the admin role, and the
gate answers it with the code `INVALID_TOKEN`, which is none of the five codes
of the claim. -/
theorem authenticateToken_not_yet_valid :
    authenticateToken referenceJwt sampleSecret 100 ∅ (some ("Bearer " ++ notYetValidToken))
      = .json 403 "Invalid token" "INVALID_TOKEN" ∧
    "INVALID_TOKEN" ∉ ["NO_TOKEN", "TOKEN_REVOKED", "TOKEN_EXPIRED", "MALFORMED_TOKEN",
      "INSUFFICIENT_PRIVILEGES"] := by
  refine ⟨?_, by decide⟩
  have hv : referenceJwt.verify (tokenText notYetValidJws) sampleSecret 100
      = .err "NotBeforeError" := by
    rw [referenceJwt_verify_text]
    rfl
  exact gate_on_text notYetValidJws sampleSecret 100 ∅ (Finset.not_mem_empty _)
    "NotBeforeError" hv (by decide) (by decide)

/-- Claim C9, amended: the gate calls `next` exactly when a non-empty token is
present in the header, is not in the revocation set, verifies and carries the
role `admin`.  Otherwise it answers with the code of the first failing check:
`NO_TOKEN` (401) for a missing token, then `TOKEN_REVOKED`, then, when
verification fails, `TOKEN_EXPIRED` for a `TokenExpiredError`,
`MALFORMED_TOKEN` for a `JsonWebTokenError` and `INVALID_TOKEN` for every
other error, then `INSUFFICIENT_PRIVILEGES` (all 403).  The six codes are
pairwise distinct. -/
theorem authenticateToken_decision_table (jwt : JwtLib) (secret : String) (now : Nat)
    (tokenBlacklist : Finset String) (authHeader : Option String) :
    ((∃ user, authenticateToken jwt secret now tokenBlacklist authHeader = .next user) ↔
      ∃ t d, headerToken authHeader = some t ∧ t ≠ "" ∧ t ∉ tokenBlacklist ∧
        jwt.verify t secret now = .ok d ∧ d.role = some "admin") ∧
    (headerToken authHeader = none ∨ headerToken authHeader = some "" →
      authenticateToken jwt secret now tokenBlacklist authHeader
        = .json 401 "Access token required" "NO_TOKEN") ∧
    (∀ t, headerToken authHeader = some t → t ≠ "" →
      (t ∈ tokenBlacklist →
        authenticateToken jwt secret now tokenBlacklist authHeader
          = .json 403 "Token has been revoked" "TOKEN_REVOKED") ∧
      (t ∉ tokenBlacklist → jwt.verify t secret now = .err "TokenExpiredError" →
        authenticateToken jwt secret now tokenBlacklist authHeader
          = .json 403 "Token has expired" "TOKEN_EXPIRED") ∧
      (t ∉ tokenBlacklist → jwt.verify t secret now = .err "JsonWebTokenError" →
        authenticateToken jwt secret now tokenBlacklist authHeader
          = .json 403 "Malformed token" "MALFORMED_TOKEN") ∧
      (∀ name, t ∉ tokenBlacklist → jwt.verify t secret now = .err name →
        name ≠ "TokenExpiredError" → name ≠ "JsonWebTokenError" →
        authenticateToken jwt secret now tokenBlacklist authHeader
          = .json 403 "Invalid token" "INVALID_TOKEN") ∧
      (∀ d, t ∉ tokenBlacklist → jwt.verify t secret now = .ok d → d.role ≠ some "admin" →
        authenticateToken jwt secret now tokenBlacklist authHeader
          = .json 403 "Insufficient privileges" "INSUFFICIENT_PRIVILEGES") ∧
      (∀ d, t ∉ tokenBlacklist → jwt.verify t secret now = .ok d → d.role = some "admin" →
        authenticateToken jwt secret now tokenBlacklist authHeader = .next d)) ∧
    ["NO_TOKEN", "TOKEN_REVOKED", "TOKEN_EXPIRED", "MALFORMED_TOKEN", "INVALID_TOKEN",
      "INSUFFICIENT_PRIVILEGES"].Nodup := by
  refine ⟨?_, ?_, ?_, by decide⟩
  · constructor
    · rintro ⟨user, h⟩
      unfold authenticateToken at h
      cases ht : headerToken authHeader with
      | none => simp [ht] at h
      | some t =>
        simp only [ht] at h
        by_cases h1 : t = ""
        · simp [h1] at h
        · by_cases h2 : t ∈ tokenBlacklist
          · simp [h1, h2] at h
          · cases hv : jwt.verify t secret now with
            | err name =>
              simp only [h1, h2, hv, if_false] at h
              split at h
              · simp at h
              · split at h <;> simp at h
            | ok d =>
              by_cases h3 : d.role = some "admin"
              · exact ⟨t, d, rfl, h1, h2, hv, h3⟩
              · simp [h1, h2, hv, h3] at h
    · rintro ⟨t, d, ht, h1, h2, hv, h3⟩
      exact ⟨d, by unfold authenticateToken; simp [ht, h1, h2, hv, h3]⟩
  · rintro (h | h) <;> unfold authenticateToken <;> simp [h]
  · intro t ht h1
    refine ⟨?_, ?_, ?_, ?_, ?_, ?_⟩
    · intro h2
      unfold authenticateToken; simp [ht, h1, h2]
    · intro h2 hv
      unfold authenticateToken; simp [ht, h1, h2, hv]
    · intro h2 hv
      unfold authenticateToken; simp [ht, h1, h2, hv]
    · intro name h2 hv hn1 hn2
      unfold authenticateToken; simp [ht, h1, h2, hv, hn1, hn2]
    · intro d h2 hv h3
      unfold authenticateToken; simp [ht, h1, h2, hv, h3]
    · intro d h2 hv h3
      unfold authenticateToken; simp [ht, h1, h2, hv, h3]

/-- Witness of C9, amended: with no header at all the gate answers 401
`NO_TOKEN`. -/
theorem authenticateToken_decision_table_witness :
    authenticateToken referenceJwt sampleSecret 100 ∅ none
      = .json 401 "Access token required" "NO_TOKEN" :=
  (authenticateToken_decision_table referenceJwt sampleSecret 100 ∅ none).2.1 (Or.inl rfl)

/-- Claim C10: `refreshAccessToken(t)` returns an access token exactly when `t`
verifies and its `type` claim is `refresh`; that token is signed for 15 minutes
over the `username`, `id` and `role` of `t` and no `type`, and it verifies to
those claims; every other input is rejected with the error
`Invalid refresh token`, in particular the access token of `generateTokens` and
every token `refreshAccessToken` itself returned; the refresh token of
`generateTokens` is accepted during its seven days. -/
theorem refreshAccessToken_spec (jwt : JwtLib) (hjwt : jwt.Faithful) (secret : String)
    (now : Nat) :
    (∀ t, (∃ tok, refreshAccessToken jwt secret now t = .accessToken tok) ↔
      ∃ d, jwt.verify t secret now = .ok d ∧ d.type = some "refresh") ∧
    (∀ t d, jwt.verify t secret now = .ok d → d.type = some "refresh" →
      refreshAccessToken jwt secret now t = .accessToken (jwt.sign
        { username := d.username, id := d.id, role := d.role, type := none } secret 900 now)) ∧
    (∀ t tok d, refreshAccessToken jwt secret now t = .accessToken tok →
      jwt.verify t secret now = .ok d →
      ∀ t1, t1 < now + 900 →
        jwt.verify tok secret t1 = .ok
          { username := d.username, id := d.id, role := d.role, type := none,
            iat := some now, exp := some (now + 900) }) ∧
    (∀ t, (¬ ∃ d, jwt.verify t secret now = .ok d ∧ d.type = some "refresh") →
      refreshAccessToken jwt secret now t = .thrown "Invalid refresh token") ∧
    (∀ user t0,
      refreshAccessToken jwt secret now (generateTokens jwt secret t0 user).accessToken
        = .thrown "Invalid refresh token") ∧
    (∀ t tok t0, refreshAccessToken jwt secret t0 t = .accessToken tok →
      refreshAccessToken jwt secret now tok = .thrown "Invalid refresh token") ∧
    (∀ user t0, now < t0 + 604800 →
      refreshAccessToken jwt secret now (generateTokens jwt secret t0 user).refreshToken
        = .accessToken (jwt.sign
          { username := some user.username, id := some user.id, role := some "admin",
            type := none } secret 900 now)) := by
  have hok : ∀ t d, jwt.verify t secret now = .ok d → d.type = some "refresh" →
      refreshAccessToken jwt secret now t = .accessToken (jwt.sign
        { username := d.username, id := d.id, role := d.role, type := none } secret 900 now) := by
    intro t d hv ht
    unfold refreshAccessToken
    simp [hv, ht]
  have hrej : ∀ t, (¬ ∃ d, jwt.verify t secret now = .ok d ∧ d.type = some "refresh") →
      refreshAccessToken jwt secret now t = .thrown "Invalid refresh token" := by
    intro t h
    unfold refreshAccessToken
    cases hv : jwt.verify t secret now with
    | err name => rfl
    | ok d =>
      have : d.type ≠ some "refresh" := fun ht => h ⟨d, hv, ht⟩
      simp [this]
  have hsigned : ∀ (p : Payload) (e t0 : Nat), p.type = none →
      refreshAccessToken jwt secret now (jwt.sign p secret e t0)
        = .thrown "Invalid refresh token" := by
    intro p e t0 hp
    apply hrej
    rintro ⟨d, hv, ht⟩
    rw [hjwt] at hv
    split at hv
    · injection hv with hv
      rw [← hv] at ht
      simp [hp] at ht
    · cases hv
  refine ⟨?_, hok, ?_, hrej, ?_, ?_, ?_⟩
  · intro t
    constructor
    · rintro ⟨tok, h⟩
      by_contra hc
      rw [hrej t hc] at h
      cases h
    · rintro ⟨d, hv, ht⟩
      exact ⟨_, hok t d hv ht⟩
  · intro t tok d h hv t1 ht1
    have htype : d.type = some "refresh" := by
      by_contra hc
      have := hrej t (by rintro ⟨d', hv', ht'⟩; rw [hv] at hv'; cases hv'; exact hc ht')
      rw [this] at h
      cases h
    rw [hok t d hv htype] at h
    injection h with h
    rw [← h, hjwt, if_pos ht1]
  · intro user t0
    exact hsigned _ _ _ rfl
  · intro t tok t0 h
    unfold refreshAccessToken at h
    cases hv : jwt.verify t secret t0 with
    | err name => simp [hv] at h
    | ok d =>
      simp only [hv] at h
      split at h
      · cases h
      · injection h with h
        rw [← h]
        exact hsigned _ _ _ rfl
  · intro user t0 ht
    have hv := hjwt
      ({ username := some user.username, id := some user.id, role := some "admin",
         type := some "refresh" } : Payload) secret 604800 t0 now
    rw [if_pos ht] at hv
    exact hok _ _ hv rfl

/-- Witness of C10 with the reference library: the refresh token of a session
opened at time 0 is exchanged at time 1000, and the access token of that
session is refused. -/
theorem refreshAccessToken_spec_witness :
    refreshAccessToken referenceJwt sampleSecret 1000
        (generateTokens referenceJwt sampleSecret 0 sampleUser).refreshToken
      = .accessToken (referenceJwt.sign
          { username := some "admin", id := some 1, role := some "admin", type := none }
          sampleSecret 900 1000) ∧
    refreshAccessToken referenceJwt sampleSecret 1000
        (generateTokens referenceJwt sampleSecret 0 sampleUser).accessToken
      = .thrown "Invalid refresh token" :=
  ⟨(refreshAccessToken_spec referenceJwt referenceJwt_faithful sampleSecret 1000).2.2.2.2.2.2
      sampleUser 0 (by omega),
   (refreshAccessToken_spec referenceJwt referenceJwt_faithful sampleSecret 1000).2.2.2.2.1
      sampleUser 0⟩

/-- Claim C11: with `T` approved photos, `getPhotos(N, S, sortBy)` returns exactly
`min(S, T - N*S)` photos when `N*S < T` and none otherwise, reports `total = T`,
and sets `hasMore` to false exactly when `N*S` plus the number of photos
returned reaches `T`; this holds for every page size, `S >= 1` included. -/
theorem getPhotos_pagination (s : Store) (page limit : Nat) (sortBy : String) :
    (getPhotos s page limit sortBy).total
      = (s.photos.filter (fun p => decide (p.status = "approved"))).length ∧
    (getPhotos s page limit sortBy).photos.length
      = (if page * limit < (getPhotos s page limit sortBy).total then
          min limit ((getPhotos s page limit sortBy).total - page * limit)
        else 0) ∧
    ((getPhotos s page limit sortBy).hasMore = false ↔
      page * limit + (getPhotos s page limit sortBy).photos.length
        ≥ (getPhotos s page limit sortBy).total) := by
  have hlen : (getPhotos s page limit sortBy).photos.length
      = min limit ((s.photos.filter (fun p => decide (p.status = "approved"))).length
          - page * limit) := by
    simp [getPhotos, List.length_take, List.length_drop, List.length_insertionSort]
  have htot : (getPhotos s page limit sortBy).total
      = (s.photos.filter (fun p => decide (p.status = "approved"))).length := rfl
  have hmore : (getPhotos s page limit sortBy).hasMore
      = decide (page * limit + limit
          < (s.photos.filter (fun p => decide (p.status = "approved"))).length) := rfl
  refine ⟨htot, ?_, ?_⟩
  · rw [hlen, htot]
    split
    · rfl
    · omega
  · rw [hlen, htot, hmore]
    simp only [decide_eq_false_iff_not, not_lt, ge_iff_le]
    omega

/-! ## How each operation changes the tables -/

theorem updatePhotos_tables (s : Store) (cond : Photo → Bool) (set : Photo → Photo) :
    (updatePhotos s cond set).1.photos = s.photos.map (fun p => if cond p then set p else p) ∧
    (updatePhotos s cond set).1.user_likes = s.user_likes ∧
    (updatePhotos s cond set).1.user_reports = s.user_reports ∧
    (updatePhotos s cond set).1.reports = s.reports :=
  ⟨rfl, rfl, rfl, rfl⟩

theorem recordUserLike_photos (s : Store) (now : Nat) (photoId uid : String)
    (ip ua : Option String) :
    (recordUserLike s now photoId uid ip ua).1.photos = s.photos ∨
    (recordUserLike s now photoId uid ip ua).1.photos = s.photos.map (fun p =>
      if (decide (p.id = photoId) && decide (p.status = "approved")) then
        { p with likes := p.likes + 1 } else p) := by
  unfold recordUserLike insertUserLike
  by_cases h1 : hasUserLikedPhoto s photoId uid = true
  · simp [h1]
  · by_cases h2 : s.hasPhoto photoId = true
    · right
      simp only [h1, h2, Bool.false_eq_true, if_false, Bool.not_true]
      split
      · split <;> rfl
      · rfl
    · left
      simp [h1, h2]

theorem recordUserLike_user_likes (s : Store) (now : Nat) (photoId uid : String)
    (ip ua : Option String) :
    (recordUserLike s now photoId uid ip ua).1.user_likes = s.user_likes ∨
    (hasUserLikedPhoto s photoId uid = false ∧ s.hasPhoto photoId = true ∧
      (recordUserLike s now photoId uid ip ua).1.user_likes = s.user_likes ++ [{
        id := s.seq_user_likes + 1, photo_id := photoId, user_identifier := uid,
        ip_address := ip, user_agent := ua, liked_at := now }]) := by
  unfold recordUserLike insertUserLike
  by_cases h1 : hasUserLikedPhoto s photoId uid = true
  · simp [h1]
  · by_cases h2 : s.hasPhoto photoId = true
    · right
      simp only [Bool.not_eq_true] at h1
      refine ⟨h1, h2, ?_⟩
      simp only [h1, h2, Bool.false_eq_true, if_false, Bool.not_true]
      split
      · split <;> rfl
      · rfl
    · left
      simp [h1, h2]

theorem recordUserLike_others (s : Store) (now : Nat) (photoId uid : String)
    (ip ua : Option String) :
    (recordUserLike s now photoId uid ip ua).1.user_reports = s.user_reports ∧
    (recordUserLike s now photoId uid ip ua).1.reports = s.reports := by
  unfold recordUserLike insertUserLike
  by_cases h1 : hasUserLikedPhoto s photoId uid = true
  · simp [h1]
  · by_cases h2 : s.hasPhoto photoId = true
    · simp only [h1, h2, Bool.false_eq_true, if_false, Bool.not_true]
      split
      · split <;> exact ⟨rfl, rfl⟩
      · exact ⟨rfl, rfl⟩
    · simp [h1, h2]

theorem removeUserLike_photos (s : Store) (photoId uid : String) :
    (removeUserLike s photoId uid).1.photos = s.photos ∨
    (removeUserLike s photoId uid).1.photos = s.photos.map (fun p =>
      if (decide (p.id = photoId) && decide (p.status = "approved") && decide (p.likes > 0)) then
        { p with likes := p.likes - 1 } else p) := by
  unfold removeUserLike
  by_cases h1 : hasUserLikedPhoto s photoId uid = true
  · simp only [h1, Bool.not_true, Bool.false_eq_true, if_false]
    split
    · right
      split <;> rfl
    · left; rfl
  · simp [h1]

theorem removeUserLike_user_likes (s : Store) (photoId uid : String) :
    (removeUserLike s photoId uid).1.user_likes = s.user_likes ∨
    (removeUserLike s photoId uid).1.user_likes = s.user_likes.filter (fun r =>
      !(decide (r.photo_id = photoId) && decide (r.user_identifier = uid))) := by
  unfold removeUserLike
  by_cases h1 : hasUserLikedPhoto s photoId uid = true
  · right
    simp only [h1, Bool.not_true, Bool.false_eq_true, if_false]
    split
    · split <;> rfl
    · rfl
  · simp [h1]

theorem removeUserLike_others (s : Store) (photoId uid : String) :
    (removeUserLike s photoId uid).1.user_reports = s.user_reports ∧
    (removeUserLike s photoId uid).1.reports = s.reports := by
  unfold removeUserLike
  by_cases h1 : hasUserLikedPhoto s photoId uid = true
  · simp only [h1, Bool.not_true, Bool.false_eq_true, if_false]
    split
    · split <;> exact ⟨rfl, rfl⟩
    · exact ⟨rfl, rfl⟩
  · simp [h1]

theorem recordUserReport_photos (s : Store) (now : Nat) (photoId uid reason : String)
    (ip ua : Option String) :
    (recordUserReport s now photoId uid reason ip ua).1.photos = s.photos ∨
    (recordUserReport s now photoId uid reason ip ua).1.photos = s.photos.map (fun p =>
      if decide (p.id = photoId) then { p with report_count := p.report_count + 1 } else p) := by
  unfold recordUserReport insertUserReport
  by_cases h1 : hasUserReportedPhoto s photoId uid = true
  · simp [h1]
  · by_cases h2 : s.hasPhoto photoId = true
    · right
      have h2' : Store.hasPhoto { s with
          user_reports := s.user_reports ++ [{
            id := s.seq_user_reports + 1, photo_id := photoId, user_identifier := uid,
            ip_address := ip, user_agent := ua, reason := reason, reported_at := now }]
          seq_user_reports := s.seq_user_reports + 1 } photoId = true := h2
      simp only [h1, h2, Bool.false_eq_true, if_false, Bool.not_true, insertReport, h2']
      split
      · split <;> rfl
      · rfl
    · left
      simp [h1, h2, catchReport]

theorem recordUserReport_user_likes (s : Store) (now : Nat) (photoId uid reason : String)
    (ip ua : Option String) :
    (recordUserReport s now photoId uid reason ip ua).1.user_likes = s.user_likes := by
  unfold recordUserReport insertUserReport
  by_cases h1 : hasUserReportedPhoto s photoId uid = true
  · simp [h1]
  · by_cases h2 : s.hasPhoto photoId = true
    · have h2' : Store.hasPhoto { s with
          user_reports := s.user_reports ++ [{
            id := s.seq_user_reports + 1, photo_id := photoId, user_identifier := uid,
            ip_address := ip, user_agent := ua, reason := reason, reported_at := now }]
          seq_user_reports := s.seq_user_reports + 1 } photoId = true := h2
      simp only [h1, h2, Bool.false_eq_true, if_false, Bool.not_true, insertReport, h2']
      split
      · split <;> rfl
      · rfl
    · simp [h1, h2, catchReport]

/-! ## Invariants of the workflow -/

theorem runOps_invariant (Inv : Store → Prop)
    (hstep : ∀ s now op, Inv s → Inv (step s now op)) :
    ∀ (ops : List (Nat × Op)) (s0 : Store), Inv s0 → Inv (runOps s0 ops) := by
  intro ops
  induction ops with
  | nil => intro s0 h; exact h
  | cons e ops ih =>
    intro s0 h
    exact ih (step s0 e.1 e.2) (hstep s0 e.1 e.2 h)

theorem reachable_invariant (Inv : Store → Prop) (h0 : Inv Store.empty)
    (hstep : ∀ s now op, Inv s → Inv (step s now op)) :
    ∀ s, Reachable s → Inv s := by
  rintro s ⟨ops, rfl⟩
  exact runOps_invariant Inv hstep ops Store.empty h0

theorem forall_mem_map_of {P : Photo → Prop} (l : List Photo) (f : Photo → Photo)
    (h : ∀ p ∈ l, P p) (hf : ∀ p, P p → P (f p)) : ∀ q ∈ l.map f, P q := by
  intro q hq
  obtain ⟨p, hp, rfl⟩ := List.mem_map.mp hq
  exact hf p (h p hp)

theorem toggleUserLike_photos (s : Store) (now : Nat) (photoId uid : String)
    (ip ua : Option String) :
    (toggleUserLike s now photoId uid ip ua).1.photos = s.photos ∨
    (toggleUserLike s now photoId uid ip ua).1.photos = s.photos.map (fun p =>
      if (decide (p.id = photoId) && decide (p.status = "approved")) then
        { p with likes := p.likes + 1 } else p) ∨
    (toggleUserLike s now photoId uid ip ua).1.photos = s.photos.map (fun p =>
      if (decide (p.id = photoId) && decide (p.status = "approved") && decide (p.likes > 0)) then
        { p with likes := p.likes - 1 } else p) := by
  unfold toggleUserLike
  split
  · rcases removeUserLike_photos s photoId uid with h | h
    · exact Or.inl h
    · exact Or.inr (Or.inr h)
  · rcases recordUserLike_photos s now photoId uid ip ua with h | h
    · exact Or.inl h
    · exact Or.inr (Or.inl h)

/-- A property of single photo rows that the like, unlike, report and approve
updates keep and that a fresh upload has is kept by every operation. -/
theorem step_photos_forall (P : Photo → Prop)
    (hlike : ∀ p : Photo, P p → p.status = "approved" → P { p with likes := p.likes + 1 })
    (hunlike : ∀ p : Photo, P p → p.status = "approved" → p.likes > 0 →
      P { p with likes := p.likes - 1 })
    (hreport : ∀ p : Photo, P p → P { p with report_count := p.report_count + 1 })
    (happrove : ∀ (p : Photo) (now : Nat), P p → p.status = "pending" →
      P { p with status := "approved", approved_at := some now })
    (hnew : ∀ (id filename originalName : String) (size : Int) (now : Nat),
      P { id := id, filename := filename, original_name := originalName, size := size,
          likes := 0, report_count := 0, status := "pending", created_at := now,
          uploaded_at := now, approved_at := none })
    (s : Store) (now : Nat) (op : Op) (h : ∀ p ∈ s.photos, P p) :
    ∀ p ∈ (step s now op).photos, P p := by
  cases op with
  | upload id filename originalName size =>
    unfold step addPhoto
    by_cases hh : s.hasPhoto id = true
    · simpa [hh] using h
    · simp only [hh, Bool.false_eq_true, if_false]
      intro p hp
      rcases List.mem_append.mp hp with hp | hp
      · exact h p hp
      · rw [List.mem_singleton] at hp
        rw [hp]
        exact hnew id filename originalName size now
  | approve id =>
    apply forall_mem_map_of _ _ h
    intro p hp
    by_cases hc : (decide (p.id = id) && decide (p.status = "pending")) = true
    · simp only [hc, if_true]
      simp only [Bool.and_eq_true, decide_eq_true_eq] at hc
      exact happrove p now hp hc.2
    · simp only [hc]
      exact hp
  | reject id =>
    intro p hp
    exact h p (List.mem_filter.mp hp).1
  | delete id =>
    intro p hp
    exact h p (List.mem_filter.mp hp).1
  | toggleLike photoId uid ip ua =>
    show ∀ p ∈ (toggleUserLike s now photoId uid ip ua).1.photos, P p
    rcases toggleUserLike_photos s now photoId uid ip ua with e | e | e <;> rw [e]
    · exact h
    · apply forall_mem_map_of _ _ h
      intro p hp
      by_cases hc : (decide (p.id = photoId) && decide (p.status = "approved")) = true
      · simp only [hc, if_true]
        simp only [Bool.and_eq_true, decide_eq_true_eq] at hc
        exact hlike p hp hc.2
      · simp only [hc]
        exact hp
    · apply forall_mem_map_of _ _ h
      intro p hp
      by_cases hc : (decide (p.id = photoId) && decide (p.status = "approved")
          && decide (p.likes > 0)) = true
      · simp only [hc, if_true]
        simp only [Bool.and_eq_true, decide_eq_true_eq] at hc
        exact hunlike p hp hc.1.2 hc.2
      · simp only [hc]
        exact hp
  | report photoId uid reason ip ua =>
    show ∀ p ∈ (recordUserReport s now photoId uid reason ip ua).1.photos, P p
    rcases recordUserReport_photos s now photoId uid reason ip ua with e | e <;> rw [e]
    · exact h
    · apply forall_mem_map_of _ _ h
      intro p hp
      by_cases hc : p.id = photoId
      · simp only [hc, decide_True, if_true]
        have := hreport p hp
        rw [hc] at this
        exact this
      · simp only [hc, decide_False]
        exact hp

/-- Claim C12: in every database the workflow can reach from the empty one
(uploads as pending with no likes, approvals, rejections, deletions, like
toggles, reports), every photo whose status is not `approved` has `likes = 0`. -/
theorem likes_zero_before_approval (s : Store) (hs : Reachable s) :
    ∀ p ∈ s.photos, p.status ≠ "approved" → p.likes = 0 := by
  refine reachable_invariant (fun s => ∀ p ∈ s.photos, p.status ≠ "approved" → p.likes = 0)
    ?_ ?_ s hs
  · intro p hp
    cases hp
  · intro s now op h
    apply step_photos_forall (fun p => p.status ≠ "approved" → p.likes = 0) _ _ _ _ _ s now op h
    · intro p _ ha hn
      exact absurd ha hn
    · intro p _ ha _ hn
      exact absurd ha hn
    · intro p hp hn
      exact hp hn
    · intro p now _ _ hn
      exact absurd rfl hn
    · intro _ _ _ _ _ _
      rfl

/-- Witness of C12 on `workflowStore`: the pending photo `B`, which the visitor
`fp_a` tried to like, has no likes. -/
theorem likes_zero_before_approval_witness :
    workflowPending ∈ workflowStore.photos ∧ workflowPending.status ≠ "approved" ∧
    workflowPending.likes = 0 :=
  ⟨by decide, by decide,
   likes_zero_before_approval workflowStore ⟨_, rfl⟩ workflowPending (by decide) (by decide)⟩

theorem toggleUserLike_user_likes (s : Store) (now : Nat) (photoId uid : String)
    (ip ua : Option String) :
    (toggleUserLike s now photoId uid ip ua).1.user_likes = s.user_likes ∨
    (hasUserLikedPhoto s photoId uid = false ∧ s.hasPhoto photoId = true ∧
      (toggleUserLike s now photoId uid ip ua).1.user_likes = s.user_likes ++ [{
        id := s.seq_user_likes + 1, photo_id := photoId, user_identifier := uid,
        ip_address := ip, user_agent := ua, liked_at := now }]) ∨
    (toggleUserLike s now photoId uid ip ua).1.user_likes = s.user_likes.filter (fun r =>
      !(decide (r.photo_id = photoId) && decide (r.user_identifier = uid))) := by
  unfold toggleUserLike
  split
  · rcases removeUserLike_user_likes s photoId uid with h | h
    · exact Or.inl h
    · exact Or.inr (Or.inr h)
  · rcases recordUserLike_user_likes s now photoId uid ip ua with h | h
    · exact Or.inl h
    · exact Or.inr (Or.inl h)

theorem step_user_likes (s : Store) (now : Nat) (op : Op) :
    (∃ keep : UserLike → Bool, (step s now op).user_likes = s.user_likes.filter keep) ∨
    (∃ row : UserLike, hasUserLikedPhoto s row.photo_id row.user_identifier = false ∧
      s.hasPhoto row.photo_id = true ∧ (step s now op).user_likes = s.user_likes ++ [row]) := by
  have same : ∀ l : List UserLike, ∃ keep : UserLike → Bool, l = l.filter keep :=
    fun l => ⟨fun _ => true, by simp⟩
  cases op with
  | upload id filename originalName size =>
    left
    unfold step addPhoto
    by_cases hh : s.hasPhoto id = true
    · simp only [hh, if_true]; exact same _
    · simp only [hh, Bool.false_eq_true, if_false]; exact same _
  | approve id => left; exact same _
  | reject id => left; exact ⟨_, rfl⟩
  | delete id => left; exact ⟨_, rfl⟩
  | toggleLike photoId uid ip ua =>
    rcases toggleUserLike_user_likes s now photoId uid ip ua with e | ⟨h1, h2, e⟩ | e
    · left; show ∃ keep, (toggleUserLike s now photoId uid ip ua).1.user_likes = _
      rw [e]; exact same _
    · right
      exact ⟨_, h1, h2, e⟩
    · left; exact ⟨_, e⟩
  | report photoId uid reason ip ua =>
    left
    show ∃ keep, (recordUserReport s now photoId uid reason ip ua).1.user_likes = _
    rw [recordUserReport_user_likes]; exact same _

theorem step_likeKeyUnique (s : Store) (now : Nat) (op : Op) (h : s.likeKeyUnique) :
    (step s now op).likeKeyUnique := by
  unfold Store.likeKeyUnique at h ⊢
  rcases step_user_likes s now op with ⟨keep, e⟩ | ⟨row, h1, _, e⟩
  · rw [e]
    exact h.sublist ((List.filter_sublist _).map _)
  · rw [e, List.map_append, List.map_singleton]
    apply List.Nodup.append h (List.nodup_singleton _)
    rw [List.disjoint_singleton]
    intro hmem
    obtain ⟨r, hr, hk⟩ := List.mem_map.mp hmem
    unfold hasUserLikedPhoto at h1
    have := (List.any_eq_false.mp h1) r hr
    simp only [Prod.mk.injEq] at hk
    simp [hk.1, hk.2] at this

theorem filter_key_length_le_one {α β : Type} [DecidableEq β] (l : List α) (key : α → β)
    (k : β) (h : (l.map key).Nodup) :
    (l.filter (fun r => decide (key r = k))).length ≤ 1 := by
  induction l with
  | nil => simp
  | cons a l ih =>
    rw [List.map_cons, List.nodup_cons] at h
    by_cases hk : key a = k
    · have hnil : l.filter (fun r => decide (key r = k)) = [] := by
        rw [List.filter_eq_nil_iff]
        intro r hr hrk
        simp only [decide_eq_true_eq] at hrk
        exact h.1 (List.mem_map.mpr ⟨r, hr, by rw [hrk, hk]⟩)
      simp [List.filter_cons, hk, hnil]
    · simpa [List.filter_cons, hk] using ih h.2

/-- Claim C13: in every database the workflow can reach, the
`(photo_id, user_identifier)` keys of `user_likes` are pairwise distinct, so at
most one row exists for every pair; and `recordUserLike` on a pair that has a
row returns `{ alreadyLiked: true }` and leaves the database unchanged. -/
theorem like_ledger_unique (s : Store) (hs : Reachable s) :
    s.likeKeyUnique ∧
    (∀ photoId uid : String,
      (s.user_likes.filter (fun r =>
        decide (r.photo_id = photoId) && decide (r.user_identifier = uid))).length ≤ 1) ∧
    (∀ (now : Nat) (photoId uid : String) (ip ua : Option String),
      hasUserLikedPhoto s photoId uid = true →
      recordUserLike s now photoId uid ip ua = (s, .returned .alreadyLiked)) := by
  have hu : s.likeKeyUnique :=
    reachable_invariant (fun s => s.likeKeyUnique) (by simp [Store.likeKeyUnique, Store.empty])
      step_likeKeyUnique s hs
  refine ⟨hu, ?_, ?_⟩
  · intro photoId uid
    have hc := filter_key_length_le_one s.user_likes
      (fun r => (r.photo_id, r.user_identifier)) (photoId, uid) hu
    have he : s.user_likes.filter (fun r =>
        decide (r.photo_id = photoId) && decide (r.user_identifier = uid))
        = s.user_likes.filter (fun r =>
          decide ((r.photo_id, r.user_identifier) = (photoId, uid))) := by
      apply List.filter_congr
      intro r _
      simp [Prod.ext_iff]
    rw [he]
    exact hc
  · intro now photoId uid ip ua h
    unfold recordUserLike
    simp [h]

/-- Witness of C13 on `workflowStore`: `fp_a` has liked `A` there, and a direct
`recordUserLike` of the same pair changes nothing. -/
theorem like_ledger_unique_witness :
    recordUserLike workflowStore 9 "A" "fp_a" none none
      = (workflowStore, .returned .alreadyLiked) :=
  (like_ledger_unique workflowStore ⟨_, rfl⟩).2.2 9 "A" "fp_a" none none (by decide)

theorem find?_filter_of_keep (l : List Photo) (pred keep : Photo → Bool) (p : Photo)
    (h : l.find? pred = some p) (hk : keep p = true) : (l.filter keep).find? pred = some p := by
  induction l with
  | nil => cases h
  | cons a l ih =>
    by_cases ha : pred a = true
    · have hap : a = p := by simpa [List.find?, ha] using h
      subst hap
      simp [List.filter_cons, hk, List.find?, ha]
    · have hl : l.find? pred = some p := by simpa [List.find?, ha] using h
      by_cases hka : keep a = true
      · simp [List.filter_cons, hka, List.find?, ha, ih hl]
      · simp [List.filter_cons, hka, ih hl]

/-- The part of an approved photo row that no update of the workflow touches. -/
theorem getPhotoById_map_approved (l : List Photo) (f : Photo → Photo) (id : String) (p : Photo)
    (hp : l.find? (fun q => decide (q.id = id)) = some p)
    (hid : ∀ q, (f q).id = q.id)
    (hf : (f p).status = p.status ∧ (f p).approved_at = p.approved_at) :
    ∃ q, (l.map f).find? (fun q => decide (q.id = id)) = some q ∧
      q.status = p.status ∧ q.approved_at = p.approved_at := by
  refine ⟨f p, ?_, hf⟩
  rw [find?_map_keep l f id hid, hp]
  rfl

/-- Claim C14: an approved photo is still there, with status `approved` and the
same `approved_at`, after every operation of the workflow other than its own
deletion (uploads, `approvePhoto`, `rejectPhoto`, `toggleUserLike`,
`recordUserReport`, and deletions of other photos, on any id and visitor), and
after a direct `recordUserLike` or `removeUserLike`; `deletePhoto` of its id
removes it. -/
theorem approved_photo_stays (s : Store) (id : String) (p : Photo)
    (hp : getPhotoById s id = some p) (ha : p.status = "approved") :
    (∀ (now : Nat) (op : Op), op ≠ .delete id →
      ∃ q, getPhotoById (step s now op) id = some q ∧
        q.status = "approved" ∧ q.approved_at = p.approved_at) ∧
    (∀ (now : Nat) (photoId uid : String) (ip ua : Option String),
      ∃ q, getPhotoById (recordUserLike s now photoId uid ip ua).1 id = some q ∧
        q.status = "approved" ∧ q.approved_at = p.approved_at) ∧
    (∀ (photoId uid : String),
      ∃ q, getPhotoById (removeUserLike s photoId uid).1 id = some q ∧
        q.status = "approved" ∧ q.approved_at = p.approved_at) ∧
    getPhotoById (deletePhoto s id).1 id = none := by
  have hpid := getPhotoById_id s id p hp
  have hfind : s.photos.find? (fun q => decide (q.id = id)) = some p := hp
  have hsame : ∃ q, s.photos.find? (fun q => decide (q.id = id)) = some q ∧
      q.status = "approved" ∧ q.approved_at = p.approved_at := ⟨p, hfind, ha, rfl⟩
  have hlike : ∀ photoId : String,
      ∃ q, (s.photos.map (fun p =>
        if (decide (p.id = photoId) && decide (p.status = "approved")) then
          { p with likes := p.likes + 1 } else p)).find? (fun q => decide (q.id = id)) = some q ∧
        q.status = "approved" ∧ q.approved_at = p.approved_at := by
    intro photoId
    have := getPhotoById_map_approved s.photos (fun p =>
        if (decide (p.id = photoId) && decide (p.status = "approved")) then
          { p with likes := p.likes + 1 } else p) id p hfind
      (by intro q; dsimp only; split <;> rfl) (by dsimp only; split <;> exact ⟨rfl, rfl⟩)
    rwa [ha] at this
  have hunlike : ∀ photoId : String,
      ∃ q, (s.photos.map (fun p =>
        if (decide (p.id = photoId) && decide (p.status = "approved") && decide (p.likes > 0)) then
          { p with likes := p.likes - 1 } else p)).find? (fun q => decide (q.id = id)) = some q ∧
        q.status = "approved" ∧ q.approved_at = p.approved_at := by
    intro photoId
    have := getPhotoById_map_approved s.photos (fun p =>
        if (decide (p.id = photoId) && decide (p.status = "approved") && decide (p.likes > 0)) then
          { p with likes := p.likes - 1 } else p) id p hfind
      (by intro q; dsimp only; split <;> rfl) (by dsimp only; split <;> exact ⟨rfl, rfl⟩)
    rwa [ha] at this
  have hrec : ∀ (now : Nat) (photoId uid : String) (ip ua : Option String),
      ∃ q, getPhotoById (recordUserLike s now photoId uid ip ua).1 id = some q ∧
        q.status = "approved" ∧ q.approved_at = p.approved_at := by
    intro now photoId uid ip ua
    unfold getPhotoById
    rcases recordUserLike_photos s now photoId uid ip ua with e | e <;> rw [e]
    · exact hsame
    · exact hlike photoId
  have hrem : ∀ (photoId uid : String),
      ∃ q, getPhotoById (removeUserLike s photoId uid).1 id = some q ∧
        q.status = "approved" ∧ q.approved_at = p.approved_at := by
    intro photoId uid
    unfold getPhotoById
    rcases removeUserLike_photos s photoId uid with e | e <;> rw [e]
    · exact hsame
    · exact hunlike photoId
  refine ⟨?_, hrec, hrem, ?_⟩
  · intro now op hop
    cases op with
    | upload id' filename originalName size =>
      unfold step addPhoto getPhotoById
      by_cases hh : s.hasPhoto id' = true
      · simp only [hh, if_true]; exact hsame
      · simp only [hh, Bool.false_eq_true, if_false]
        exact ⟨p, by rw [List.find?_append, hfind]; rfl, ha, rfl⟩
    | approve id' =>
      have := getPhotoById_map_approved s.photos (fun p =>
          if (decide (p.id = id') && decide (p.status = "pending")) then
            { p with status := "approved", approved_at := some now } else p) id p hfind
        (by intro q; dsimp only; split <;> rfl) (by simp [ha])
      rwa [ha] at this
    | reject id' =>
      refine ⟨p, ?_, ha, rfl⟩
      exact find?_filter_of_keep s.photos _ _ p hfind (by simp [ha])
    | delete id' =>
      have hne : id' ≠ id := fun e => hop (by rw [e])
      refine ⟨p, ?_, ha, rfl⟩
      exact find?_filter_of_keep s.photos _ _ p hfind (by simp [hpid, Ne.symm hne])
    | toggleLike photoId uid ip ua =>
      show ∃ q, getPhotoById (toggleUserLike s now photoId uid ip ua).1 id = some q ∧ _
      unfold toggleUserLike
      split
      · exact hrem photoId uid
      · exact hrec now photoId uid ip ua
    | report photoId uid reason ip ua =>
      show ∃ q, (recordUserReport s now photoId uid reason ip ua).1.photos.find? _ = some q ∧ _
      rcases recordUserReport_photos s now photoId uid reason ip ua with e | e <;> rw [e]
      · exact hsame
      · have := getPhotoById_map_approved s.photos (fun p =>
            if decide (p.id = photoId) then
              { p with report_count := p.report_count + 1 } else p) id p hfind
          (by intro q; dsimp only; split <;> rfl) (by dsimp only; split <;> exact ⟨rfl, rfl⟩)
        rwa [ha] at this
  · unfold getPhotoById
    rw [List.find?_eq_none]
    intro q hq
    have := (List.mem_filter.mp hq).2
    simpa using this

/-- Witness of C14 on `sampleStore`: rejecting the approved `photo_1` leaves it
approved with its approval time. -/
theorem approved_photo_stays_witness :
    ∃ q, getPhotoById (step sampleStore 90 (.reject "photo_1")) "photo_1" = some q ∧
      q.status = "approved" ∧ q.approved_at = samplePhoto.approved_at :=
  (approved_photo_stays sampleStore "photo_1" samplePhoto (by decide) (by decide)).1 90
    (.reject "photo_1") (by decide)

/-- Claim C15, evaluated: on `sampleWorld` the reject handler, called for the
approved `photo_1`, leaves the database as it was and answers success, but it
has removed the image file of the photo from the File Store. -/
theorem rejectHandler_approved_removes_file :
    getPhotoById sampleWorld.db "photo_1" = some samplePhoto ∧
    samplePhoto.status = "approved" ∧
    samplePhoto.filename ∈ sampleWorld.files ∧
    (rejectHandler sampleWorld false "photo_1").1.db = sampleWorld.db ∧
    samplePhoto.filename ∉ (rejectHandler sampleWorld false "photo_1").1.files ∧
    (rejectHandler sampleWorld false "photo_1").2
      = { status := 200, success := true, text := "Photo rejected and deleted" } := by
  decide

theorem eq_of_photoKeyUnique (s : Store) (h : s.photoKeyUnique) (p q : Photo)
    (hp : p ∈ s.photos) (hq : q ∈ s.photos) (hid : q.id = p.id) : q = p :=
  List.inj_on_of_nodup_map h hq hp hid

/-- Claim C16: whichever way the unlink of the image ends, the reject handler
removes the row of a pending photo and answers success, and both admin delete
handlers remove the row of an existing photo and answer success. -/
theorem removal_ignores_unlink_outcome (w : World) (ioFails : Bool) (id : String) (p : Photo)
    (hp : getPhotoById w.db id = some p) :
    (p.status = "pending" → w.db.photoKeyUnique →
      (rejectHandler w ioFails id).2
        = { status := 200, success := true, text := "Photo rejected and deleted" } ∧
      getPhotoById (rejectHandler w ioFails id).1.db id = none ∧
      p ∉ (rejectHandler w ioFails id).1.db.photos) ∧
    ((deleteHandler w ioFails id).2
        = { status := 200, success := true, text := "Photo deleted successfully" } ∧
      getPhotoById (deleteHandler w ioFails id).1.db id = none) ∧
    ((deleteReportedHandler w ioFails id).2
        = { status := 200, success := true,
            text := "Photo and all associated reports deleted successfully" } ∧
      getPhotoById (deleteReportedHandler w ioFails id).1.db id = none) := by
  have hpid := getPhotoById_id w.db id p hp
  have hmem : p ∈ w.db.photos := List.mem_of_find?_eq_some hp
  have hdel : getPhotoById (deletePhoto w.db id).1 id = none := by
    unfold getPhotoById
    rw [List.find?_eq_none]
    intro q hq
    have := (List.mem_filter.mp hq).2
    simpa using this
  refine ⟨?_, ?_, ?_⟩
  · intro hst hkey
    have hgone : ∀ q ∈ (rejectPhoto w.db id).1.photos, q.id ≠ id := by
      intro q hq hqid
      have hq' := List.mem_filter.mp hq
      have hqp : q = p := eq_of_photoKeyUnique w.db hkey p q hmem hq'.1 (by rw [hqid, hpid])
      have := hq'.2
      rw [hqp] at this
      simp [hpid, hst] at this
    refine ⟨rfl, ?_, ?_⟩
    · show List.find? _ (rejectPhoto w.db id).1.photos = none
      rw [List.find?_eq_none]
      intro q hq
      simpa using hgone q hq
    · intro hin
      exact hgone p hin hpid
  · unfold deleteHandler
    rw [hp]
    exact ⟨rfl, hdel⟩
  · unfold deleteReportedHandler
    rw [hp]
    exact ⟨rfl, hdel⟩

/-- Witness of C16 on `sampleWorld` with a failing unlink: the pending `photo_2`
is rejected and its row is gone. -/
theorem removal_ignores_unlink_outcome_witness :
    (rejectHandler sampleWorld true "photo_2").2
      = { status := 200, success := true, text := "Photo rejected and deleted" } ∧
    getPhotoById (rejectHandler sampleWorld true "photo_2").1.db "photo_2" = none ∧
    samplePending ∉ (rejectHandler sampleWorld true "photo_2").1.db.photos :=
  (removal_ignores_unlink_outcome sampleWorld true "photo_2" samplePending (by decide)).1
    (by decide) (by decide)

theorem no_like_row_of_missing (s : Store) (hfk : s.foreignKeysHold) (photoId uid : String)
    (hno : s.hasPhoto photoId = false) : hasUserLikedPhoto s photoId uid = false := by
  unfold hasUserLikedPhoto
  rw [List.any_eq_false]
  intro r hr hc
  simp only [Bool.and_eq_true, decide_eq_true_eq] at hc
  have := hfk.2.1 r hr
  rw [hc.1, hno] at this
  cases this

/-- On a database that satisfies its foreign keys, a like of an id with no photo
row throws the foreign-key error of the insert and changes nothing. -/
theorem toggleUserLike_missing_throws (s : Store) (hfk : s.foreignKeysHold) (now : Nat)
    (photoId uid : String) (ip ua : Option String) (hno : s.hasPhoto photoId = false) :
    toggleUserLike s now photoId uid ip ua
      = (s, .threw (.sqlite "SQLITE_CONSTRAINT_FOREIGNKEY")) := by
  have h := no_like_row_of_missing s hfk photoId uid hno
  unfold toggleUserLike recordUserLike insertUserLike
  simp [h, hno]

/-- Claim C17, evaluated: on `sampleStore`, which has no photo `photo_9`,
`toggleUserLike` throws `SQLITE_CONSTRAINT_FOREIGNKEY` instead of returning the
not-found result, and the like handler answers 500; the database is unchanged. -/
theorem toggleUserLike_missing_photo_throws :
    getPhotoById sampleStore "photo_9" = none ∧
    toggleUserLike sampleStore 5 "photo_9" "F" none none
      = (sampleStore, .threw (.sqlite "SQLITE_CONSTRAINT_FOREIGNKEY")) ∧
    likeHandler sampleStore 5 "photo_9" "F" "10.0.0.9" "ua"
      = (sampleStore, .refused 500 "Failed to like photo") := by
  decide

/-- On a database that satisfies its foreign keys, a report of an id with no
photo row throws the foreign-key error of the first insert and changes
nothing. -/
theorem recordUserReport_missing_throws (s : Store) (hfk : s.foreignKeysHold) (now : Nat)
    (photoId uid reason : String) (ip ua : Option String) (hno : s.hasPhoto photoId = false) :
    recordUserReport s now photoId uid reason ip ua
      = (s, .threw (.sqlite "SQLITE_CONSTRAINT_FOREIGNKEY")) := by
  have h : hasUserReportedPhoto s photoId uid = false := by
    unfold hasUserReportedPhoto
    rw [List.any_eq_false]
    intro r hr hc
    simp only [Bool.and_eq_true, decide_eq_true_eq] at hc
    have := hfk.2.2 r hr
    rw [hc.1, hno] at this
    cases this
  unfold recordUserReport insertUserReport
  simp [h, hno, catchReport]

/-- Claim C18, evaluated: on `sampleStore`, which has no photo `photo_9`,
`recordUserReport` throws `SQLITE_CONSTRAINT_FOREIGNKEY` instead of returning
`{ success: false, error: 'Photo not found' }`; the database is unchanged. -/
theorem recordUserReport_missing_photo_throws :
    getPhotoById sampleStore "photo_9" = none ∧
    recordUserReport sampleStore 5 "photo_9" "F" "spam" none none
      = (sampleStore, .threw (.sqlite "SQLITE_CONSTRAINT_FOREIGNKEY")) := by
  decide

/-- In every database the workflow can reach, no photo has a negative like
count. -/
theorem likes_nonneg_of_reachable (s : Store) (hs : Reachable s) :
    ∀ p ∈ s.photos, 0 ≤ p.likes := by
  refine reachable_invariant (fun s => ∀ p ∈ s.photos, 0 ≤ p.likes) ?_ ?_ s hs
  · intro p hp
    cases hp
  · intro s now op h
    apply step_photos_forall (fun p => 0 ≤ p.likes) _ _ _ _ _ s now op h
    · intro p hp _
      show 0 ≤ p.likes + 1
      omega
    · intro p _ _ hpos
      show 0 ≤ p.likes - 1
      omega
    · intro p hp
      exact hp
    · intro p now hp _
      exact hp
    · intro _ _ _ _ _
      show (0 : Int) ≤ 0
      omega

/-- Claim C19: without a `user_likes` row for the pair, `removeUserLike` returns
`{ notLiked: true }` and changes nothing.  With a row, and a photo whose like
count obeys the data model (not negative, and zero unless the photo is
approved), it deletes the rows of the pair, which is exactly one row when the
pairs are unique, sets the likes of the photo to `max(likes - 1, 0)`, returns
that count with action `unliked`, and leaves every other photo, every other
`user_likes` row and the report tables unchanged; the new count is not
negative. -/
theorem removeUserLike_contract (s : Store) (photoId uid : String) :
    (hasUserLikedPhoto s photoId uid = false →
      removeUserLike s photoId uid = (s, .returned .notLiked)) ∧
    (∀ p : Photo, hasUserLikedPhoto s photoId uid = true → getPhotoById s photoId = some p →
      0 ≤ p.likes → (p.status ≠ "approved" → p.likes = 0) →
      (removeUserLike s photoId uid).2
        = .returned (.success (max (p.likes - 1) 0) "unliked") ∧
      getPhotoById (removeUserLike s photoId uid).1 photoId
        = some { p with likes := max (p.likes - 1) 0 } ∧
      0 ≤ max (p.likes - 1) 0 ∧
      (removeUserLike s photoId uid).1.user_likes = s.user_likes.filter (fun r =>
        !(decide (r.photo_id = photoId) && decide (r.user_identifier = uid))) ∧
      (s.likeKeyUnique →
        (removeUserLike s photoId uid).1.user_likes.length + 1 = s.user_likes.length) ∧
      (∀ other : String, other ≠ photoId →
        getPhotoById (removeUserLike s photoId uid).1 other = getPhotoById s other) ∧
      (∀ q ∈ s.photos, q.id ≠ photoId → q ∈ (removeUserLike s photoId uid).1.photos) ∧
      (removeUserLike s photoId uid).1.user_reports = s.user_reports ∧
      (removeUserLike s photoId uid).1.reports = s.reports) := by
  constructor
  · intro h
    unfold removeUserLike
    simp [h]
  · intro p hF hp hnn hgate
    have hpid := getPhotoById_id s photoId p hp
    rw [removeUserLike_existing s photoId uid p hp hF]
    have hval : (if p.status = "approved" ∧ p.likes > 0 then p.likes - 1 else p.likes)
        = max (p.likes - 1) 0 := by
      by_cases ha : p.status = "approved"
      · by_cases hpos : p.likes > 0
        · rw [if_pos ⟨ha, hpos⟩]; omega
        · rw [if_neg (fun h => hpos h.2)]; omega
      · rw [if_neg (fun h => ha h.1), hgate ha]; rfl
    refine ⟨by rw [hval], ?_, le_max_right _ _, rfl, ?_, ?_, ?_, rfl, rfl⟩
    · show List.find? _ (List.map _ s.photos) = _
      rw [find?_map_keep _ _ _ (by intro q; split <;> rfl)]
      have : List.find? (fun p => decide (p.id = photoId)) s.photos = some p := hp
      rw [this, ← hval, Option.map_some']
      congr 1
      by_cases hc : p.status = "approved" ∧ p.likes > 0
      · have hb : (decide (p.id = photoId) && decide (p.status = "approved")
            && decide (p.likes > 0)) = true := by
          simp [hpid, hc.1, hc.2]
        rw [if_pos hb, if_pos hc]
      · have hb : ¬ (decide (p.id = photoId) && decide (p.status = "approved")
            && decide (p.likes > 0)) = true := by
          simp only [Bool.and_eq_true, decide_eq_true_eq]
          intro h
          exact hc ⟨h.1.2, h.2⟩
        rw [if_neg hb, if_neg hc]
    · intro hu
      show (s.user_likes.filter _).length + 1 = _
      have hle := filter_key_length_le_one s.user_likes
        (fun r => (r.photo_id, r.user_identifier)) (photoId, uid) hu
      have hpos : 0 < (s.user_likes.filter (fun r =>
          decide ((r.photo_id, r.user_identifier) = (photoId, uid)))).length := by
        unfold hasUserLikedPhoto at hF
        rw [List.any_eq_true] at hF
        obtain ⟨r, hr, hc⟩ := hF
        simp only [Bool.and_eq_true, decide_eq_true_eq] at hc
        exact List.length_pos_of_mem (List.mem_filter.mpr ⟨hr, by simp [hc.1, hc.2]⟩)
      have hsplit := List.length_eq_length_filter_add (l := s.user_likes) (fun r =>
          decide ((r.photo_id, r.user_identifier) = (photoId, uid)))
      have he : s.user_likes.filter (fun r =>
          !(decide (r.photo_id = photoId) && decide (r.user_identifier = uid)))
          = s.user_likes.filter (fun r =>
            !decide ((r.photo_id, r.user_identifier) = (photoId, uid))) := by
        apply List.filter_congr
        intro r _
        simp [Prod.ext_iff]
      rw [he]
      beta_reduce at hle hsplit hpos ⊢
      omega
    · intro other hne
      show List.find? _ (List.map _ s.photos) = List.find? _ s.photos
      rw [find?_map_keep _ _ _ (by intro q; split <;> rfl)]
      cases hq : List.find? (fun p => decide (p.id = other)) s.photos with
      | none => rfl
      | some q =>
        have hqid : q.id = other := by simpa using List.find?_some hq
        have : ¬ q.id = photoId := by rw [hqid]; exact hne
        simp [this]
    · intro q hq hne
      show q ∈ List.map _ s.photos
      exact List.mem_map.mpr ⟨q, hq, by simp [hne]⟩

/-- Witness of C19 on `sampleStore`: `fp_a` takes back the like on `photo_1`,
which goes from three likes to two. -/
theorem removeUserLike_contract_witness :
    (removeUserLike sampleStore "photo_1" "fp_a").2 = .returned (.success 2 "unliked") :=
  ((removeUserLike_contract sampleStore "photo_1" "fp_a").2 samplePhoto (by decide) (by decide)
    (by decide) (by decide)).1

/-- Claim C20, evaluated: a request whose body carries `captchaToken =
'dev-bypass-token'` passes the CAPTCHA step of the upload handler and of the
login handler in every configuration and whatever the hCaptcha service answers.
In production mode with a real hCaptcha secret and a service that accepts no
token at all, `verifyCaptcha` is false for that token and both handlers let it
pass all the same, while the CAPTCHA step of the like and report handlers
answers 400 `Invalid captcha` to the same request. -/
theorem captcha_bypass_token_skips_verification :
    (∀ (hcaptcha : String → String → Bool) (env : Env),
      uploadCaptchaStep hcaptcha env (some "dev-bypass-token") = .proceed ∧
      loginCaptchaStep hcaptcha env (some "dev-bypass-token") = .proceed) ∧
    productionEnv.NODE_ENV ≠ some "development" ∧
    secretKeyOf productionEnv ≠ testSecretKey ∧
    includes (secretKeyOf productionEnv) testSecretKey = false ∧
    verifyCaptcha (fun _ _ => false) productionEnv (some "dev-bypass-token") = false ∧
    uploadCaptchaStep (fun _ _ => false) productionEnv (some "dev-bypass-token") = .proceed ∧
    loginCaptchaStep (fun _ _ => false) productionEnv (some "dev-bypass-token") = .proceed ∧
    actionCaptchaStep (fun _ _ => false) productionEnv (some "dev-bypass-token")
      = .respond 400 "Invalid captcha" := by
  refine ⟨fun hcaptcha env => ⟨?_, ?_⟩, by decide, by decide, by decide, by decide, by decide,
    by decide, by decide⟩
  · simp [uploadCaptchaStep]
  · simp [loginCaptchaStep]

/-- Apart from the bypass token the step is gated: when `NODE_ENV` is not
`development`, the configured hCaptcha secret does not contain the all-zero
test key and the `captchaToken` of the request is not the literal
`dev-bypass-token`, a request passes the CAPTCHA step of the upload handler,
and of the login handler, exactly when `verifyCaptcha` returned true for its
token. -/
theorem captcha_step_gated (hcaptcha : String → String → Bool) (env : Env)
    (captchaToken : Option String)
    (hdev : env.NODE_ENV ≠ some "development")
    (hkey : includes (secretKeyOf env) testSecretKey = false)
    (hbypass : captchaToken ≠ some "dev-bypass-token") :
    (uploadCaptchaStep hcaptcha env captchaToken = .proceed ↔
      verifyCaptcha hcaptcha env captchaToken = true) ∧
    (loginCaptchaStep hcaptcha env captchaToken = .proceed ↔
      verifyCaptcha hcaptcha env captchaToken = true) := by
  have hmissing : captchaToken = none ∨ captchaToken = some "" →
      verifyCaptcha hcaptcha env captchaToken = false := by
    rintro (h | h) <;> rw [h] <;> simp [verifyCaptcha]
  constructor
  · unfold uploadCaptchaStep
    simp only [hdev, hkey, hbypass, decide_False, Bool.not_false, Bool.and_self, if_true]
    by_cases hm : captchaToken = none ∨ captchaToken = some ""
    · simp [hm, hmissing hm]
    · by_cases hv : verifyCaptcha hcaptcha env captchaToken = true
      · simp [hm, hv]
      · simp [hm, hv]
  · unfold loginCaptchaStep
    by_cases hm : captchaToken = none ∨ captchaToken = some ""
    · simp [hm, hmissing hm]
    · simp only [hm, if_false, hdev, hkey, hbypass, decide_False, Bool.not_false, Bool.and_self,
        if_true]
      by_cases hv : verifyCaptcha hcaptcha env captchaToken = true
      · simp [hv]
      · simp [hv]

/-- In production a token the service refuses does not pass the upload step. -/
theorem captcha_step_gated_witness :
    (uploadCaptchaStep (fun _ _ => false) productionEnv (some "P1_eyJ0eXAiOiJKV1Qi") = .proceed ↔
      verifyCaptcha (fun _ _ => false) productionEnv (some "P1_eyJ0eXAiOiJKV1Qi") = true) :=
  (captcha_step_gated (fun _ _ => false) productionEnv (some "P1_eyJ0eXAiOiJKV1Qi")
    (by decide) (by decide) (by decide)).1

/-! ## The schema constraints are invariants of the workflow -/

theorem hasPhoto_iff_mem (s : Store) (x : String) :
    s.hasPhoto x = true ↔ x ∈ s.photos.map (fun p => p.id) := by
  unfold Store.hasPhoto
  rw [List.any_eq_true, List.mem_map]
  constructor
  · rintro ⟨p, hp, h⟩
    exact ⟨p, hp, by simpa using h⟩
  · rintro ⟨p, hp, h⟩
    exact ⟨p, hp, by simpa using h⟩

theorem map_id_of_keep (l : List Photo) (f : Photo → Photo) (hf : ∀ p, (f p).id = p.id) :
    (l.map f).map (fun p => p.id) = l.map (fun p => p.id) := by
  rw [List.map_map]
  apply List.map_congr_left
  intro p _
  exact hf p

theorem recordUserReport_user_reports (s : Store) (now : Nat) (photoId uid reason : String)
    (ip ua : Option String) :
    (recordUserReport s now photoId uid reason ip ua).1.user_reports = s.user_reports ∨
    (hasUserReportedPhoto s photoId uid = false ∧ s.hasPhoto photoId = true ∧
      (recordUserReport s now photoId uid reason ip ua).1.user_reports = s.user_reports ++ [{
        id := s.seq_user_reports + 1, photo_id := photoId, user_identifier := uid,
        ip_address := ip, user_agent := ua, reason := reason, reported_at := now }]) := by
  unfold recordUserReport insertUserReport
  by_cases h1 : hasUserReportedPhoto s photoId uid = true
  · simp [h1]
  · by_cases h2 : s.hasPhoto photoId = true
    · right
      have h2' : Store.hasPhoto { s with
          user_reports := s.user_reports ++ [{
            id := s.seq_user_reports + 1, photo_id := photoId, user_identifier := uid,
            ip_address := ip, user_agent := ua, reason := reason, reported_at := now }]
          seq_user_reports := s.seq_user_reports + 1 } photoId = true := h2
      simp only [Bool.not_eq_true] at h1
      refine ⟨h1, h2, ?_⟩
      simp only [h1, h2, Bool.false_eq_true, if_false, Bool.not_true, insertReport, h2']
      split
      · split <;> rfl
      · rfl
    · left
      simp [h1, h2, catchReport]

theorem recordUserReport_reports (s : Store) (now : Nat) (photoId uid reason : String)
    (ip ua : Option String) :
    (recordUserReport s now photoId uid reason ip ua).1.reports = s.reports ∨
    (hasUserReportedPhoto s photoId uid = false ∧ s.hasPhoto photoId = true ∧
      (recordUserReport s now photoId uid reason ip ua).1.reports = s.reports ++ [{
        id := s.seq_reports + 1, photo_id := photoId, reason := reason, reported_at := now }]) := by
  unfold recordUserReport insertUserReport
  by_cases h1 : hasUserReportedPhoto s photoId uid = true
  · simp [h1]
  · by_cases h2 : s.hasPhoto photoId = true
    · right
      have h2' : Store.hasPhoto { s with
          user_reports := s.user_reports ++ [{
            id := s.seq_user_reports + 1, photo_id := photoId, user_identifier := uid,
            ip_address := ip, user_agent := ua, reason := reason, reported_at := now }]
          seq_user_reports := s.seq_user_reports + 1 } photoId = true := h2
      simp only [Bool.not_eq_true] at h1
      refine ⟨h1, h2, ?_⟩
      simp only [h1, h2, Bool.false_eq_true, if_false, Bool.not_true, insertReport, h2']
      split
      · split <;> rfl
      · rfl
    · left
      simp [h1, h2, catchReport]

theorem toggleUserLike_others (s : Store) (now : Nat) (photoId uid : String)
    (ip ua : Option String) :
    (toggleUserLike s now photoId uid ip ua).1.user_reports = s.user_reports ∧
    (toggleUserLike s now photoId uid ip ua).1.reports = s.reports := by
  unfold toggleUserLike
  split
  · exact removeUserLike_others s photoId uid
  · exact recordUserLike_others s now photoId uid ip ua

theorem toggleUserLike_photo_ids (s : Store) (now : Nat) (photoId uid : String)
    (ip ua : Option String) :
    (toggleUserLike s now photoId uid ip ua).1.photos.map (fun p => p.id)
      = s.photos.map (fun p => p.id) := by
  rcases toggleUserLike_photos s now photoId uid ip ua with e | e | e <;> rw [e]
  · exact map_id_of_keep _ _ (by intro p; split <;> rfl)
  · exact map_id_of_keep _ _ (by intro p; split <;> rfl)

theorem recordUserReport_photo_ids (s : Store) (now : Nat) (photoId uid reason : String)
    (ip ua : Option String) :
    (recordUserReport s now photoId uid reason ip ua).1.photos.map (fun p => p.id)
      = s.photos.map (fun p => p.id) := by
  rcases recordUserReport_photos s now photoId uid reason ip ua with e | e <;> rw [e]
  exact map_id_of_keep _ _ (by intro p; split <;> rfl)

theorem approvePhoto_photo_ids (s : Store) (now : Nat) (id : String) :
    (approvePhoto s now id).1.photos.map (fun p => p.id) = s.photos.map (fun p => p.id) :=
  map_id_of_keep _ _ (by intro p; split <;> rfl)

/-- The primary key of `photos` is kept by every operation. -/
theorem step_photoKeyUnique (s : Store) (now : Nat) (op : Op) (h : s.photoKeyUnique) :
    (step s now op).photoKeyUnique := by
  unfold Store.photoKeyUnique at h ⊢
  cases op with
  | upload id filename originalName size =>
    unfold step addPhoto
    by_cases hh : s.hasPhoto id = true
    · simpa [hh] using h
    · simp only [hh, Bool.false_eq_true, if_false, List.map_append, List.map_singleton]
      apply List.Nodup.append h (List.nodup_singleton _)
      rw [List.disjoint_singleton]
      exact fun hm => hh ((hasPhoto_iff_mem s id).mpr hm)
  | approve id =>
    show ((approvePhoto s now id).1.photos.map _).Nodup
    rw [approvePhoto_photo_ids]; exact h
  | reject id => exact h.sublist ((List.filter_sublist _).map _)
  | delete id => exact h.sublist ((List.filter_sublist _).map _)
  | toggleLike photoId uid ip ua =>
    show ((toggleUserLike s now photoId uid ip ua).1.photos.map _).Nodup
    rw [toggleUserLike_photo_ids]; exact h
  | report photoId uid reason ip ua =>
    show ((recordUserReport s now photoId uid reason ip ua).1.photos.map _).Nodup
    rw [recordUserReport_photo_ids]; exact h

theorem photoKeyUnique_of_reachable (s : Store) (hs : Reachable s) : s.photoKeyUnique :=
  reachable_invariant (fun s => s.photoKeyUnique)
    (by simp [Store.photoKeyUnique, Store.empty]) step_photoKeyUnique s hs

theorem hasPhoto_of_ids_eq (s t : Store)
    (h : t.photos.map (fun p => p.id) = s.photos.map (fun p => p.id)) (x : String)
    (hx : s.hasPhoto x = true) : t.hasPhoto x = true := by
  rw [hasPhoto_iff_mem] at hx ⊢
  rw [h]; exact hx

theorem deletePhotos_foreignKeys (s : Store) (cond : Photo → Bool) (h : s.foreignKeysHold) :
    (deletePhotos s cond).1.foreignKeysHold := by
  have key : ∀ x : String, s.hasPhoto x = true →
      (!(s.photos.filter cond).any (fun p => decide (p.id = x))) = true →
      (deletePhotos s cond).1.hasPhoto x = true := by
    intro x hx hgone
    unfold Store.hasPhoto at hx ⊢
    rw [List.any_eq_true] at hx ⊢
    obtain ⟨p, hp, hpx⟩ := hx
    refine ⟨p, ?_, hpx⟩
    show p ∈ s.photos.filter (fun p => !cond p)
    rw [List.mem_filter]
    refine ⟨hp, ?_⟩
    by_contra hc
    simp only [Bool.not_eq_true', Bool.not_eq_false] at hc
    have : (s.photos.filter cond).any (fun p => decide (p.id = x)) = true :=
      List.any_eq_true.mpr ⟨p, List.mem_filter.mpr ⟨hp, hc⟩, hpx⟩
    rw [this] at hgone
    cases hgone
  refine ⟨?_, ?_, ?_⟩
  · intro r hr
    have hr' := List.mem_filter.mp hr
    exact key r.photo_id (h.1 r hr'.1) hr'.2
  · intro r hr
    have hr' := List.mem_filter.mp hr
    exact key r.photo_id (h.2.1 r hr'.1) hr'.2
  · intro r hr
    have hr' := List.mem_filter.mp hr
    exact key r.photo_id (h.2.2 r hr'.1) hr'.2

/-- The foreign keys of the three child tables are kept by every operation. -/
theorem step_foreignKeysHold (s : Store) (now : Nat) (op : Op) (h : s.foreignKeysHold) :
    (step s now op).foreignKeysHold := by
  cases op with
  | upload id filename originalName size =>
    unfold step addPhoto
    by_cases hh : s.hasPhoto id = true
    · simpa [hh] using h
    · simp only [hh, Bool.false_eq_true, if_false]
      have mono : ∀ x : String, s.hasPhoto x = true →
          Store.hasPhoto { s with photos := s.photos ++ [{
            id := id, filename := filename, original_name := originalName, size := size,
            likes := (some (0 : Int)).getD 0, report_count := (some (0 : Int)).getD 0,
            status := "pending", created_at := now, uploaded_at := now,
            approved_at := none }] } x = true := by
        intro x hx
        unfold Store.hasPhoto at hx ⊢
        rw [List.any_append, hx]
        rfl
      exact ⟨fun r hr => mono _ (h.1 r hr), fun r hr => mono _ (h.2.1 r hr),
        fun r hr => mono _ (h.2.2 r hr)⟩
  | approve id =>
    have hid := hasPhoto_of_ids_eq s (approvePhoto s now id).1 (approvePhoto_photo_ids s now id)
    exact ⟨fun r hr => hid _ (h.1 r hr), fun r hr => hid _ (h.2.1 r hr),
      fun r hr => hid _ (h.2.2 r hr)⟩
  | reject id => exact deletePhotos_foreignKeys s _ h
  | delete id => exact deletePhotos_foreignKeys s _ h
  | toggleLike photoId uid ip ua =>
    have hid := hasPhoto_of_ids_eq s (toggleUserLike s now photoId uid ip ua).1
      (toggleUserLike_photo_ids s now photoId uid ip ua)
    have ho := toggleUserLike_others s now photoId uid ip ua
    refine ⟨?_, ?_, ?_⟩
    · intro r hr
      have hr' : r ∈ (toggleUserLike s now photoId uid ip ua).1.reports := hr
      rw [ho.2] at hr'
      exact hid _ (h.1 r hr')
    · intro r hr
      have hr' : r ∈ (toggleUserLike s now photoId uid ip ua).1.user_likes := hr
      rcases toggleUserLike_user_likes s now photoId uid ip ua with e | ⟨_, h2, e⟩ | e
      · rw [e] at hr'
        exact hid _ (h.2.1 r hr')
      · rw [e] at hr'
        rcases List.mem_append.mp hr' with hm | hm
        · exact hid _ (h.2.1 r hm)
        · rw [List.mem_singleton] at hm
          rw [hm]
          exact hid _ h2
      · rw [e] at hr'
        exact hid _ (h.2.1 r (List.mem_filter.mp hr').1)
    · intro r hr
      have hr' : r ∈ (toggleUserLike s now photoId uid ip ua).1.user_reports := hr
      rw [ho.1] at hr'
      exact hid _ (h.2.2 r hr')
  | report photoId uid reason ip ua =>
    have hid := hasPhoto_of_ids_eq s (recordUserReport s now photoId uid reason ip ua).1
      (recordUserReport_photo_ids s now photoId uid reason ip ua)
    refine ⟨?_, ?_, ?_⟩
    · intro r hr
      have hr' : r ∈ (recordUserReport s now photoId uid reason ip ua).1.reports := hr
      rcases recordUserReport_reports s now photoId uid reason ip ua with e | ⟨_, h2, e⟩
      · rw [e] at hr'
        exact hid _ (h.1 r hr')
      · rw [e] at hr'
        rcases List.mem_append.mp hr' with hm | hm
        · exact hid _ (h.1 r hm)
        · rw [List.mem_singleton] at hm
          rw [hm]
          exact hid _ h2
    · intro r hr
      have hr' : r ∈ (recordUserReport s now photoId uid reason ip ua).1.user_likes := hr
      rw [recordUserReport_user_likes] at hr'
      exact hid _ (h.2.1 r hr')
    · intro r hr
      have hr' : r ∈ (recordUserReport s now photoId uid reason ip ua).1.user_reports := hr
      rcases recordUserReport_user_reports s now photoId uid reason ip ua with e | ⟨_, h2, e⟩
      · rw [e] at hr'
        exact hid _ (h.2.2 r hr')
      · rw [e] at hr'
        rcases List.mem_append.mp hr' with hm | hm
        · exact hid _ (h.2.2 r hm)
        · rw [List.mem_singleton] at hm
          rw [hm]
          exact hid _ h2

theorem foreignKeysHold_of_reachable (s : Store) (hs : Reachable s) : s.foreignKeysHold :=
  reachable_invariant (fun s => s.foreignKeysHold)
    (by simp [Store.foreignKeysHold, Store.empty]) step_foreignKeysHold s hs

theorem orderedBefore_total (sortBy : String) : IsTotal Photo (orderedBefore sortBy) where
  total := by
    intro a b
    unfold orderedBefore
    by_cases h : sortBy = "liked"
    · simp only [h, if_true]
      omega
    · simp only [h, if_false]
      omega

theorem orderedBefore_trans (sortBy : String) : IsTrans Photo (orderedBefore sortBy) where
  trans := by
    intro a b c
    unfold orderedBefore
    by_cases h : sortBy = "liked"
    · simp only [h, if_true]
      omega
    · simp only [h, if_false]
      omega

/-- Claim C23: `getPhotos` returns only approved photos of the database; the
result is ordered by the relation of `sortBy`, which for `liked` is likes
descending and, among equal likes, creation time descending, and for `recent`
and every other value is creation time descending; and the `ORDER BY` text is
one of the two fixed texts whatever string `sortBy` is. -/
theorem getPhotos_order (s : Store) (page limit : Nat) (sortBy : String) :
    (∀ p ∈ (getPhotos s page limit sortBy).photos, p.status = "approved" ∧ p ∈ s.photos) ∧
    (getPhotos s page limit sortBy).photos.Pairwise (orderedBefore sortBy) ∧
    (sortBy = "liked" →
      (getPhotos s page limit sortBy).photos.Pairwise
        (fun a b => b.likes < a.likes ∨ (a.likes = b.likes ∧ b.created_at ≤ a.created_at))) ∧
    (sortBy ≠ "liked" →
      (getPhotos s page limit sortBy).photos.Pairwise (fun a b => b.created_at ≤ a.created_at)) ∧
    (orderBy sortBy = "likes DESC, created_at DESC" ∨ orderBy sortBy = "created_at DESC") ∧
    (orderBy sortBy = "likes DESC, created_at DESC" ↔ sortBy = "liked") := by
  have hsorted : (getPhotos s page limit sortBy).photos.Pairwise (orderedBefore sortBy) := by
    unfold getPhotos
    haveI := orderedBefore_total sortBy
    haveI := orderedBefore_trans sortBy
    have h := List.sorted_insertionSort (orderedBefore sortBy)
      (s.photos.filter (fun p => decide (p.status = "approved")))
    exact (List.Pairwise.sublist (List.drop_sublist _ _) h).sublist (List.take_sublist _ _)
  refine ⟨?_, hsorted, ?_, ?_, ?_, ?_⟩
  · intro p hp
    unfold getPhotos at hp
    have h1 := List.mem_of_mem_drop (List.mem_of_mem_take hp)
    rw [List.mem_insertionSort] at h1
    have h2 := List.mem_filter.mp h1
    exact ⟨by simpa using h2.2, h2.1⟩
  · intro h
    refine hsorted.imp ?_
    intro a b hab
    unfold orderedBefore at hab
    simpa [h] using hab
  · intro h
    refine hsorted.imp ?_
    intro a b hab
    unfold orderedBefore at hab
    simpa [h] using hab
  · unfold orderBy
    by_cases h : sortBy = "liked"
    · simp [h]
    · right; simp [h]
  · unfold orderBy
    by_cases h : sortBy = "liked"
    · simp [h]
    · simp only [h, if_false, iff_false]
      split <;> decide

/-- Witness of C23 on `sampleStore`: the listing by likes holds the one approved
photo. -/
theorem getPhotos_order_witness :
    (getPhotos sampleStore 0 12 "liked").photos.Pairwise
      (fun a b => b.likes < a.likes ∨ (a.likes = b.likes ∧ b.created_at ≤ a.created_at)) :=
  (getPhotos_order sampleStore 0 12 "liked").2.2.1 rfl

/-- Claim C24: on the empty database `getStats` returns the number 0 for
`totalPhotos`, `pendingPhotos`, `totalLikes`, `totalReports` and
`recentUploads`; `totalLikes` is also 0 when no photo is approved, and when the
approved photos all have zero likes; and `getStats` leaves every database as it
was. -/
theorem getStats_zero (withinWeek : Nat → Bool) :
    (getStats Store.empty withinWeek).2
      = { totalPhotos := 0, pendingPhotos := 0, totalLikes := 0, totalReports := 0,
          recentUploads := 0 } ∧
    (∀ s : Store, (∀ p ∈ s.photos, p.status ≠ "approved") →
      (getStats s withinWeek).2.totalLikes = 0) ∧
    (∀ s : Store, (∀ p ∈ s.photos, p.status = "approved" → p.likes = 0) →
      (getStats s withinWeek).2.totalLikes = 0) ∧
    (∀ s : Store, (getStats s withinWeek).1 = s) := by
  refine ⟨rfl, ?_, ?_, fun _ => rfl⟩
  · intro s h
    have : s.photos.filter (fun p => decide (p.status = "approved")) = [] := by
      rw [List.filter_eq_nil_iff]
      intro p hp
      simpa using h p hp
    simp [getStats, this, sumLikes]
  · intro s h
    unfold getStats
    simp only
    cases hl : s.photos.filter (fun p => decide (p.status = "approved")) with
    | nil => simp [sumLikes]
    | cons a l =>
      have hz : (List.map (fun p => p.likes) (a :: l)).sum = 0 := by
        apply List.sum_eq_zero
        intro x hx
        obtain ⟨p, hp, rfl⟩ := List.mem_map.mp hx
        rw [← hl] at hp
        have hp' := List.mem_filter.mp hp
        exact h p hp'.1 (by simpa using hp'.2)
      simp only [sumLikes, hz, if_true]

/-- Witness of C24 on the database with the single pending photo `A`:
`totalLikes` is 0. -/
theorem getStats_zero_witness :
    (getStats pendingStore (fun _ => true)).2.totalLikes = 0 :=
  (getStats_zero (fun _ => true)).2.1 pendingStore (by decide)

/-- Claim C27, evaluated: `workflowStore` is reached by two uploads, one
approval, two like toggles and one report; its pending photo `B` has
`likes = 0` and one `user_likes` row, left by the refused like of `fp_a`, and
after the approval of `B` the approved photo still has `likes = 0` and one
row. -/
theorem likes_differ_from_ledger :
    Reachable workflowStore ∧
    workflowPending ∈ workflowStore.photos ∧
    workflowPending.likes = 0 ∧
    workflowStore.likeRows "B" = 1 ∧
    ¬ workflowStore.likesMatchLedger ∧
    Reachable (runOps workflowStore [(7, .approve "B")]) ∧
    (getPhotoById (runOps workflowStore [(7, .approve "B")]) "B").map
      (fun p => (p.status, p.likes)) = some ("approved", 0) ∧
    (runOps workflowStore [(7, .approve "B")]).likeRows "B" = 1 :=
  ⟨⟨_, rfl⟩, by decide, by decide, by decide, by decide,
   ⟨[(1, .upload "A" "processed_a_1.webp" "a.png" 1024),
     (2, .upload "B" "processed_b_2.webp" "b.png" 2048),
     (3, .approve "A"),
     (4, .toggleLike "A" "fp_a" none none),
     (5, .toggleLike "B" "fp_a" none none),
     (6, .report "B" "fp_b" "spam" none none),
     (7, .approve "B")], rfl⟩,
   by decide, by decide⟩

/-- The three tables `recordUserReport` writes change together or not at all. -/
theorem recordUserReport_tables (s : Store) (now : Nat) (photoId uid reason : String)
    (ip ua : Option String) :
    ((recordUserReport s now photoId uid reason ip ua).1.photos = s.photos ∧
      (recordUserReport s now photoId uid reason ip ua).1.user_reports = s.user_reports ∧
      (recordUserReport s now photoId uid reason ip ua).1.reports = s.reports) ∨
    ((recordUserReport s now photoId uid reason ip ua).1.photos = s.photos.map (fun p =>
        if decide (p.id = photoId) then { p with report_count := p.report_count + 1 } else p) ∧
      (recordUserReport s now photoId uid reason ip ua).1.user_reports = s.user_reports ++ [{
        id := s.seq_user_reports + 1, photo_id := photoId, user_identifier := uid,
        ip_address := ip, user_agent := ua, reason := reason, reported_at := now }] ∧
      (recordUserReport s now photoId uid reason ip ua).1.reports = s.reports ++ [{
        id := s.seq_reports + 1, photo_id := photoId, reason := reason, reported_at := now }]) := by
  unfold recordUserReport insertUserReport
  by_cases h1 : hasUserReportedPhoto s photoId uid = true
  · left; simp [h1]
  · by_cases h2 : s.hasPhoto photoId = true
    · right
      have h2' : Store.hasPhoto { s with
          user_reports := s.user_reports ++ [{
            id := s.seq_user_reports + 1, photo_id := photoId, user_identifier := uid,
            ip_address := ip, user_agent := ua, reason := reason, reported_at := now }]
          seq_user_reports := s.seq_user_reports + 1 } photoId = true := h2
      simp only [h1, h2, Bool.false_eq_true, if_false, Bool.not_true, insertReport, h2']
      split
      · split <;> exact ⟨rfl, rfl, rfl⟩
      · exact ⟨rfl, rfl, rfl⟩
    · left
      simp [h1, h2, catchReport]

theorem filter_filter_of_imp {α : Type} (l : List α) (p k : α → Bool)
    (h : ∀ r ∈ l, p r = true → k r = true) :
    (l.filter k).filter p = l.filter p := by
  induction l with
  | nil => rfl
  | cons a l ih =>
    have ih' := ih (fun r hr => h r (List.mem_cons_of_mem _ hr))
    by_cases hp : p a = true
    · have hk := h a (List.mem_cons_self _ _) hp
      simp [List.filter_cons, hp, hk, ih']
    · by_cases hk : k a = true
      · simp [List.filter_cons, hp, hk, ih']
      · simp [List.filter_cons, hp, hk, ih']

theorem reportsMatch_of_map (s t : Store) (f : Photo → Photo)
    (hf : ∀ p, (f p).id = p.id ∧ (f p).report_count = p.report_count)
    (hp : t.photos = s.photos.map f) (hu : t.user_reports = s.user_reports)
    (hr : t.reports = s.reports) (h : s.reportsMatchLedger) : t.reportsMatchLedger := by
  intro q hq
  rw [hp] at hq
  obtain ⟨p, hpm, rfl⟩ := List.mem_map.mp hq
  unfold Store.userReportRows Store.reportRows
  rw [hu, hr, (hf p).1, (hf p).2]
  exact h p hpm

theorem deletePhotos_reportsMatch (s : Store) (cond : Photo → Bool) (hk : s.photoKeyUnique)
    (h : s.reportsMatchLedger) : (deletePhotos s cond).1.reportsMatchLedger := by
  intro q hq
  have hq' : q ∈ s.photos.filter (fun p => !cond p) := hq
  obtain ⟨hqs, hqc⟩ := List.mem_filter.mp hq'
  have hnot : (s.photos.filter cond).any (fun p => decide (p.id = q.id)) = false := by
    rw [List.any_eq_false]
    intro d hd hdq
    obtain ⟨hds, hdc⟩ := List.mem_filter.mp hd
    have : d = q := eq_of_photoKeyUnique s hk q d hqs hds (by simpa using hdq)
    rw [this] at hdc
    rw [hdc] at hqc
    cases hqc
  have e1 : (deletePhotos s cond).1.userReportRows q.id = s.userReportRows q.id := by
    unfold Store.userReportRows
    show ((s.user_reports.filter _).filter _).length = _
    rw [filter_filter_of_imp]
    intro r _ hr
    simp only [decide_eq_true_eq] at hr
    rw [hr]
    beta_reduce
    rw [hnot]; rfl
  have e2 : (deletePhotos s cond).1.reportRows q.id = s.reportRows q.id := by
    unfold Store.reportRows
    show ((s.reports.filter _).filter _).length = _
    rw [filter_filter_of_imp]
    intro r _ hr
    simp only [decide_eq_true_eq] at hr
    rw [hr]
    beta_reduce
    rw [hnot]; rfl
  rw [e1, e2]
  exact h q hqs

theorem no_rows_of_missing (s : Store) (hfk : s.foreignKeysHold) (x : String)
    (hx : s.hasPhoto x = false) : s.userReportRows x = 0 ∧ s.reportRows x = 0 := by
  unfold Store.userReportRows Store.reportRows
  constructor
  · rw [List.length_eq_zero, List.filter_eq_nil_iff]
    intro r hr hc
    simp only [decide_eq_true_eq] at hc
    have := hfk.2.2 r hr
    rw [hc, hx] at this
    cases this
  · rw [List.length_eq_zero, List.filter_eq_nil_iff]
    intro r hr hc
    simp only [decide_eq_true_eq] at hc
    have := hfk.1 r hr
    rw [hc, hx] at this
    cases this

/-- The report counters stay equal to the row counts under every operation, on
databases that satisfy the primary key and the foreign keys. -/
theorem step_reportsMatchLedger (s : Store) (now : Nat) (op : Op) (hk : s.photoKeyUnique)
    (hfk : s.foreignKeysHold) (h : s.reportsMatchLedger) :
    (step s now op).reportsMatchLedger := by
  cases op with
  | upload id filename originalName size =>
    unfold step addPhoto
    by_cases hh : s.hasPhoto id = true
    · simpa [hh] using h
    · simp only [hh, Bool.false_eq_true, if_false]
      intro q hq
      rcases List.mem_append.mp hq with hq | hq
      · exact h q hq
      · rw [List.mem_singleton] at hq
        have hz := no_rows_of_missing s hfk id (by simpa using hh)
        rw [hq]
        exact ⟨by show (0 : Int) = ((s.userReportRows id : Nat) : Int); rw [hz.1]; rfl,
          by show (0 : Int) = ((s.reportRows id : Nat) : Int); rw [hz.2]; rfl⟩
  | approve id =>
    exact reportsMatch_of_map s _ _ (by intro p; split <;> exact ⟨rfl, rfl⟩) rfl rfl rfl h
  | reject id => exact deletePhotos_reportsMatch s _ hk h
  | delete id => exact deletePhotos_reportsMatch s _ hk h
  | toggleLike photoId uid ip ua =>
    have ho := toggleUserLike_others s now photoId uid ip ua
    rcases toggleUserLike_photos s now photoId uid ip ua with e | e | e
    · exact reportsMatch_of_map s (toggleUserLike s now photoId uid ip ua).1 id
        (fun _ => ⟨rfl, rfl⟩) (by rw [e, List.map_id]) ho.1 ho.2 h
    · exact reportsMatch_of_map s (toggleUserLike s now photoId uid ip ua).1 _
        (by intro p; split <;> exact ⟨rfl, rfl⟩) e ho.1 ho.2 h
    · exact reportsMatch_of_map s (toggleUserLike s now photoId uid ip ua).1 _
        (by intro p; split <;> exact ⟨rfl, rfl⟩) e ho.1 ho.2 h
  | report photoId uid reason ip ua =>
    rcases recordUserReport_tables s now photoId uid reason ip ua with ⟨e1, e2, e3⟩ | ⟨e1, e2, e3⟩
    · exact reportsMatch_of_map s (recordUserReport s now photoId uid reason ip ua).1 id
        (fun _ => ⟨rfl, rfl⟩) (by rw [e1, List.map_id]) e2 e3 h
    · intro q hq
      have hq' : q ∈ (recordUserReport s now photoId uid reason ip ua).1.photos := hq
      rw [e1] at hq'
      obtain ⟨p, hpm, rfl⟩ := List.mem_map.mp hq'
      have hp := h p hpm
      unfold Store.userReportRows Store.reportRows at hp ⊢
      have e2' : (step s now (.report photoId uid reason ip ua)).user_reports = _ := e2
      have e3' : (step s now (.report photoId uid reason ip ua)).reports = _ := e3
      rw [e2', e3']
      by_cases hc : p.id = photoId
      · have hfp : (if decide (p.id = photoId) = true then
            { p with report_count := p.report_count + 1 } else p)
            = { p with report_count := p.report_count + 1 } := by simp [hc]
        rw [hfp]
        show p.report_count + 1 = _ ∧ p.report_count + 1 = _
        have h1 : (List.filter (fun r : UserReport => decide (r.photo_id = p.id))
            [{ id := s.seq_user_reports + 1, photo_id := photoId, user_identifier := uid,
               ip_address := ip, user_agent := ua, reason := reason, reported_at := now }]).length
            = 1 := by simp [hc]
        have h2 : (List.filter (fun r : Report => decide (r.photo_id = p.id))
            [{ id := s.seq_reports + 1, photo_id := photoId, reason := reason,
               reported_at := now }]).length = 1 := by simp [hc]
        rw [List.filter_append, List.filter_append, List.length_append, List.length_append,
          h1, h2, hp.1]
        constructor
        · push_cast; rfl
        · rw [← hp.1, hp.2]; push_cast; rfl
      · have hfp : (if decide (p.id = photoId) = true then
            { p with report_count := p.report_count + 1 } else p) = p := by simp [hc]
        rw [hfp]
        have hne : ¬ photoId = p.id := fun e => hc e.symm
        have h1 : (List.filter (fun r : UserReport => decide (r.photo_id = p.id))
            [{ id := s.seq_user_reports + 1, photo_id := photoId, user_identifier := uid,
               ip_address := ip, user_agent := ua, reason := reason, reported_at := now }]).length
            = 0 := by simp [hne]
        have h2 : (List.filter (fun r : Report => decide (r.photo_id = p.id))
            [{ id := s.seq_reports + 1, photo_id := photoId, reason := reason,
               reported_at := now }]).length = 0 := by simp [hne]
        rw [List.filter_append, List.filter_append, List.length_append, List.length_append,
          h1, h2]
        exact hp


theorem mem_map_origin (l : List Photo) (f : Photo → Photo)
    (hf : ∀ p, (f p).id = p.id ∧ p.report_count ≤ (f p).report_count) :
    ∀ q ∈ l.map f, ∃ p ∈ l, q.id = p.id ∧ p.report_count ≤ q.report_count := by
  intro q hq
  obtain ⟨p, hp, rfl⟩ := List.mem_map.mp hq
  exact ⟨p, hp, (hf p).1, (hf p).2⟩

/-- Every photo row after an operation comes from a row with the same id and a
report count that is not larger, or it is a fresh upload under an unused id. -/
theorem step_photos_origin (s : Store) (now : Nat) (op : Op) :
    ∀ q ∈ (step s now op).photos,
      (∃ p ∈ s.photos, q.id = p.id ∧ p.report_count ≤ q.report_count) ∨
      s.hasPhoto q.id = false := by
  have hself : ∀ q ∈ s.photos, ∃ p ∈ s.photos, q.id = p.id ∧ p.report_count ≤ q.report_count :=
    fun q hq => ⟨q, hq, rfl, le_refl _⟩
  cases op with
  | upload id filename originalName size =>
    unfold step addPhoto
    by_cases hh : s.hasPhoto id = true
    · simp only [hh, if_true]
      exact fun q hq => Or.inl (hself q hq)
    · simp only [hh, Bool.false_eq_true, if_false]
      intro q hq
      rcases List.mem_append.mp hq with hq | hq
      · exact Or.inl (hself q hq)
      · rw [List.mem_singleton] at hq
        right
        rw [hq]
        simpa using hh
  | approve id =>
    intro q hq
    exact Or.inl (mem_map_origin s.photos _
      (by intro p; split <;> exact ⟨rfl, le_refl _⟩) q hq)
  | reject id =>
    intro q hq
    exact Or.inl (hself q (List.mem_filter.mp hq).1)
  | delete id =>
    intro q hq
    exact Or.inl (hself q (List.mem_filter.mp hq).1)
  | toggleLike photoId uid ip ua =>
    intro q hq
    have hq' : q ∈ (toggleUserLike s now photoId uid ip ua).1.photos := hq
    rcases toggleUserLike_photos s now photoId uid ip ua with e | e | e <;> rw [e] at hq'
    · exact Or.inl (hself q hq')
    · exact Or.inl (mem_map_origin s.photos _
        (by intro p; split <;> exact ⟨rfl, le_refl _⟩) q hq')
    · exact Or.inl (mem_map_origin s.photos _
        (by intro p; split <;> exact ⟨rfl, le_refl _⟩) q hq')
  | report photoId uid reason ip ua =>
    intro q hq
    have hq' : q ∈ (recordUserReport s now photoId uid reason ip ua).1.photos := hq
    rcases recordUserReport_photos s now photoId uid reason ip ua with e | e <;> rw [e] at hq'
    · exact Or.inl (hself q hq')
    · refine Or.inl (mem_map_origin s.photos _ ?_ q hq')
      intro p
      split
      · exact ⟨rfl, by show p.report_count ≤ p.report_count + 1; omega⟩
      · exact ⟨rfl, le_refl _⟩

/-- Claim C28: in every database the workflow can reach, the `report_count` of
every photo equals the number of `user_reports` rows of the photo and the
number of `reports` rows of the photo; and after any further operation a photo
that is still there has a `report_count` at least as large as before. -/
theorem report_count_matches_ledger (s : Store) (hs : Reachable s) :
    s.reportsMatchLedger ∧
    (∀ p ∈ s.photos,
      p.report_count = (s.userReportRows p.id : Int) ∧
      p.report_count = (s.reportRows p.id : Int)) ∧
    (∀ (now : Nat) (op : Op) (id : String) (p q : Photo),
      getPhotoById s id = some p → getPhotoById (step s now op) id = some q →
      p.report_count ≤ q.report_count) := by
  have hinv : s.photoKeyUnique ∧ s.foreignKeysHold ∧ s.reportsMatchLedger := by
    refine reachable_invariant
      (fun s => s.photoKeyUnique ∧ s.foreignKeysHold ∧ s.reportsMatchLedger) ?_ ?_ s hs
    · refine ⟨by simp [Store.photoKeyUnique, Store.empty],
        by simp [Store.foreignKeysHold, Store.empty], ?_⟩
      intro p hp
      cases hp
    · rintro s now op ⟨h1, h2, h3⟩
      exact ⟨step_photoKeyUnique s now op h1, step_foreignKeysHold s now op h2,
        step_reportsMatchLedger s now op h1 h2 h3⟩
  refine ⟨hinv.2.2, hinv.2.2, ?_⟩
  intro now op id p q hp hq
  have hpid := getPhotoById_id s id p hp
  have hqid := getPhotoById_id (step s now op) id q hq
  have hpm : p ∈ s.photos := List.mem_of_find?_eq_some hp
  have hqm : q ∈ (step s now op).photos := List.mem_of_find?_eq_some hq
  rcases step_photos_origin s now op q hqm with ⟨p', hp', hid, hle⟩ | hno
  · have : p' = p := eq_of_photoKeyUnique s hinv.1 p p' hpm hp' (by rw [← hid, hqid, hpid])
    rw [this] at hle
    exact hle
  · rw [hqid] at hno
    rw [hasPhoto_of_getPhotoById s id p hp] at hno
    cases hno

/-- Witness of C28 on `workflowStore`: the pending photo `B`, reported once, has
`report_count = 1`, one `user_reports` row and one `reports` row. -/
theorem report_count_matches_ledger_witness :
    workflowPending.report_count = (workflowStore.userReportRows workflowPending.id : Int) ∧
    workflowPending.report_count = (workflowStore.reportRows workflowPending.id : Int) :=
  (report_count_matches_ledger workflowStore ⟨_, rfl⟩).2.1 workflowPending (by decide)

theorem recordUserLike_eq_insert (s : Store) (now : Nat) (photoId uid : String)
    (ip ua : Option String) :
    recordUserLike s now photoId uid ip ua =
      if hasUserLikedPhoto s photoId uid then (s, .returned .alreadyLiked)
      else recordUserLikeInsert s now photoId uid ip ua := rfl

theorem removeUserLike_eq_delete (s : Store) (photoId uid : String) :
    removeUserLike s photoId uid =
      if !hasUserLikedPhoto s photoId uid then (s, .returned .notLiked)
      else removeUserLikeDelete s photoId uid := rfl

/-- A request that runs its three steps alone does what `toggleUserLike` does. -/
theorem likeRequest_alone (s : Store) (now : Nat) (photoId uid : String)
    (ip ua : Option String) :
    let a := likeRequestStep s now photoId uid ip ua .toggleCheck
    let b := likeRequestStep a.1 now photoId uid ip ua a.2
    let c := likeRequestStep b.1 now photoId uid ip ua b.2
    c = ((toggleUserLike s now photoId uid ip ua).1,
         .finished (toggleUserLike s now photoId uid ip ua).2) := by
  unfold toggleUserLike
  rw [recordUserLike_eq_insert, removeUserLike_eq_delete]
  by_cases h : hasUserLikedPhoto s photoId uid = true
  · simp [likeRequestStep, h]
  · simp [likeRequestStep, h]


theorem recordUserLikeInsert_taken (s : Store) (now : Nat) (photoId uid : String)
    (ip ua : Option String) (h : hasUserLikedPhoto s photoId uid = true) :
    insertUserLike s now photoId uid ip ua = .error (.sqlite "SQLITE_CONSTRAINT_UNIQUE") ∧
    recordUserLikeInsert s now photoId uid ip ua = (s, .returned .alreadyLiked) := by
  unfold recordUserLikeInsert insertUserLike
  simp [h]

/-- Claim C25: two like requests of one visitor for an approved photo with `n`
likes and no row for the visitor, under every schedule in which neither
request finishes before the other starts, so that both see 'not liked' in
`toggleUserLike`: one request returns `{ success: true, likes: n + 1, action:
'liked' }`, the other `{ alreadyLiked: true }`, exactly one `user_likes` row
for the pair results and the photo has `n + 1` likes.  When the loser reaches
its insert, the insert fails on the unique key and the error is turned into
`{ alreadyLiked: true }` with the database unchanged. -/
theorem like_race_backstop (s : Store) (now1 now2 : Nat) (photoId uid : String)
    (ip ua : Option String) (p : Photo)
    (hp : getPhotoById s photoId = some p) (happ : p.status = "approved")
    (hF : hasUserLikedPhoto s photoId uid = false) :
    (∀ schedule : List Bool, Overlapping schedule →
      ((runRace now1 now2 photoId uid ip ua s schedule).first
            = .finished (.returned (.success (p.likes + 1) "liked")) ∧
          (runRace now1 now2 photoId uid ip ua s schedule).second
            = .finished (.returned .alreadyLiked) ∨
        (runRace now1 now2 photoId uid ip ua s schedule).first
            = .finished (.returned .alreadyLiked) ∧
          (runRace now1 now2 photoId uid ip ua s schedule).second
            = .finished (.returned (.success (p.likes + 1) "liked"))) ∧
      ((runRace now1 now2 photoId uid ip ua s schedule).db.user_likes.filter (fun r =>
        decide (r.photo_id = photoId) && decide (r.user_identifier = uid))).length = 1 ∧
      getPhotoById (runRace now1 now2 photoId uid ip ua s schedule).db photoId
        = some { p with likes := p.likes + 1 }) ∧
    (∀ now now' : Nat,
      insertUserLike (recordUserLikeInsert s now photoId uid ip ua).1 now' photoId uid ip ua
        = .error (.sqlite "SQLITE_CONSTRAINT_UNIQUE") ∧
      recordUserLikeInsert (recordUserLikeInsert s now photoId uid ip ua).1 now' photoId uid ip ua
        = ((recordUserLikeInsert s now photoId uid ip ua).1, .returned .alreadyLiked)) := by
  have hid := getPhotoById_id s photoId p hp
  -- the winner
  have hW : ∀ now, recordUserLikeInsert s now photoId uid ip ua =
      ({ s with
          photos := s.photos.map (fun q =>
            if (decide (q.id = photoId) && decide (q.status = "approved")) then
              { q with likes := q.likes + 1 } else q)
          user_likes := s.user_likes ++ [{
            id := s.seq_user_likes + 1, photo_id := photoId, user_identifier := uid,
            ip_address := ip, user_agent := ua, liked_at := now }]
          seq_user_likes := s.seq_user_likes + 1 },
       .returned (.success (p.likes + 1) "liked")) := by
    intro now
    have h := recordUserLike_approved s now photoId uid ip ua p hp happ hF
    rw [recordUserLike_eq_insert, hF] at h
    exact h
  have hW2 : ∀ now, (recordUserLikeInsert s now photoId uid ip ua).2
      = .returned (.success (p.likes + 1) "liked") := fun now => by rw [hW now]
  have hhas : ∀ now, hasUserLikedPhoto (recordUserLikeInsert s now photoId uid ip ua).1
      photoId uid = true := by
    intro now
    rw [hW now]
    simp [hasUserLikedPhoto]
  have hrows : ∀ now, ((recordUserLikeInsert s now photoId uid ip ua).1.user_likes.filter
      (fun r => decide (r.photo_id = photoId) && decide (r.user_identifier = uid))).length
      = 1 := by
    intro now
    rw [hW now]
    have hnil : s.user_likes.filter (fun r =>
        decide (r.photo_id = photoId) && decide (r.user_identifier = uid)) = [] := by
      rw [List.filter_eq_nil_iff]
      intro r hr
      have := (List.any_eq_false.mp hF) r hr
      simpa using this
    simp [List.filter_append, hnil]
  have hlikes : ∀ now, getPhotoById (recordUserLikeInsert s now photoId uid ip ua).1 photoId
      = some { p with likes := p.likes + 1 } := by
    intro now
    rw [hW now]
    show List.find? _ (List.map _ s.photos) = _
    rw [find?_map_keep _ _ _ (by intro q; split <;> rfl)]
    have : List.find? (fun p => decide (p.id = photoId)) s.photos = some p := hp
    rw [this]
    simp [hid, happ]
  -- the steps on the database before and after the winning insert
  have e1 : ∀ now, likeRequestStep s now photoId uid ip ua .toggleCheck = (s, .recordCheck) := by
    intro now; simp [likeRequestStep, hF]
  have e2 : ∀ now, likeRequestStep s now photoId uid ip ua .recordCheck = (s, .recordInsert) := by
    intro now; simp [likeRequestStep, hF]
  have e3 : ∀ now, likeRequestStep s now photoId uid ip ua .recordInsert
      = ((recordUserLikeInsert s now photoId uid ip ua).1,
         .finished (.returned (.success (p.likes + 1) "liked"))) := by
    intro now; simp [likeRequestStep, hW2]
  have e4 : ∀ now now', likeRequestStep (recordUserLikeInsert s now photoId uid ip ua).1 now'
      photoId uid ip ua .recordCheck
      = ((recordUserLikeInsert s now photoId uid ip ua).1,
         .finished (.returned .alreadyLiked)) := by
    intro now now'; simp [likeRequestStep, hhas]
  have e5 : ∀ now now', likeRequestStep (recordUserLikeInsert s now photoId uid ip ua).1 now'
      photoId uid ip ua .recordInsert
      = ((recordUserLikeInsert s now photoId uid ip ua).1,
         .finished (.returned .alreadyLiked)) := by
    intro now now'
    simp [likeRequestStep, (recordUserLikeInsert_taken _ now' photoId uid ip ua (hhas now)).2]
  have e6 : ∀ (x : Store) (now : Nat) (r : Outcome LikeResult),
      likeRequestStep x now photoId uid ip ua (.finished r) = (x, .finished r) :=
    fun _ _ _ => rfl
  refine ⟨?_, fun now now' => recordUserLikeInsert_taken _ now' photoId uid ip ua (hhas now)⟩
  intro schedule hs
  obtain ⟨hlen, _, _, _⟩ := id hs
  match schedule, hlen with
  | [a, b, c, d, e, f], _ =>
    cases a <;> cases b <;> cases c <;> cases d <;> cases e <;> cases f <;>
      first
      | exact absurd hs (by decide)
      | (simp only [runRace, List.foldl, raceStep, e1, e2, e3, e4, e5, e6, if_true,
          Bool.false_eq_true, if_false]
         exact ⟨by simp, hrows _, hlikes _⟩)

theorem collapseUnderscores_sublist : ∀ l : List Char, (collapseUnderscores l).Sublist l
  | [] => List.Sublist.slnil
  | [c] => List.Sublist.refl _
  | c :: d :: rest => by
    unfold collapseUnderscores
    split
    · exact (collapseUnderscores_sublist (d :: rest)).cons _
    · exact (collapseUnderscores_sublist (d :: rest)).cons₂ _

theorem collapseUnderscores_head : ∀ l : List Char,
    (collapseUnderscores l).head? = l.head?
  | [] => rfl
  | [c] => rfl
  | c :: d :: rest => by
    unfold collapseUnderscores
    split
    · rename_i h
      rw [collapseUnderscores_head (d :: rest)]
      simp [h.1, h.2]
    · rfl

theorem collapseUnderscores_chain : ∀ l : List Char,
    (collapseUnderscores l).Chain' (fun a b => ¬ (a = '_' ∧ b = '_'))
  | [] => List.chain'_nil
  | [c] => List.chain'_singleton _
  | c :: d :: rest => by
    unfold collapseUnderscores
    split
    · exact collapseUnderscores_chain (d :: rest)
    · rename_i h
      rw [List.chain'_cons']
      refine ⟨?_, collapseUnderscores_chain (d :: rest)⟩
      intro y hy
      rw [collapseUnderscores_head (d :: rest)] at hy
      simp only [List.head?_cons, Option.mem_def, Option.some.injEq] at hy
      rw [← hy]
      exact h

theorem dropLeadingUnderscore_suffix (l : List Char) : dropLeadingUnderscore l <:+ l := by
  cases l with
  | nil => exact List.suffix_refl _
  | cons c rest =>
    by_cases hc : c = '_'
    · simp only [dropLeadingUnderscore, hc, if_true]
      exact List.suffix_cons _ _
    · simp only [dropLeadingUnderscore, hc, if_false]
      exact List.suffix_refl _

theorem dropLeadingUnderscore_head (l : List Char)
    (h : l.Chain' (fun a b => ¬ (a = '_' ∧ b = '_'))) :
    (dropLeadingUnderscore l).head? ≠ some '_' := by
  cases l with
  | nil => simp [dropLeadingUnderscore]
  | cons c rest =>
    by_cases hc : c = '_'
    · simp only [dropLeadingUnderscore, hc, if_true]
      cases rest with
      | nil => simp
      | cons d rest' =>
        rw [List.chain'_cons] at h
        intro hd
        simp only [List.head?_cons, Option.some.injEq] at hd
        exact h.1 ⟨hc, hd⟩
    · simp only [dropLeadingUnderscore, hc, if_false]
      simpa using hc

theorem dropTrailingUnderscore_prefix (l : List Char) : dropTrailingUnderscore l <+: l := by
  unfold dropTrailingUnderscore
  have := dropLeadingUnderscore_suffix l.reverse
  rw [← List.reverse_prefix] at this
  simpa using this

theorem chain_symm_reverse (l : List Char)
    (h : l.Chain' (fun a b => ¬ (a = '_' ∧ b = '_'))) :
    l.reverse.Chain' (fun a b => ¬ (a = '_' ∧ b = '_')) := by
  rw [List.chain'_reverse]
  refine h.imp ?_
  intro a b hab hba
  exact hab ⟨hba.2, hba.1⟩

theorem head?_of_prefix (p m : List Char) (h : p <+: m) (c : Char) (hm : m.head? ≠ some c) :
    p.head? ≠ some c := by
  obtain ⟨t, rfl⟩ := h
  cases p with
  | nil => simp
  | cons a p' => simpa using hm

theorem digitChar_isDigit : ∀ k : Nat, k < 10 → (Nat.digitChar k).isDigit = true := by
  decide

theorem toDigitsCore_digits (fuel : Nat) : ∀ (n : Nat) (ds : List Char),
    (∀ c ∈ ds, c.isDigit = true) → ∀ c ∈ Nat.toDigitsCore 10 fuel n ds, c.isDigit = true := by
  induction fuel with
  | zero => intro n ds h; simpa [Nat.toDigitsCore] using h
  | succ fuel ih =>
    intro n ds h
    have hd : (Nat.digitChar (n % 10)).isDigit = true :=
      digitChar_isDigit _ (Nat.mod_lt _ (by decide))
    have hcons : ∀ c ∈ Nat.digitChar (n % 10) :: ds, c.isDigit = true := by
      intro c hc
      rcases List.mem_cons.mp hc with rfl | hc
      · exact hd
      · exact h c hc
    unfold Nat.toDigitsCore
    simp only
    split
    · exact hcons
    · exact ih _ _ hcons

theorem repr_digits (n : Nat) : ∀ c ∈ (Nat.repr n).data, c.isDigit = true := by
  unfold Nat.repr Nat.toDigits
  exact toDigitsCore_digits _ _ _ (by simp)

theorem no_dotdot_before_ext : ∀ A : List Char, (∀ c ∈ A, c ≠ '.') →
    ¬ ['.', '.'] <:+: A ++ ['.', 'w', 'e', 'b', 'p']
  | [], _ => by decide
  | a :: A, h => by
    rw [List.cons_append, List.infix_cons_iff]
    rintro (hp | hi)
    · obtain ⟨t, ht⟩ := hp
      have : a = '.' := by
        simp only [List.cons_append, List.cons.injEq] at ht
        exact ht.1.symm
      exact h a (List.mem_cons_self _ _) this
    · exact no_dotdot_before_ext A (fun c hc => h c (List.mem_cons_of_mem _ hc)) hi

theorem safe_char_cases (c : Char) (h : isAsciiAlnum c = true ∨ c = '_' ∨ c.isDigit = true) :
    c ≠ '.' ∧ c ≠ '/' ∧ c ≠ '\\' := by
  refine ⟨?_, ?_, ?_⟩ <;>
  · rintro rfl
    revert h
    decide


theorem safeName_chars (name : String) :
    (∀ c ∈ (safeName name).data, isAsciiAlnum c = true ∨ c = '_') ∧
    (safeName name).data.Chain' (fun a b => ¬ (a = '_' ∧ b = '_')) ∧
    (safeName name).data.head? ≠ some '_' ∧
    (safeName name).data.getLast? ≠ some '_' := by
  have hchain := collapseUnderscores_chain (replaceNonAlnum name.data)
  have hsuf := dropLeadingUnderscore_suffix (collapseUnderscores (replaceNonAlnum name.data))
  have hchain1 : (dropLeadingUnderscore (collapseUnderscores (replaceNonAlnum name.data))).Chain'
      (fun a b => ¬ (a = '_' ∧ b = '_')) := hchain.suffix hsuf
  have hpre := dropTrailingUnderscore_prefix
    (dropLeadingUnderscore (collapseUnderscores (replaceNonAlnum name.data)))
  refine ⟨?_, ?_, ?_, ?_⟩
  · intro c hc
    have h1 : c ∈ dropLeadingUnderscore (collapseUnderscores (replaceNonAlnum name.data)) :=
      hpre.subset hc
    have h2 : c ∈ replaceNonAlnum name.data :=
      (collapseUnderscores_sublist _).subset (hsuf.subset h1)
    unfold replaceNonAlnum at h2
    obtain ⟨x, _, hx⟩ := List.mem_map.mp h2
    by_cases ha : isAsciiAlnum x = true
    · simp only [ha, if_true] at hx
      left; rw [← hx]; exact ha
    · simp only [ha] at hx
      right; exact hx.symm
  · exact hchain1.prefix hpre
  · exact head?_of_prefix _ _ hpre '_' (dropLeadingUnderscore_head _ hchain)
  · show (dropTrailingUnderscore _).getLast? ≠ some '_'
    unfold dropTrailingUnderscore
    rw [List.getLast?_reverse]
    exact dropLeadingUnderscore_head _ (chain_symm_reverse _ hchain1)

/-- Claim C30: for every original filename, whatever `path.parse` makes of it,
and every timestamp, the storage name is `processed_` + safeName + `_` + the
decimal digits of the timestamp + `.webp`; safeName consists of ASCII letters,
digits and underscores only, has no two underscores in a row and neither
starts nor ends with an underscore; and the storage name contains no `/`, no
backslash and no `..`. -/
theorem processedFilename_path_safe (pathName : String → String) (filename : String)
    (now : Nat) :
    processedFilename pathName filename now
      = "processed_" ++ safeName (pathName filename) ++ "_" ++ Nat.repr now ++ ".webp" ∧
    (∀ c ∈ (safeName (pathName filename)).data, isAsciiAlnum c = true ∨ c = '_') ∧
    (safeName (pathName filename)).data.Chain' (fun a b => ¬ (a = '_' ∧ b = '_')) ∧
    ¬ ['_', '_'] <:+: (safeName (pathName filename)).data ∧
    (safeName (pathName filename)).data.head? ≠ some '_' ∧
    (safeName (pathName filename)).data.getLast? ≠ some '_' ∧
    (∀ c ∈ (Nat.repr now).data, c.isDigit = true) ∧
    '/' ∉ (processedFilename pathName filename now).data ∧
    '\\' ∉ (processedFilename pathName filename now).data ∧
    ¬ ['.', '.'] <:+: (processedFilename pathName filename now).data := by
  obtain ⟨h1, h2, h3, h4⟩ := safeName_chars (pathName filename)
  have hdata : (processedFilename pathName filename now).data
      = ("processed_".data ++ (safeName (pathName filename)).data ++ ['_'] ++ (Nat.repr now).data)
        ++ ['.', 'w', 'e', 'b', 'p'] := by
    unfold processedFilename
    simp only [String.data_append]
  have hsafe : ∀ c ∈ "processed_".data ++ (safeName (pathName filename)).data ++ ['_']
      ++ (Nat.repr now).data, c ≠ '.' ∧ c ≠ '/' ∧ c ≠ '\\' := by
    intro c hc
    simp only [List.mem_append, List.mem_singleton] at hc
    rcases hc with ((hc | hc) | hc) | hc
    · revert c
      decide
    · exact safe_char_cases c (by rcases h1 c hc with h | h; exact Or.inl h; exact Or.inr (Or.inl h))
    · exact safe_char_cases c (Or.inr (Or.inl hc))
    · exact safe_char_cases c (Or.inr (Or.inr (repr_digits now c hc)))
  refine ⟨rfl, h1, h2, ?_, h3, h4, repr_digits now, ?_, ?_, ?_⟩
  · intro hin
    have := h2.infix hin
    rw [List.chain'_pair] at this
    exact this ⟨rfl, rfl⟩
  · rw [hdata, List.mem_append]
    rintro (hc | hc)
    · exact (hsafe _ hc).2.1 rfl
    · revert hc; decide
  · rw [hdata, List.mem_append]
    rintro (hc | hc)
    · exact (hsafe _ hc).2.2 rfl
    · revert hc; decide
  · rw [hdata]
    exact no_dotdot_before_ext _ (fun c hc => (hsafe c hc).1)

/-- With any library that meets the contract, the gate lets the refresh token of
`generateTokens` through during its seven days. -/
theorem gate_accepts_refresh (jwt : JwtLib) (hjwt : jwt.Faithful) (secret : String)
    (t0 now : Nat) (user : TokenUser) (tokenBlacklist : Finset String)
    (authHeader : Option String)
    (hh : headerToken authHeader = some (generateTokens jwt secret t0 user).refreshToken)
    (hne : (generateTokens jwt secret t0 user).refreshToken ≠ "")
    (hbl : (generateTokens jwt secret t0 user).refreshToken ∉ tokenBlacklist)
    (hlive : now < t0 + 604800) :
    authenticateToken jwt secret now tokenBlacklist authHeader
      = .next { username := some user.username, id := some user.id, role := some "admin",
                type := some "refresh", iat := some t0, exp := some (t0 + 604800) } := by
  have hv : jwt.verify (generateTokens jwt secret t0 user).refreshToken secret now
      = .ok { username := some user.username, id := some user.id, role := some "admin",
              type := some "refresh", iat := some t0, exp := some (t0 + 604800) } := by
    have := hjwt
      ({ username := some user.username, id := some user.id, role := some "admin",
         type := some "refresh" } : Payload) secret 604800 t0 now
    rw [if_pos hlive] at this
    exact this
  unfold authenticateToken
  rw [hh]
  simp only [hne, if_false, hbl, hv]
  simp

theorem refreshTokenAt_eq_text (n : Nat) :
    refreshTokenAt n = tokenText
      { payload := { username := some "admin", id := some 1, role := some "admin",
                     type := some "refresh" }
        key := sampleSecret, iat := n, exp := n + 604800, nbf := none } := rfl

theorem gate_accepts_refreshTokenAt (n now : Nat) (h : now < n + 604800) :
    authenticateToken referenceJwt sampleSecret now ∅ (some ("Bearer " ++ refreshTokenAt n))
      = .next { username := some "admin", id := some 1, role := some "admin",
                type := some "refresh", iat := some n, exp := some (n + 604800) } :=
  gate_accepts_refresh referenceJwt referenceJwt_faithful sampleSecret n now sampleUser ∅ _
    (headerToken_bearer _ (by rw [refreshTokenAt_eq_text]; exact tokenText_no_space _))
    (by
      show refreshTokenAt n ≠ ""
      rw [refreshTokenAt_eq_text]; exact tokenText_ne_empty _)
    (Finset.not_mem_empty _) h

/-- Claim C29, evaluated: the refresh token of the session opened at time 0,
presented as a bearer token at time 100000 (more than a day later, long after
the 900 seconds of an access token), passes the gate, which calls `next` with
its claims, `type: 'refresh'` included. -/
theorem gate_accepts_refresh_token_after_a_day :
    authenticateToken referenceJwt sampleSecret 100000 ∅
        (some ("Bearer " ++ refreshTokenAt 0))
      = .next { username := some "admin", id := some 1, role := some "admin",
                type := some "refresh", iat := some 0, exp := some (0 + 604800) } ∧
    0 + 900 < 100000 :=
  ⟨gate_accepts_refreshTokenAt 0 100000 (by omega), by omega⟩

/-- Claim C22 fails on empty details: a report body with the reason `spam` and
`details` the empty string, which has at most 500 characters, does not pass the
schema, and the route answers 400 without touching the database. -/
theorem photoReport_rejects_empty_details :
    jsLength "" ≤ 500 ∧
    photoReportValid
      { reason := some (.str "spam"), details := some (.str ""), captchaToken := none,
        unknownKeys := [] } = false ∧
    reportRoute (fun _ _ => true) productionEnv (fun ip ua => ip ++ "|" ++ ua) sampleStore 70
      "photo_1" "10.0.0.2" "ua"
      { reason := some (.str "spam"), details := some (.str ""), captchaToken := none,
        unknownKeys := [] }
      = (sampleStore, .refused 400 "Validation failed") := by
  decide

/-- Claim C22, amended: a report body passes the schema only if its reason is
one of the seven listed values; a body whose reason is missing or anything else
is answered 400 with the database untouched; details may be absent; a details
string passes exactly when it is not empty and its length is at most 500; and
whenever the route gets as far as `recordUserReport`, it calls it with the
reason of the body, which is one of the seven values. -/
theorem photoReport_schema (hcaptcha : String → String → Bool) (env : Env)
    (fingerprint : String → String → String) (s : Store) (now : Nat) (photoId : String)
    (clientIP userAgent : String) (body : ReportBody) :
    (photoReportValid body = true → ∃ r ∈ reportReasons, body.reason = some (.str r)) ∧
    ((¬ ∃ r ∈ reportReasons, body.reason = some (.str r)) →
      reportRoute hcaptcha env fingerprint s now photoId clientIP userAgent body
        = (s, .refused 400 "Validation failed")) ∧
    (∀ r ∈ reportReasons,
      photoReportValid
        { reason := some (.str r), details := none, captchaToken := none, unknownKeys := [] }
        = true) ∧
    (∀ r ∈ reportReasons, ∀ d : String,
      (photoReportValid
        { reason := some (.str r), details := some (.str d), captchaToken := none,
          unknownKeys := [] } = true ↔ d ≠ "" ∧ jsLength d ≤ 500)) ∧
    (∀ d : String, body.details = some (.str d) → 500 < jsLength d →
      reportRoute hcaptcha env fingerprint s now photoId clientIP userAgent body
        = (s, .refused 400 "Validation failed")) ∧
    ((∃ status error,
        reportRoute hcaptcha env fingerprint s now photoId clientIP userAgent body
          = (s, .refused status error)) ∨
      ∃ r ∈ reportReasons, body.reason = some (.str r) ∧
        (reportRoute hcaptcha env fingerprint s now photoId clientIP userAgent body).1
          = (recordUserReport s now photoId (fingerprint clientIP userAgent) r
              (some clientIP) (some userAgent)).1) := by
  have hreason : photoReportValid body = true → ∃ r ∈ reportReasons,
      body.reason = some (.str r) := by
    intro h
    unfold photoReportValid at h
    cases hr : body.reason with
    | none => simp [hr] at h
    | some v =>
      cases v with
      | other => simp [hr] at h
      | str r =>
        simp only [hr, Bool.and_eq_true, decide_eq_true_eq] at h
        exact ⟨r, h.1.1.1, rfl⟩
  have hinvalid : photoReportValid body = false →
      reportRoute hcaptcha env fingerprint s now photoId clientIP userAgent body
        = (s, .refused 400 "Validation failed") := by
    intro h
    unfold reportRoute
    simp [h]
  refine ⟨hreason, ?_, ?_, ?_, ?_, ?_⟩
  · intro h
    apply hinvalid
    by_contra hc
    exact h (hreason (by simpa using hc))
  · intro r hr
    simp [photoReportValid, hr]
  · intro r hr d
    simp [photoReportValid, hr]
  · intro d hd hlen
    apply hinvalid
    unfold photoReportValid
    rw [hd]
    have : ¬ jsLength d ≤ 500 := by omega
    simp [this]
  · by_cases hv : photoReportValid body = true
    · obtain ⟨r, hr, hbr⟩ := hreason hv
      unfold reportRoute
      simp only [hv, Bool.not_true, Bool.false_eq_true, if_false, hbr]
      cases hc : actionCaptchaStep hcaptcha env
          (match body.captchaToken with
            | some (.str t) => some t
            | _ => none) with
      | respond status error => exact Or.inl ⟨status, error, rfl⟩
      | proceed =>
        right
        refine ⟨r, hr, rfl, ?_⟩
        simp only
        split <;> rfl
    · left
      exact ⟨400, "Validation failed", hinvalid (by simpa using hv)⟩

/-- Witness of C22, amended: a body without a reason is answered 400 and
`sampleStore` stays as it was. -/
theorem photoReport_schema_witness :
    reportRoute (fun _ _ => true) productionEnv (fun ip ua => ip ++ "|" ++ ua) sampleStore 70
      "photo_1" "10.0.0.2" "ua"
      { reason := none, details := none, captchaToken := some (.str "P1_eyJ0eXAiOiJKV1Qi"),
        unknownKeys := [] }
      = (sampleStore, .refused 400 "Validation failed") :=
  (photoReport_schema (fun _ _ => true) productionEnv (fun ip ua => ip ++ "|" ++ ua) sampleStore
    70 "photo_1" "10.0.0.2" "ua"
    { reason := none, details := none, captchaToken := some (.str "P1_eyJ0eXAiOiJKV1Qi"),
      unknownKeys := [] }).2.1 (by decide)

theorem rateLimit_general_skips (st : LimiterState) (now : Nat) (key : String) :
    rateLimit generalRateLimit st now key initialStatusCode = (st, false) := by
  simp [rateLimit, generalRateLimit, skipSuccessfulRequests, initialStatusCode]

theorem generalRun_passes (reqs : List (Nat × String)) (st : LimiterState) :
    generalRun st reqs = (st, reqs.map (fun _ => false)) := by
  induction reqs generalizing st with
  | nil => rfl
  | cons q rest ih =>
    obtain ⟨now, ip⟩ := q
    simp only [generalRun, rateLimit_general_skips]
    simp only [Bool.false_eq_true, if_false, rateLimitFinish, generalRateLimit, Bool.false_and,
      ih, List.map_cons]

/-- Claim C26 does not hold of the code: `generalRateLimit` passes `skip:
skipSuccessfulRequests`, which the limiter asks before the route has run, when
the status of the response is still 200; so every request is skipped, nothing
is counted and no request is ever stopped. In particular the 101st of 101
requests of one client at the same moment goes through, and the store of the
limiter is as it was. -/
theorem general_limiter_never_stops :
    (∀ (st : LimiterState) (reqs : List (Nat × String)),
      generalRun st reqs = (st, reqs.map (fun _ => false))) ∧
    (generalRun [] (List.replicate 101 (0, "10.0.0.2"))).2[100]? = some false ∧
    (generalRun [] (List.replicate 101 (0, "10.0.0.2"))).1 = [] := by
  refine ⟨fun st reqs => generalRun_passes reqs st, ?_, ?_⟩
  · rw [generalRun_passes]
    simp
  · rw [generalRun_passes]

theorem get_increment_same (windowMs : Nat) (st : LimiterState) (now : Nat) (key : String) :
    (increment windowMs st now key).1.get key = some (increment windowMs st now key).2 := by
  simp [increment, LimiterState.get]

theorem find?_filter_ne (st : LimiterState) (key other : String) (h : other ≠ key) :
    (st.filter (fun e => e.1 ≠ key)).find? (fun e => e.1 = other)
      = st.find? (fun e => e.1 = other) := by
  induction st with
  | nil => rfl
  | cons e rest ih =>
    by_cases he : e.1 = key
    · have : ¬ e.1 = other := fun e2 => h (e2.symm.trans he)
      rw [List.filter_cons_of_neg (by simpa using he), ih,
        List.find?_cons_of_neg _ (by simpa using this)]
    · rw [List.filter_cons_of_pos (by simpa using he)]
      simp only [List.find?_cons, ih]

theorem get_increment_other (windowMs : Nat) (st : LimiterState) (now : Nat) (key other : String)
    (h : other ≠ key) :
    (increment windowMs st now key).1.get other = st.get other := by
  have hk : ¬ key = other := fun e => h e.symm
  simp only [increment, LimiterState.get, List.find?_cons, hk, decide_False]
  rw [find?_filter_ne st key other h]

theorem loginRoute_login (jwt : JwtLib) (JWT_SECRET : String)
    (bcryptCompare : String → String → Bool) (hcaptcha : String → String → Bool) (env : Env)
    (st : LoginState) (now : Nat) (ip : String) (body : LoginBody) :
    (loginRoute jwt JWT_SECRET bcryptCompare hcaptcha env st now ip body).1.login
      = (increment (15 * 60 * 1000) st.login now ip).1 := by
  simp only [loginRoute, rateLimit_general_skips]
  simp only [Bool.false_eq_true, if_false, rateLimit, adminLoginRateLimit, rateLimitFinish,
    generalRateLimit, Bool.false_and]
  split <;> rfl

theorem loginRoute_reply (jwt : JwtLib) (JWT_SECRET : String)
    (bcryptCompare : String → String → Bool) (hcaptcha : String → String → Bool) (env : Env)
    (st : LoginState) (now : Nat) (ip : String) (body : LoginBody) :
    (3 < (increment (15 * 60 * 1000) st.login now ip).2.totalHits →
      (loginRoute jwt JWT_SECRET bcryptCompare hcaptcha env st now ip body).2 = rateLimitHandler ∧
      (loginRoute jwt JWT_SECRET bcryptCompare hcaptcha env st now ip body).1.admins
        = st.admins) ∧
    ((increment (15 * 60 * 1000) st.login now ip).2.totalHits ≤ 3 →
      (loginRoute jwt JWT_SECRET bcryptCompare hcaptcha env st now ip body).2
        = (validatedLogin jwt JWT_SECRET bcryptCompare hcaptcha env st.admins now body).2 ∧
      (loginRoute jwt JWT_SECRET bcryptCompare hcaptcha env st now ip body).1.admins
        = (validatedLogin jwt JWT_SECRET bcryptCompare hcaptcha env st.admins now body).1) := by
  simp only [loginRoute, rateLimit_general_skips]
  simp only [Bool.false_eq_true, if_false, rateLimit, adminLoginRateLimit, rateLimitFinish,
    generalRateLimit, Bool.false_and]
  constructor
  · intro h
    simp [h]
  · intro h
    have : ¬ 3 < (increment (15 * 60 * 1000) st.login now ip).2.totalHits := by omega
    simp [this]

theorem increment_hits (st : LimiterState) (now : Nat) (ip : String) (t0 k : Nat)
    (hget : if k = 0 then ∀ w, st.get ip = some w → w.resetTime ≤ t0
      else ∃ R, t0 + 15 * 60 * 1000 ≤ R ∧ st.get ip = some { totalHits := k, resetTime := R })
    (h0 : t0 ≤ now) (h1 : now < t0 + 15 * 60 * 1000) :
    ∃ R, t0 + 15 * 60 * 1000 ≤ R ∧
      (increment (15 * 60 * 1000) st now ip).2 = { totalHits := k + 1, resetTime := R } := by
  by_cases hk : k = 0
  · subst hk
    simp only [if_true] at hget
    refine ⟨now + 15 * 60 * 1000, by omega, ?_⟩
    unfold increment
    cases hg : st.get ip with
    | none => rfl
    | some w =>
      have := hget w hg
      have hle : w.resetTime ≤ now := by omega
      simp [hle]
  · simp only [hk, if_false] at hget
    obtain ⟨R, hR, hg⟩ := hget
    refine ⟨R, hR, ?_⟩
    unfold increment
    have hnot : ¬ R ≤ now := by omega
    simp [hg, hnot]

theorem loginRun_window (jwt : JwtLib) (JWT_SECRET : String)
    (bcryptCompare : String → String → Bool) (hcaptcha : String → String → Bool) (env : Env)
    (ip : String) (t0 : Nat) (pre : List LoginRequest) (st : LoginState) (k : Nat)
    (hst : LoginWindow ip t0 k st)
    (hwin : ∀ r ∈ pre, r.ip = ip → t0 ≤ r.now ∧ r.now < t0 + 15 * 60 * 1000) :
    LoginWindow ip t0 (k + (pre.filter (fun r => r.ip = ip)).length)
      (loginRun jwt JWT_SECRET bcryptCompare hcaptcha env st pre).1 := by
  induction pre generalizing st k with
  | nil => simpa [loginRun] using hst
  | cons q rest ih =>
    simp only [loginRun]
    have hrest : ∀ r ∈ rest, r.ip = ip → t0 ≤ r.now ∧ r.now < t0 + 15 * 60 * 1000 :=
      fun r hr => hwin r (List.mem_cons_of_mem _ hr)
    by_cases hq : q.ip = ip
    · have hw := hwin q (List.mem_cons_self _ _) hq
      obtain ⟨R, hR, hinc⟩ := increment_hits st.login q.now ip t0 k hst hw.1 hw.2
      have hnext : LoginWindow ip t0 (k + 1)
          (loginRoute jwt JWT_SECRET bcryptCompare hcaptcha env st q.now q.ip q.body).1 := by
        unfold LoginWindow
        rw [if_neg (by omega), loginRoute_login, hq, get_increment_same, hinc]
        exact ⟨R, hR, rfl⟩
      have := ih _ (k + 1) hnext hrest
      simpa [List.filter_cons, hq, Nat.add_assoc, Nat.add_comm 1] using this
    · have hnext : LoginWindow ip t0 k
          (loginRoute jwt JWT_SECRET bcryptCompare hcaptcha env st q.now q.ip q.body).1 := by
        unfold LoginWindow at hst ⊢
        rw [loginRoute_login, get_increment_other _ _ _ _ _ (fun e => hq e.symm)]
        exact hst
      have := ih _ k hnext hrest
      simpa [List.filter_cons, hq] using this

theorem loginRun_append (jwt : JwtLib) (JWT_SECRET : String)
    (bcryptCompare : String → String → Bool) (hcaptcha : String → String → Bool) (env : Env)
    (pre : List LoginRequest) (q : LoginRequest) (st : LoginState) :
    loginRun jwt JWT_SECRET bcryptCompare hcaptcha env st (pre ++ [q])
      = ((loginRoute jwt JWT_SECRET bcryptCompare hcaptcha env
            (loginRun jwt JWT_SECRET bcryptCompare hcaptcha env st pre).1 q.now q.ip q.body).1,
          (loginRun jwt JWT_SECRET bcryptCompare hcaptcha env st pre).2 ++
            [(loginRoute jwt JWT_SECRET bcryptCompare hcaptcha env
              (loginRun jwt JWT_SECRET bcryptCompare hcaptcha env st pre).1 q.now q.ip
              q.body).2]) := by
  induction pre generalizing st with
  | nil => simp [loginRun]
  | cons p rest ih => simp [loginRun, ih]

theorem validatedLogin_status (jwt : JwtLib) (JWT_SECRET : String)
    (bcryptCompare : String → String → Bool) (hcaptcha : String → String → Bool) (env : Env)
    (admins : List AdminUser) (now : Nat) (body : LoginBody) :
    (validatedLogin jwt JWT_SECRET bcryptCompare hcaptcha env admins now body).2.status ≠ 429 := by
  unfold validatedLogin
  split
  · simp [LoginResponse.status]
  · unfold loginHandler
    split
    · split
      · simp [LoginResponse.status]
      · split
        · rename_i status error hc
          have : status = 400 := by
            unfold loginCaptchaStep at hc
            split at hc
            · cases hc; rfl
            · simp only at hc
              split at hc
              · split at hc
                · cases hc; rfl
                · cases hc
              · cases hc
          simp [LoginResponse.status, this]
        · split
          · simp [LoginResponse.status]
          · split <;> simp [LoginResponse.status]
    · simp [LoginResponse.status]

/-- Claim C21: take a client whose login window is not running at time `t0`,
and a run of login requests (of any clients) in which those of this client fall
in the 15 minutes from `t0`. For a request `q` of the client after the run
`pre`, with `k` earlier requests of the client: if `k < 3` the request reaches
validation and the handler, whose answer (never 429) is the answer; if `3 ≤ k`
the limiter answers 429, whatever the body holds, and table `admin_users`
(with `last_login`) is as before the request. -/
theorem adminLogin_throttled (jwt : JwtLib) (JWT_SECRET : String)
    (bcryptCompare : String → String → Bool) (hcaptcha : String → String → Bool) (env : Env)
    (st : LoginState) (t0 : Nat) (pre : List LoginRequest) (q : LoginRequest)
    (hfresh : ∀ w, st.login.get q.ip = some w → w.resetTime ≤ t0)
    (hwin : ∀ r ∈ pre ++ [q], r.ip = q.ip → t0 ≤ r.now ∧ r.now < t0 + 15 * 60 * 1000) :
    (loginRun jwt JWT_SECRET bcryptCompare hcaptcha env st (pre ++ [q])).2
      = (loginRun jwt JWT_SECRET bcryptCompare hcaptcha env st pre).2 ++
          [(loginRoute jwt JWT_SECRET bcryptCompare hcaptcha env
            (loginRun jwt JWT_SECRET bcryptCompare hcaptcha env st pre).1 q.now q.ip
            q.body).2] ∧
    ((pre.filter (fun r => r.ip = q.ip)).length < 3 →
      (loginRoute jwt JWT_SECRET bcryptCompare hcaptcha env
          (loginRun jwt JWT_SECRET bcryptCompare hcaptcha env st pre).1 q.now q.ip q.body).2
        = (validatedLogin jwt JWT_SECRET bcryptCompare hcaptcha env
          (loginRun jwt JWT_SECRET bcryptCompare hcaptcha env st pre).1.admins q.now q.body).2 ∧
      (validatedLogin jwt JWT_SECRET bcryptCompare hcaptcha env
          (loginRun jwt JWT_SECRET bcryptCompare hcaptcha env st pre).1.admins q.now
          q.body).2.status ≠ 429) ∧
    (3 ≤ (pre.filter (fun r => r.ip = q.ip)).length →
      (loginRoute jwt JWT_SECRET bcryptCompare hcaptcha env
          (loginRun jwt JWT_SECRET bcryptCompare hcaptcha env st pre).1 q.now q.ip q.body).2
        = rateLimitHandler ∧
      rateLimitHandler.status = 429 ∧
      (loginRun jwt JWT_SECRET bcryptCompare hcaptcha env st (pre ++ [q])).1.admins
        = (loginRun jwt JWT_SECRET bcryptCompare hcaptcha env st pre).1.admins) := by
  have hpre : ∀ r ∈ pre, r.ip = q.ip → t0 ≤ r.now ∧ r.now < t0 + 15 * 60 * 1000 :=
    fun r hr => hwin r (List.mem_append_left _ hr)
  have hq := hwin q (by simp) rfl
  have hinv := loginRun_window jwt JWT_SECRET bcryptCompare hcaptcha env q.ip t0 pre st 0
    (by simpa [LoginWindow] using hfresh) hpre
  rw [Nat.zero_add] at hinv
  obtain ⟨R, -, hinc⟩ := increment_hits _ q.now q.ip t0 _ hinv hq.1 hq.2
  have hreply := loginRoute_reply jwt JWT_SECRET bcryptCompare hcaptcha env
    (loginRun jwt JWT_SECRET bcryptCompare hcaptcha env st pre).1 q.now q.ip q.body
  rw [hinc] at hreply
  rw [loginRun_append]
  refine ⟨rfl, ?_, ?_⟩
  · intro hk
    exact ⟨(hreply.2 (by simp only; omega)).1, validatedLogin_status _ _ _ _ _ _ _ _⟩
  · intro hk
    have := hreply.1 (by simp only; omega)
    exact ⟨this.1, rfl, this.2⟩

/-- Witness of C21: three logins with a wrong password and then one with the
right password, all of client `10.0.0.2` within a minute: the fourth is
answered 429 and the administrator still has no `last_login`. -/
theorem adminLogin_throttled_witness :
    (loginRoute referenceJwt sampleSecret sampleCompare (fun _ _ => true) productionEnv
        (loginRun referenceJwt sampleSecret sampleCompare (fun _ _ => true) productionEnv
          freshLogin
          [⟨1000, "10.0.0.2", loginBody "guess-1"⟩, ⟨2000, "10.0.0.2", loginBody "guess-2"⟩,
           ⟨3000, "10.0.0.2", loginBody "guess-3"⟩]).1
        4000 "10.0.0.2" (loginBody "correct-horse")).2 = rateLimitHandler ∧
    (loginRun referenceJwt sampleSecret sampleCompare (fun _ _ => true) productionEnv
      freshLogin
      [⟨1000, "10.0.0.2", loginBody "guess-1"⟩, ⟨2000, "10.0.0.2", loginBody "guess-2"⟩,
       ⟨3000, "10.0.0.2", loginBody "guess-3"⟩,
       ⟨4000, "10.0.0.2", loginBody "correct-horse"⟩]).1.admins = sampleAdmins := by
  have h := (adminLogin_throttled referenceJwt sampleSecret sampleCompare (fun _ _ => true)
    productionEnv freshLogin 1000
    [⟨1000, "10.0.0.2", loginBody "guess-1"⟩, ⟨2000, "10.0.0.2", loginBody "guess-2"⟩,
     ⟨3000, "10.0.0.2", loginBody "guess-3"⟩]
    ⟨4000, "10.0.0.2", loginBody "correct-horse"⟩ (by decide) (by decide)).2.2 (by decide)
  refine ⟨h.1, h.2.2.trans ?_⟩
  decide

/-- Witness of C25: in `sampleStore`, two like requests of visitor `fp_b` for
the approved photo, taking turns step by step: the first gets the like, the
second gets `{ alreadyLiked: true }`, and one row for the pair results. -/
theorem like_race_backstop_witness :
    ((runRace 50 51 samplePhoto.id "fp_b" none none sampleStore
          [true, false, true, false, true, false]).first
        = .finished (.returned (.success (samplePhoto.likes + 1) "liked")) ∧
      (runRace 50 51 samplePhoto.id "fp_b" none none sampleStore
          [true, false, true, false, true, false]).second
        = .finished (.returned .alreadyLiked)) ∧
    ((runRace 50 51 samplePhoto.id "fp_b" none none sampleStore
        [true, false, true, false, true, false]).db.user_likes.filter (fun r =>
      decide (r.photo_id = samplePhoto.id) && decide (r.user_identifier = "fp_b"))).length = 1 := by
  have h := (like_race_backstop sampleStore 50 51 samplePhoto.id "fp_b" none none samplePhoto
    (by decide) (by decide) (by decide)).1 [true, false, true, false, true, false] (by decide)
  refine ⟨?_, h.2.1⟩
  rcases h.1 with h1 | h1
  · exact h1
  · exact absurd h1.1 (by decide)

end Gallery
